import Mathlib

/-!
# ecom_mid: inventory reservation protocol, money, and the order aggregate

A shallow embedding of `domain/inventory/inventory.go`,
`domain/common/vo/money.go`, `domain/order/order.go` and the order use case
`usecase/order/order_usecase.go`.

Conventions of the embedding

* Go's `int` is the 64-bit two's-complement integer: a value of `GoInt` is a
  mathematical integer in `[minInt, maxInt]`, and `+`, `-` wrap around
  (`GoInt.add`, `GoInt.sub`), as the Go language defines for signed overflow.
* `uint` identifiers are never computed with; they are natural numbers.
* A method with a pointer receiver that returns `error` becomes a function
  returning the receiver after the call together with the error
  (`none` is Go's `nil`, `some msg` is `errors.New(msg)`).
* `time.Now()` is an input of the call: the clock reading is passed as `now`.
* A pointer to another aggregate is an optional reference.
* Go's `float64` is IEEE 754 binary64, modelled exactly by `F64`: every
  operation computes the exact result and rounds it to the nearest
  representable value, ties to even.
* The repositories of the use case are interfaces whose implementations are
  injected: each repository method the use case calls is a field of
  `OrderUseCase`, the function from the arguments to what the call returns,
  and every writing call is recorded in the `World` the use case runs in.
-/

namespace EcomMid

/-- Smallest value of Go's `int` (64-bit target). -/
def minInt : Int := -9223372036854775808

/-- Largest value of Go's `int` (64-bit target). -/
def maxInt : Int := 9223372036854775807

/-- Two's-complement wrap-around of a mathematical integer into the range of `int`. -/
def wrapInt (x : Int) : Int :=
  (x + 9223372036854775808) % 18446744073709551616 - 9223372036854775808

/-- A value of Go's `int`. -/
abbrev GoInt := { x : Int // minInt ≤ x ∧ x ≤ maxInt }

namespace GoInt

/-- Conversion of a mathematical integer to `int`, wrapping around. -/
def ofInt (x : Int) : GoInt :=
  ⟨wrapInt x, by unfold wrapInt minInt maxInt; omega⟩

/-- Go's `a + b` on `int`. -/
def add (a b : GoInt) : GoInt := ofInt (a.val + b.val)

/-- Go's `a - b` on `int`. -/
def sub (a b : GoInt) : GoInt := ofInt (a.val - b.val)

instance (n : Nat) : OfNat GoInt n := ⟨ofInt n⟩

end GoInt

/-- Go's `time.Time`, as an abstract clock reading. -/
abbrev Time := Nat

/-- Go's `error`: `none` is `nil`, `some msg` is `errors.New(msg)`. -/
abbrev GoError := Option String

namespace common

/-- The base entity of `domain/common/entity.go`. -/
structure Entity where
  ID : Nat
  CreatedAt : Time
  UpdatedAt : Time
  deriving DecidableEq, Repr

end common

namespace inventory

/-- The stock level of a product in a warehouse (`inventory.go`, `Inventory`). -/
structure Inventory where
  Entity : common.Entity
  InventoryID : Nat
  ProductID : Nat
  VariantID : Option Nat
  WarehouseID : Nat
  Quantity : GoInt
  ReservedQuantity : GoInt
  UpdatedAt : Time
  Warehouse : Option Nat
  deriving DecidableEq, Repr

namespace Inventory

/-- `GetAvailableQuantity`: `i.Quantity - i.ReservedQuantity`. -/
def GetAvailableQuantity (i : Inventory) : GoInt :=
  i.Quantity.sub i.ReservedQuantity

/-- `IsInStock`: `i.GetAvailableQuantity() > 0`. -/
def IsInStock (i : Inventory) : Bool :=
  decide (0 < i.GetAvailableQuantity.val)

/-- `CanFulfill`: `i.GetAvailableQuantity() >= quantity`. -/
def CanFulfill (i : Inventory) (quantity : GoInt) : Bool :=
  decide (quantity.val ≤ i.GetAvailableQuantity.val)

/-- `AddStock` adds stock to the inventory. -/
def AddStock (i : Inventory) (quantity : GoInt) (now : Time) : Inventory × GoError :=
  if quantity.val ≤ 0 then
    (i, some "quantity must be greater than zero")
  else
    ({ i with Quantity := i.Quantity.add quantity, UpdatedAt := now }, none)

/-- `RemoveStock` removes stock from the inventory. -/
def RemoveStock (i : Inventory) (quantity : GoInt) (now : Time) : Inventory × GoError :=
  if quantity.val ≤ 0 then
    (i, some "quantity must be greater than zero")
  else if i.Quantity.val < quantity.val then
    (i, some "insufficient stock")
  else
    ({ i with Quantity := i.Quantity.sub quantity, UpdatedAt := now }, none)

/-- `ReserveStock` reserves stock for an order. -/
def ReserveStock (i : Inventory) (quantity : GoInt) (now : Time) : Inventory × GoError :=
  if quantity.val ≤ 0 then
    (i, some "quantity must be greater than zero")
  else if i.GetAvailableQuantity.val < quantity.val then
    (i, some "insufficient available stock")
  else
    ({ i with ReservedQuantity := i.ReservedQuantity.add quantity, UpdatedAt := now }, none)

/-- `ReleaseReservedStock` releases previously reserved stock. -/
def ReleaseReservedStock (i : Inventory) (quantity : GoInt) (now : Time) :
    Inventory × GoError :=
  if quantity.val ≤ 0 then
    (i, some "quantity must be greater than zero")
  else if i.ReservedQuantity.val < quantity.val then
    (i, some "trying to release more than reserved")
  else
    ({ i with ReservedQuantity := i.ReservedQuantity.sub quantity, UpdatedAt := now }, none)

/-- `CommitReservedStock` converts reserved stock to actual deduction. -/
def CommitReservedStock (i : Inventory) (quantity : GoInt) (now : Time) :
    Inventory × GoError :=
  if quantity.val ≤ 0 then
    (i, some "quantity must be greater than zero")
  else if i.ReservedQuantity.val < quantity.val then
    (i, some "trying to commit more than reserved")
  else
    ({ i with
        Quantity := i.Quantity.sub quantity,
        ReservedQuantity := i.ReservedQuantity.sub quantity,
        UpdatedAt := now }, none)

end Inventory

/-- One call of a state-changing method of `Inventory`, with its argument. -/
inductive Call where
  | AddStock (quantity : GoInt)
  | RemoveStock (quantity : GoInt)
  | ReserveStock (quantity : GoInt)
  | ReleaseReservedStock (quantity : GoInt)
  | CommitReservedStock (quantity : GoInt)
  deriving DecidableEq, Repr

/-- The record and error after one call made at clock reading `now`. -/
def Inventory.call (i : Inventory) (c : Call) (now : Time) : Inventory × GoError :=
  match c with
  | .AddStock q => i.AddStock q now
  | .RemoveStock q => i.RemoveStock q now
  | .ReserveStock q => i.ReserveStock q now
  | .ReleaseReservedStock q => i.ReleaseReservedStock q now
  | .CommitReservedStock q => i.CommitReservedStock q now

/-- The record after a sequence of calls, each with its clock reading; the
errors of failed calls are dropped and the sequence goes on. -/
def Inventory.run (i : Inventory) : List (Call × Time) → Inventory
  | [] => i
  | (c, now) :: rest => Inventory.run (i.call c now).1 rest

/-- The stock invariant of the data model: `0 <= ReservedQuantity <= Quantity`. -/
def Inventory.Invariant (i : Inventory) : Prop :=
  0 ≤ i.ReservedQuantity.val ∧ i.ReservedQuantity.val ≤ i.Quantity.val

instance (i : Inventory) : Decidable i.Invariant := by
  unfold Inventory.Invariant; infer_instance

/-- A record with the given stock levels and every other field zero. -/
def Inventory.ofStock (quantity reserved : GoInt) : Inventory :=
  { Entity := ⟨0, 0, 0⟩, InventoryID := 0, ProductID := 0, VariantID := none,
    WarehouseID := 0, Quantity := quantity, ReservedQuantity := reserved,
    UpdatedAt := 0, Warehouse := none }

/-- The guard under which a call keeps the stock invariant: an `AddStock`
whose sum fits in `int`, and a `RemoveStock` that takes no more than the
available quantity (or that fails). The other three calls carry no guard. -/
def Call.Guarded (i : Inventory) : Call → Prop
  | .AddStock q => i.Quantity.val + q.val ≤ maxInt
  | .RemoveStock q =>
      q.val ≤ i.Quantity.val - i.ReservedQuantity.val ∨ i.Quantity.val < q.val
  | .ReserveStock _ => True
  | .ReleaseReservedStock _ => True
  | .CommitReservedStock _ => True

/-- Every call of the sequence meets its guard on the record it is made on. -/
def Inventory.GuardedRun (i : Inventory) : List (Call × Time) → Prop
  | [] => True
  | (c, now) :: rest => c.Guarded i ∧ Inventory.GuardedRun (i.call c now).1 rest

end inventory

/-- A value of Go's `float64` (IEEE 754 binary64): `finite neg m e` is
`(-1)^neg * m * 2^e`, with `m < 2^53`, `-1074 <= e <= 971`, and `m >= 2^52`
unless `e = -1074` (subnormal numbers and the two zeros). -/
inductive F64 where
  | finite (neg : Bool) (m : Nat) (e : Int)
  | inf (neg : Bool)
  | nan
  deriving DecidableEq, Repr

namespace F64

/-- The zero of the given sign. -/
def zero (neg : Bool) : F64 := finite neg 0 (-1074)

/-- The number of binary digits of `n`, computed in at most `fuel` halvings. -/
def bitLength : Nat → Nat → Nat
  | 0, _ => 0
  | fuel + 1, n => if n = 0 then 0 else bitLength fuel (n / 2) + 1

/-- The binary exponent at which `n / d` is rounded: the exponent `e` with
`2^(e+52) <= n / d < 2^(e+53)`, so that the quotient has 53 binary digits,
and at least `-1074`, the exponent of the subnormal numbers. -/
def roundExp (n d : Nat) : Int :=
  let l : Int := (bitLength n n : Int) - (bitLength d d : Int)
  let e1 : Int := if d * 2 ^ l.toNat ≤ n * 2 ^ (-l).toNat then l - 52 else l - 53
  max e1 (-1074)

/-- The integer nearest to `num / den`, the even one of two at equal distance. -/
def roundQuot (num den : Nat) : Nat :=
  if den < 2 * (num % den) ∨ (2 * (num % den) = den ∧ (num / den) % 2 = 1) then
    num / den + 1
  else
    num / den

/-- The `float64` `(-1)^neg * q * 2^e` for a rounded mantissa `q <= 2^53`:
a mantissa that rounding has carried to `2^53` is renormalised, and an
exponent above `971` gives infinity. -/
def pack (neg : Bool) (q : Nat) (e : Int) : F64 :=
  if q = 9007199254740992 then
    (if 971 < e + 1 then inf neg else finite neg 4503599627370496 (e + 1))
  else
    (if 971 < e then inf neg else finite neg q e)

/-- The `float64` nearest to `(-1)^neg * n / d` (for `d > 0`), ties to the even
mantissa, overflowing to infinity: the rounding that ends every arithmetic
operation. -/
def nearest (neg : Bool) (n d : Nat) : F64 :=
  if n = 0 then zero neg
  else
    pack neg
      (roundQuot (n * 2 ^ (-(roundExp n d)).toNat) (d * 2 ^ (roundExp n d).toNat))
      (roundExp n d)

/-- The `float64` nearest to the integer `i / 2^k` scaled by `2^e`: the value
`i * 2^e` for an integer `i`, rounded. -/
def ofScaled (i : Int) (e : Int) : F64 :=
  nearest (decide (i < 0)) (i.natAbs * 2 ^ e.toNat) (2 ^ (-e).toNat)

/-- Go's conversion `float64(i)` of an integer. -/
def ofInt (i : Int) : F64 := ofScaled i 0

instance (n : Nat) : OfNat F64 n := ⟨ofInt n⟩

/-- The `float64` a decimal constant `n / d` of the source denotes. -/
def lit (n d : Nat) : F64 := nearest false n d

/-- An exponent `g` such that both `m * 2^e` and `k * 2^f` are integer
multiples of `2^g`: the smaller exponent, a zero mantissa setting no bound. -/
def commonExp (m : Nat) (e : Int) (k : Nat) (f : Int) : Int :=
  if m = 0 then f else if k = 0 then e else min e f

/-- The value of a finite `float64` as an integer multiple of `2^g`, for
`g` at most its exponent (or a zero mantissa). -/
def scaled (s : Bool) (m : Nat) (e g : Int) : Int :=
  (if s then -1 else 1) * (m * 2 ^ (e - g).toNat : Nat)

/-- Go's unary `-x`. -/
def neg : F64 → F64
  | finite s m e => finite (!s) m e
  | inf s => inf (!s)
  | nan => nan

/-- Go's `x + y`. -/
def add : F64 → F64 → F64
  | nan, _ => nan
  | _, nan => nan
  | inf s, inf t => if s = t then inf s else nan
  | inf s, finite _ _ _ => inf s
  | finite _ _ _, inf t => inf t
  | finite s m e, finite t k f =>
    let g : Int := commonExp m e k f
    let a : Int := scaled s m e g
    let b : Int := scaled t k f g
    if a + b = 0 then zero (s && t) else ofScaled (a + b) g

/-- Go's `x - y`. -/
def sub (x y : F64) : F64 := add x (neg y)

/-- Go's `x * y`. -/
def mul : F64 → F64 → F64
  | nan, _ => nan
  | _, nan => nan
  | inf s, inf t => inf (xor s t)
  | inf s, finite t k _ => if k = 0 then nan else inf (xor s t)
  | finite s m _, inf t => if m = 0 then nan else inf (xor s t)
  | finite s m e, finite t k f =>
    if m = 0 ∨ k = 0 then zero (xor s t)
    else nearest (xor s t) (m * k * 2 ^ (e + f).toNat) (2 ^ (-(e + f)).toNat)

/-- Go's `x / y`. -/
def div : F64 → F64 → F64
  | nan, _ => nan
  | _, nan => nan
  | inf _, inf _ => nan
  | inf s, finite t _ _ => inf (xor s t)
  | finite s _ _, inf t => zero (xor s t)
  | finite s m e, finite t k f =>
    if k = 0 then (if m = 0 then nan else inf (xor s t))
    else if m = 0 then zero (xor s t)
    else nearest (xor s t) (m * 2 ^ (e - f).toNat) (k * 2 ^ (f - e).toNat)

/-- Go's `math.Round(x)`: the nearest integer, halves away from zero;
zeros, infinities and NaN are returned as they are. -/
def Round : F64 → F64
  | nan => nan
  | inf s => inf s
  | finite s m e =>
    if 0 ≤ e then finite s m e
    else if e < -54 then zero s
    else nearest s ((2 * m + 2 ^ (-e).toNat) / (2 * 2 ^ (-e).toNat)) 1

/-- Go's `x < y`. -/
def lt : F64 → F64 → Bool
  | nan, _ => false
  | _, nan => false
  | inf s, inf t => s && !t
  | inf s, finite _ _ _ => s
  | finite _ _ _, inf t => !t
  | finite s m e, finite t k f =>
    decide (scaled s m e (commonExp m e k f) < scaled t k f (commonExp m e k f))

/-- Go's `x == y`: false on NaN, and the two zeros are equal. -/
def eq : F64 → F64 → Bool
  | nan, _ => false
  | _, nan => false
  | inf s, inf t => s == t
  | inf _, finite _ _ _ => false
  | finite _ _ _, inf _ => false
  | finite s m e, finite t k f =>
    decide (scaled s m e (commonExp m e k f) = scaled t k f (commonExp m e k f))

/-- The exact value of a finite `float64` as a rational number (`0` for
infinities and NaN). -/
def toRat : F64 → ℚ
  | finite s m e => (if s then -1 else 1) * (m : ℚ) * 2 ^ e
  | inf _ => 0
  | nan => 0

/-- The `float64` is finite and its exact value is an integer. -/
def IsInteger (x : F64) : Prop :=
  ∃ s m e, x = finite s m e ∧ ∃ z : ℤ, toRat x = z

/-- `x` approximates the rational `v` as a rounded `float64` does in the
normal range: `x` is a zero when `v = 0`, and otherwise a normal number with
the sign of `v` and relative error at most `2^-53`. -/
def Approx (x : F64) (v : ℚ) : Prop :=
  ∃ s m e, x = finite s m e ∧
    ((m = 0 ∧ e = -1074 ∧ v = 0) ∨
     (4503599627370496 ≤ m ∧ m < 9007199254740992 ∧ v ≠ 0 ∧ (s = true ↔ v < 0))) ∧
    9007199254740992 * |toRat x - v| ≤ |v|

end F64

namespace vo

/-- The money value object of `domain/common/vo/money.go`; `Amount` is a
`float64`. -/
structure Money where
  Amount : F64
  Currency : String
  deriving DecidableEq, Repr

/-- `NewMoney` creates a new Money value object with validation. -/
def NewMoney (amount : F64) (currency : String) : Money × GoError :=
  if currency = "" then
    (⟨0, ""⟩, some "currency cannot be empty")
  else
    (⟨F64.div (F64.Round (F64.mul amount 100)) 100, currency⟩, none)

namespace Money

/-- `Add` adds the amount of another Money object and returns a new Money object. -/
def Add (m other : Money) : Money × GoError :=
  if m.Currency ≠ other.Currency then
    (⟨0, ""⟩, some "cannot add different currencies")
  else
    NewMoney (F64.add m.Amount other.Amount) m.Currency

/-- `Subtract` subtracts the amount of another Money object and returns a new
Money object. -/
def Subtract (m other : Money) : Money × GoError :=
  if m.Currency ≠ other.Currency then
    (⟨0, ""⟩, some "cannot subtract different currencies")
  else
    NewMoney (F64.sub m.Amount other.Amount) m.Currency

/-- `Multiply` multiplies the amount by a factor and returns a new Money object. -/
def Multiply (m : Money) (factor : F64) : Money × GoError :=
  NewMoney (F64.mul m.Amount factor) m.Currency

/-- `IsZero` checks if the money amount is zero. -/
def IsZero (m : Money) : Bool := F64.eq m.Amount 0

/-- `IsNegative` checks if the money amount is negative. -/
def IsNegative (m : Money) : Bool := F64.lt m.Amount 0

/-- `IsPositive` checks if the money amount is positive. -/
def IsPositive (m : Money) : Bool := F64.lt 0 m.Amount

/-- `Equals` checks if two money objects are equal. -/
def Equals (m other : Money) : Bool :=
  F64.eq m.Amount other.Amount && decide (m.Currency = other.Currency)

end Money

/-- The `float64` amount of `k` hundredths, as Go computes `float64(k) / 100`:
the `float64` nearest to the decimal number `k / 100`. -/
def centsAmount (k : Int) : F64 := F64.div (F64.ofInt k) 100

/-- The money value is exactly `k` hundredths: its `Amount` is
`float64(k) / 100`, or the negative zero when `k = 0`. This is a statement
about the value alone; no operation of `Money` takes part in it. -/
def Money.IsCents (m : Money) (k : Int) : Prop :=
  m.Amount = centsAmount k ∨ (k = 0 ∧ m.Amount = F64.zero true)

instance (m : Money) (k : Int) : Decidable (m.IsCents k) := by
  unfold Money.IsCents; infer_instance

end vo

namespace order

/-- `type OrderStatus string`. -/
abbrev OrderStatus := String

def OrderStatusPending : OrderStatus := "pending"
def OrderStatusProcessing : OrderStatus := "processing"
def OrderStatusShipped : OrderStatus := "shipped"
def OrderStatusDelivered : OrderStatus := "delivered"
def OrderStatusCancelled : OrderStatus := "cancelled"

/-- `type PaymentStatus string`. -/
abbrev PaymentStatus := String

def PaymentStatusPending : PaymentStatus := "pending"
def PaymentStatusPaid : PaymentStatus := "paid"
def PaymentStatusFailed : PaymentStatus := "failed"
def PaymentStatusRefunded : PaymentStatus := "refunded"

/-- `type ShipmentStatus string` (`shipment.go`). -/
abbrev ShipmentStatus := String

/-- A product in an order (`OrderItem`). -/
structure OrderItem where
  Entity : common.Entity
  OrderItemID : Nat
  OrderID : Nat
  ProductID : Nat
  VariantID : Option Nat
  SKU : String
  Name : String
  Quantity : GoInt
  UnitPrice : vo.Money
  Subtotal : vo.Money
  Tax : vo.Money
  Discount : vo.Money
  Total : vo.Money
  deriving DecidableEq, Repr

/-- A change in order status (`OrderStatusHistory`). -/
structure OrderStatusHistory where
  Entity : common.Entity
  HistoryID : Nat
  OrderID : Nat
  Status : OrderStatus
  Comment : String
  StaffID : Option Nat
  CreatedAt : Time
  deriving DecidableEq, Repr

/-- A physical shipment of an order (`shipment.go`, `Shipment`). -/
structure Shipment where
  Entity : common.Entity
  ShipmentID : Nat
  OrderID : Nat
  TrackingNumber : String
  Carrier : String
  ShippingDate : Option Time
  ExpectedDeliveryDate : Option Time
  Status : ShipmentStatus
  CreatedAt : Time
  UpdatedAt : Time
  Order : Option Nat
  deriving DecidableEq, Repr

/-- A payment transaction for an order (`payment.go`, `Transaction`). -/
structure Transaction where
  Entity : common.Entity
  TransactionID : Nat
  OrderID : Nat
  PaymentMethodID : Nat
  TransactionDate : Time
  Amount : vo.Money
  Status : PaymentStatus
  ReferenceNumber : String
  GatewayResponse : String
  GatewayTransactionID : String
  Order : Option Nat
  PaymentMethod : Option Nat
  deriving DecidableEq, Repr

/-- A customer's order (`Order`). -/
structure Order where
  Entity : common.Entity
  OrderID : Nat
  CustomerID : Nat
  OrderNumber : String
  OrderDate : Time
  Status : OrderStatus
  Subtotal : vo.Money
  ShippingFee : vo.Money
  TaxAmount : vo.Money
  DiscountAmount : vo.Money
  TotalAmount : vo.Money
  PaymentMethodID : Nat
  PaymentStatus : PaymentStatus
  ShippingAddressID : Nat
  BillingAddressID : Nat
  Notes : String
  CreatedAt : Time
  UpdatedAt : Time
  Customer : Option Nat
  PaymentMethod : Option Nat
  ShippingAddress : Option Nat
  BillingAddress : Option Nat
  Items : List OrderItem
  StatusHistory : List OrderStatusHistory
  Shipments : List Shipment
  Transactions : List Transaction
  deriving DecidableEq, Repr

/-- `isValidStatusTransition` checks if a status transition is valid. -/
def isValidStatusTransition (current new : OrderStatus) : Bool :=
  if current = OrderStatusPending then
    new == OrderStatusProcessing || new == OrderStatusCancelled
  else if current = OrderStatusProcessing then
    new == OrderStatusShipped || new == OrderStatusCancelled
  else if current = OrderStatusShipped then
    new == OrderStatusDelivered || new == OrderStatusCancelled
  else if current = OrderStatusDelivered then
    false
  else if current = OrderStatusCancelled then
    false
  else
    false

namespace Order

/-- `AddStatusHistory` adds a status change to history; it returns `nil`. -/
def AddStatusHistory (o : Order) (status : OrderStatus) (comment : String)
    (staffID : Option Nat) (now : Time) : Order × GoError :=
  let history : OrderStatusHistory :=
    { Entity := ⟨0, 0, 0⟩, HistoryID := 0, OrderID := o.OrderID, Status := status,
      Comment := comment, StaffID := staffID, CreatedAt := now }
  ({ o with StatusHistory := o.StatusHistory ++ [history] }, none)

/-- `UpdateStatus` updates the order status and adds to history. -/
def UpdateStatus (o : Order) (status : OrderStatus) (comment : String)
    (staffID : Option Nat) (now : Time) : Order × GoError :=
  if !isValidStatusTransition o.Status status then
    (o, some "invalid status transition")
  else
    AddStatusHistory { o with Status := status } status comment staffID now

/-- The loop of `recalculateOrderTotals` that sums all item totals into
`subtotal`; it stops at the first failing addition. -/
def sumItemTotals (subtotal : vo.Money) : List OrderItem → vo.Money × GoError
  | [] => (subtotal, none)
  | item :: rest =>
    match subtotal.Add item.Total with
    | (_, some err) => (subtotal, some err)
    | (newSubtotal, none) => sumItemTotals newSubtotal rest

/-- The second half of `recalculateOrderTotals`, "calculate final total":
starting from `o.Subtotal`, add the shipping fee, add the tax and subtract the
discount, each only if it is not zero; it stops at the first failing step. -/
def totalWithFees (o : Order) : vo.Money × GoError :=
  match (if !o.ShippingFee.IsZero then o.Subtotal.Add o.ShippingFee
         else (o.Subtotal, none)) with
  | (_, some err) => (o.Subtotal, some err)
  | (total1, none) =>
    match (if !o.TaxAmount.IsZero then total1.Add o.TaxAmount else (total1, none)) with
    | (_, some err) => (total1, some err)
    | (total2, none) =>
      match (if !o.DiscountAmount.IsZero then total2.Subtract o.DiscountAmount
             else (total2, none)) with
      | (_, some err) => (total2, some err)
      | (total3, none) => (total3, none)

/-- `recalculateOrderTotals` recalculates all order totals based on items:
`Subtotal` is written once the loop over the items has passed, `TotalAmount`
once the fees have been applied. -/
def recalculateOrderTotals (o : Order) : Order × GoError :=
  match sumItemTotals (vo.NewMoney 0 "THB").1 o.Items with
  | (_, some err) => (o, some err)
  | (subtotal, none) =>
    match totalWithFees { o with Subtotal := subtotal } with
    | (_, some err) => ({ o with Subtotal := subtotal }, some err)
    | (total, none) => ({ o with Subtotal := subtotal, TotalAmount := total }, none)

/-- `AddItem` adds a product to the order. -/
def AddItem (o : Order) (item : OrderItem) : Order × GoError :=
  if o.Status ≠ OrderStatusPending then
    (o, some "cannot add items to a non-pending order")
  else
    match item.UnitPrice.Multiply (F64.ofInt item.Quantity.val) with
    | (_, some err) => (o, some err)
    | (total, none) =>
      recalculateOrderTotals
        { o with Items := o.Items ++ [{ item with Subtotal := total, Total := total }] }

/-- The loop of `UpdateItem` over the items: the items after the loop, whether
the item was found, and the error that ended the loop early. -/
def updateItemLoop (itemID : Nat) (quantity : GoInt) :
    List OrderItem → List OrderItem × Bool × GoError
  | [] => ([], false, none)
  | item :: rest =>
    if item.OrderItemID = itemID then
      match item.UnitPrice.Multiply (F64.ofInt quantity.val) with
      | (_, some err) => (item :: rest, false, some err)
      | (newTotal, none) =>
        ({ item with Quantity := quantity, Subtotal := newTotal, Total := newTotal } :: rest,
          true, none)
    else
      match updateItemLoop itemID quantity rest with
      | (items, found, err) => (item :: items, found, err)

/-- `UpdateItem` updates an existing item in the order. -/
def UpdateItem (o : Order) (itemID : Nat) (quantity : GoInt) : Order × GoError :=
  if o.Status ≠ OrderStatusPending then
    (o, some "cannot update items in a non-pending order")
  else if quantity.val ≤ 0 then
    (o, some "quantity must be greater than zero")
  else
    match updateItemLoop itemID quantity o.Items with
    | (_, _, some err) => (o, some err)
    | (items, found, none) =>
      if !found then
        ({ o with Items := items }, some "item not found in order")
      else
        recalculateOrderTotals { o with Items := items }

/-- The loop of `RemoveItem`: the index of the first item with the given ID. -/
def findItemIndex (itemID : Nat) : List OrderItem → Option Nat
  | [] => none
  | item :: rest =>
    if item.OrderItemID = itemID then some 0
    else (findItemIndex itemID rest).map (· + 1)

/-- `RemoveItem` removes an item from the order. -/
def RemoveItem (o : Order) (itemID : Nat) : Order × GoError :=
  if o.Status ≠ OrderStatusPending then
    (o, some "cannot remove items from a non-pending order")
  else
    match findItemIndex itemID o.Items with
    | none => (o, some "item not found in order")
    | some itemIndex =>
      recalculateOrderTotals
        { o with Items := o.Items.take itemIndex ++ o.Items.drop (itemIndex + 1) }

/-- `SetShippingFee` sets the shipping fee for the order. -/
def SetShippingFee (o : Order) (fee : vo.Money) : Order × GoError :=
  if o.Status ≠ OrderStatusPending then
    (o, some "cannot update shipping fee in a non-pending order")
  else
    recalculateOrderTotals { o with ShippingFee := fee }

/-- `SetDiscount` sets a discount amount for the order. -/
def SetDiscount (o : Order) (discount : vo.Money) : Order × GoError :=
  if o.Status ≠ OrderStatusPending then
    (o, some "cannot update discount in a non-pending order")
  else
    recalculateOrderTotals { o with DiscountAmount := discount }

/-- `SetTaxAmount` sets the tax amount for the order. -/
def SetTaxAmount (o : Order) (tax : vo.Money) : Order × GoError :=
  if o.Status ≠ OrderStatusPending then
    (o, some "cannot update tax in a non-pending order")
  else
    recalculateOrderTotals { o with TaxAmount := tax }

/-- `UpdatePaymentStatus` updates the payment status of the order; the error
of the inner `UpdateStatus` is dropped, as in the source. -/
def UpdatePaymentStatus (o : Order) (status : order.PaymentStatus) (now : Time) : Order :=
  let o1 : Order := { o with PaymentStatus := status }
  if status = PaymentStatusPaid ∧ o1.Status = OrderStatusPending then
    (o1.UpdateStatus OrderStatusProcessing "Payment received, order processing" none now).1
  else
    o1

/-- `AddShipment` adds a shipment to the order. -/
def AddShipment (o : Order) (shipment : Shipment) (now : Time) : Order × GoError :=
  if o.Status ≠ OrderStatusProcessing then
    (o, some "can only add shipment to processing orders")
  else
    UpdateStatus { o with Shipments := o.Shipments ++ [{ shipment with OrderID := o.OrderID }] }
      OrderStatusShipped "Order shipped" none now

/-- `Cancel` cancels the order. -/
def Cancel (o : Order) (reason : String) (staffID : Option Nat) (now : Time) :
    Order × GoError :=
  if o.Status = OrderStatusDelivered then
    (o, some "cannot cancel a delivered order")
  else
    o.UpdateStatus OrderStatusCancelled reason staffID now

end Order

/-- `NewOrder` creates a new order with validation; `orderDate` and `now` are
the two clock readings it takes. -/
def NewOrder (customerID : Nat) (orderNumber : String) (paymentMethodID : Nat)
    (shippingAddressID : Nat) (billingAddressID : Nat) (notes : String)
    (orderDate now : Time) : Option Order × GoError :=
  if customerID = 0 then (none, some "customer ID is required")
  else if orderNumber = "" then (none, some "order number is required")
  else if paymentMethodID = 0 then (none, some "payment method is required")
  else if shippingAddressID = 0 then (none, some "shipping address is required")
  else if billingAddressID = 0 then (none, some "billing address is required")
  else
    let order : Order :=
      { Entity := ⟨0, 0, 0⟩, OrderID := 0, CustomerID := customerID,
        OrderNumber := orderNumber, OrderDate := orderDate, Status := OrderStatusPending,
        Subtotal := (vo.NewMoney 0 "THB").1, ShippingFee := (vo.NewMoney 0 "THB").1,
        TaxAmount := (vo.NewMoney 0 "THB").1, DiscountAmount := (vo.NewMoney 0 "THB").1,
        TotalAmount := (vo.NewMoney 0 "THB").1, PaymentMethodID := paymentMethodID,
        PaymentStatus := PaymentStatusPending, ShippingAddressID := shippingAddressID,
        BillingAddressID := billingAddressID, Notes := notes, CreatedAt := 0, UpdatedAt := 0,
        Customer := none, PaymentMethod := none, ShippingAddress := none,
        BillingAddress := none, Items := [], StatusHistory := [], Shipments := [],
        Transactions := [] }
    (some (order.AddStatusHistory OrderStatusPending "Order created" none now).1, none)

/-- The allowed transitions of the order status machine, as the table of the
specification lists them: `(from, to)`. -/
def allowedTransitions : List (OrderStatus × OrderStatus) :=
  [("pending", "processing"), ("pending", "cancelled"),
   ("processing", "shipped"), ("processing", "cancelled"),
   ("shipped", "delivered"), ("shipped", "cancelled")]

/-- The five status strings the code knows. -/
def knownStatuses : List OrderStatus :=
  ["pending", "processing", "shipped", "delivered", "cancelled"]

/-- An order in the given status with the given history and every other
field zero or empty. -/
def Order.ofStatus (status : OrderStatus) (history : List OrderStatusHistory) : Order :=
  { Entity := ⟨0, 0, 0⟩, OrderID := 0, CustomerID := 0, OrderNumber := "", OrderDate := 0,
    Status := status, Subtotal := ⟨0, ""⟩, ShippingFee := ⟨0, ""⟩, TaxAmount := ⟨0, ""⟩,
    DiscountAmount := ⟨0, ""⟩, TotalAmount := ⟨0, ""⟩, PaymentMethodID := 0,
    PaymentStatus := "", ShippingAddressID := 0, BillingAddressID := 0, Notes := "",
    CreatedAt := 0, UpdatedAt := 0, Customer := none, PaymentMethod := none,
    ShippingAddress := none, BillingAddress := none, Items := [],
    StatusHistory := history, Shipments := [], Transactions := [] }

/-- One call of an exported mutating method of `Order`, with its arguments. -/
inductive OrderCall where
  | AddItem (item : OrderItem)
  | UpdateItem (itemID : Nat) (quantity : GoInt)
  | RemoveItem (itemID : Nat)
  | SetShippingFee (fee : vo.Money)
  | SetDiscount (discount : vo.Money)
  | SetTaxAmount (tax : vo.Money)
  | UpdateStatus (status : OrderStatus) (comment : String) (staffID : Option Nat)
  | AddStatusHistory (status : OrderStatus) (comment : String) (staffID : Option Nat)
  | UpdatePaymentStatus (status : PaymentStatus)
  | AddShipment (shipment : Shipment)
  | Cancel (reason : String) (staffID : Option Nat)
  deriving DecidableEq, Repr

/-- The order and error after one call made at clock reading `now`
(`UpdatePaymentStatus` returns nothing, so its error is `nil`). -/
def Order.call (o : Order) (c : OrderCall) (now : Time) : Order × GoError :=
  match c with
  | .AddItem item => o.AddItem item
  | .UpdateItem itemID quantity => o.UpdateItem itemID quantity
  | .RemoveItem itemID => o.RemoveItem itemID
  | .SetShippingFee fee => o.SetShippingFee fee
  | .SetDiscount discount => o.SetDiscount discount
  | .SetTaxAmount tax => o.SetTaxAmount tax
  | .UpdateStatus status comment staffID => o.UpdateStatus status comment staffID now
  | .AddStatusHistory status comment staffID => o.AddStatusHistory status comment staffID now
  | .UpdatePaymentStatus status => (o.UpdatePaymentStatus status now, none)
  | .AddShipment shipment => o.AddShipment shipment now
  | .Cancel reason staffID => o.Cancel reason staffID now

/-- The order after a sequence of calls, each with its clock reading; the
errors of failed calls are dropped and the sequence goes on. -/
def Order.run (o : Order) : List (OrderCall × Time) → Order
  | [] => o
  | (c, now) :: rest => Order.run (o.call c now).1 rest

/-- Status and history agree: the history is non-empty and the `Status` of
its last entry is the order's `Status`. -/
def Order.StatusInSync (o : Order) : Prop :=
  o.StatusHistory.getLast?.map (fun h => h.Status) = some o.Status

instance (o : Order) : Decidable o.StatusInSync := by
  unfold Order.StatusInSync; infer_instance

/-- The guard under which a call keeps status and history in agreement: a
direct `AddStatusHistory` records the status the order is in. The other calls
carry no guard. -/
def OrderCall.RecordsCurrentStatus (o : Order) : OrderCall → Prop
  | .AddStatusHistory status _ _ => status = o.Status
  | _ => True

/-- Every call of the sequence meets `RecordsCurrentStatus` on the order it
is made on. -/
def Order.RecordsCurrentStatusRun (o : Order) : List (OrderCall × Time) → Prop
  | [] => True
  | (c, now) :: rest =>
    c.RecordsCurrentStatus o ∧ Order.RecordsCurrentStatusRun (o.call c now).1 rest

/-- The items and fees of the order in hundredths: the `Total` of the `i`-th
item is exactly `ks[i]` hundredths, and `ShippingFee`, `TaxAmount` and
`DiscountAmount` are exactly `ship`, `tax` and `disc` hundredths. -/
def Order.HasCents (o : Order) (ks : List Int) (ship tax disc : Int) : Prop :=
  List.Forall₂ (fun (i : OrderItem) (k : Int) => i.Total.IsCents k) o.Items ks ∧
  o.ShippingFee.IsCents ship ∧ o.TaxAmount.IsCents tax ∧ o.DiscountAmount.IsCents disc

/-- The totals invariant in the words of the specification, over the integers:
`Subtotal` is exactly the sum of the item totals `ks`, and `TotalAmount` is
exactly that sum plus the shipping fee plus the tax minus the discount, all in
hundredths and in THB. The sums are sums of integers: neither the loop over
the items nor any operation of `Money` takes part in this definition. -/
def Order.ExactTotals (o : Order) (ks : List Int) (ship tax disc : Int) : Prop :=
  o.Subtotal.IsCents ks.sum ∧ o.Subtotal.Currency = "THB" ∧
  o.TotalAmount.IsCents (ks.sum + ship + tax - disc) ∧ o.TotalAmount.Currency = "THB"

/-- Every item total and every fee that is not zero is in THB: the condition
under which `recalculateOrderTotals` succeeds. -/
def Order.AllTHB (o : Order) : Prop :=
  (∀ i ∈ o.Items, i.Total.Currency = "THB") ∧
  (o.ShippingFee.IsZero = true ∨ o.ShippingFee.Currency = "THB") ∧
  (o.TaxAmount.IsZero = true ∨ o.TaxAmount.Currency = "THB") ∧
  (o.DiscountAmount.IsZero = true ∨ o.DiscountAmount.Currency = "THB")

instance (o : Order) : Decidable o.AllTHB := by
  unfold Order.AllTHB; infer_instance

/-- The six calls that mutate items or fees. -/
def OrderCall.IsItemOrFee : OrderCall → Prop
  | .AddItem _ => True
  | .UpdateItem _ _ => True
  | .RemoveItem _ => True
  | .SetShippingFee _ => True
  | .SetDiscount _ => True
  | .SetTaxAmount _ => True
  | _ => False

/-- The zero value of `OrderItem` with the given ID, unit price and quantity. -/
def OrderItem.ofPrice (itemID : Nat) (unitPrice : vo.Money) (quantity : GoInt) : OrderItem :=
  { Entity := ⟨0, 0, 0⟩, OrderItemID := itemID, OrderID := 0, ProductID := 0,
    VariantID := none, SKU := "", Name := "", Quantity := quantity, UnitPrice := unitPrice,
    Subtotal := ⟨0, ""⟩, Tax := ⟨0, ""⟩, Discount := ⟨0, ""⟩, Total := ⟨0, ""⟩ }

/-- The order `NewOrder(1, "ORD-1", 1, 1, 1, "")` returns, taken at clock
reading `0`. -/
def Order.sample : Order :=
  ((NewOrder 1 "ORD-1" 1 1 1 "" 0 0).1).getD (Order.ofStatus "" [])

/-- The order `NewOrder` returns after two items of `10.00` and `5.05` THB, a
shipping fee of `40.00`, a tax of `1.54` and a discount of `2.00` THB. -/
def Order.sampleWithFees : Order :=
  Order.sample.run
    [(OrderCall.AddItem (OrderItem.ofPrice 1 (vo.NewMoney (F64.lit 10 1) "THB").1 1), 1),
     (OrderCall.AddItem (OrderItem.ofPrice 2 (vo.NewMoney (F64.lit 505 100) "THB").1 1), 2),
     (OrderCall.SetShippingFee (vo.NewMoney (F64.lit 40 1) "THB").1, 3),
     (OrderCall.SetTaxAmount (vo.NewMoney (F64.lit 154 100) "THB").1, 4),
     (OrderCall.SetDiscount (vo.NewMoney (F64.lit 2 1) "THB").1, 5)]

end order

namespace order

/-- The order `NewOrder(1, "ORD-1", 1, 1, 1, "")` returns after `AddItem` of
two units of product 1 at `NewMoney(10, "THB")`: a pending order with one
item. -/
def Order.sampleWithItem : Order :=
  (Order.sample.AddItem
    { OrderItem.ofPrice 1 (vo.NewMoney 10 "THB").1 2 with ProductID := 1 }).1

/-- `Order.sampleWithItem` after `UpdatePaymentStatus(paid)` at clock reading
3: an order in processing with one item. -/
def Order.sampleProcessing : Order :=
  Order.sampleWithItem.UpdatePaymentStatus PaymentStatusPaid 3

def ShipmentStatusPending : ShipmentStatus := "pending"
def ShipmentStatusShipped : ShipmentStatus := "shipped"
def ShipmentStatusDelivered : ShipmentStatus := "delivered"
def ShipmentStatusFailed : ShipmentStatus := "failed"

/-- `MarkAsShipped` updates the shipment status to shipped. -/
def Shipment.MarkAsShipped (s : Shipment) (now : Time) : Shipment :=
  { s with Status := ShipmentStatusShipped, ShippingDate := some now, UpdatedAt := now }

end order

namespace product

/-- `type ProductStatus string`. -/
abbrev ProductStatus := String

/-- `type ProductVariantStatus string`. -/
abbrev ProductVariantStatus := String

/-- A specific variant of a product (`variant.go`, `ProductVariant`); the
attribute and image lists, which no modelled method reads, are left out. -/
structure ProductVariant where
  Entity : common.Entity
  VariantID : Nat
  ProductID : Nat
  SKU : String
  Price : vo.Money
  SpecialPrice : Option vo.Money
  StockQuantity : GoInt
  Weight : F64
  Status : ProductVariantStatus
  deriving DecidableEq, Repr

/-- A product in the system (`product.go`, `Product`); the category,
attribute and image lists, which no modelled method reads, are left out. -/
structure Product where
  Entity : common.Entity
  ProductID : Nat
  SKU : String
  Name : String
  Description : String
  ShortDescription : String
  Price : vo.Money
  SpecialPrice : Option vo.Money
  SpecialPriceStart : Option Time
  SpecialPriceEnd : Option Time
  Cost : Option vo.Money
  Weight : F64
  Length : F64
  Width : F64
  Height : F64
  Status : ProductStatus
  MetaTitle : String
  MetaDescription : String
  MetaKeywords : String
  Variants : List ProductVariant
  deriving DecidableEq, Repr

/-- `GetCurrentPrice` of a variant returns the current applicable price
(special or regular). -/
def ProductVariant.GetCurrentPrice (v : ProductVariant) : vo.Money :=
  match v.SpecialPrice with
  | some special => if !special.IsZero then special else v.Price
  | none => v.Price

/-- `HasActiveSpecialPrice` checks if the product has an active special price. -/
def Product.HasActiveSpecialPrice (p : Product) (now : Time) : Bool :=
  match p.SpecialPrice with
  | none => false
  | some special =>
    if special.IsZero then false
    else if p.SpecialPriceStart = none ∧ p.SpecialPriceEnd = none then true
    else if (match p.SpecialPriceStart with
             | some start => decide (now < start)
             | none => false) then false
    else if (match p.SpecialPriceEnd with
             | some stop => decide (stop < now)
             | none => false) then false
    else true

/-- `GetCurrentPrice` returns the current applicable price (special or
regular). -/
def Product.GetCurrentPrice (p : Product) (now : Time) : vo.Money :=
  if p.HasActiveSpecialPrice now then
    (match p.SpecialPrice with
     | some special => special
     | none => p.Price)
  else p.Price

/-- The zero value of `Product` with the given ID, SKU, name and price. -/
def Product.sample (productID : Nat) (sku name : String) (price : vo.Money) : Product :=
  { Entity := ⟨0, 0, 0⟩, ProductID := productID, SKU := sku, Name := name, Description := "",
    ShortDescription := "", Price := price, SpecialPrice := none, SpecialPriceStart := none,
    SpecialPriceEnd := none, Cost := none, Weight := 0, Length := 0, Width := 0, Height := 0,
    Status := "", MetaTitle := "", MetaDescription := "", MetaKeywords := "", Variants := [] }

end product

namespace usecase

open inventory order product

/-- `OrderUseCase`: the collaborators of the order use case. Each repository
method that the modelled methods call is the function from its arguments to
what the call returns; `Create` of a shipment takes a pointer, so it also
returns the shipment as the repository leaves it. The field
`inventoryUseCase` of the source is a pointer to a type outside the source
that no method of `OrderUseCase` calls; the stock records behind it are the
`inventories` of `World`. -/
structure OrderUseCase where
  orderFindByID : Nat → Option Order × GoError
  orderUpdate : Order → GoError
  productFindByID : Nat → Option Product × GoError
  transactionCreate : Transaction → GoError
  shipmentCreate : Shipment → Shipment × GoError
  shipmentUpdate : Shipment → GoError

/-- One writing call on a repository, with its argument. -/
inductive RepoCall where
  | transactionCreate (transaction : Transaction)
  | shipmentCreate (shipment : Shipment)
  | shipmentUpdate (shipment : Shipment)
  | orderUpdate (ord : Order)
  deriving DecidableEq, Repr

/-- The state a use case method runs in: the stock records, and the writing
repository calls made so far, in order. A repository call acts on its own
store only, so the stock records change only where a method changes them. -/
structure World where
  inventories : List Inventory
  calls : List RepoCall
  deriving DecidableEq, Repr

/-- The world after one more repository call. -/
def World.record (w : World) (c : RepoCall) : World :=
  { w with calls := w.calls ++ [c] }

/-- The loop of `AddItemToOrder` over the variants of the product: the first
variant with the given ID. -/
def findVariant (variantID : Nat) : List ProductVariant → Option ProductVariant
  | [] => none
  | variant :: rest =>
    if variant.VariantID = variantID then some variant else findVariant variantID rest

namespace OrderUseCase

/-- `AddItemToOrder` adds a product to an order. The source reserves no
stock: "For simplicity, we're skipping the actual inventory reservation
here". -/
def AddItemToOrder (uc : OrderUseCase) (w : World) (orderID productID : Nat)
    (variantID : Option Nat) (quantity : GoInt) (now : Time) : World × GoError :=
  if quantity.val ≤ 0 then (w, some "quantity must be greater than zero")
  else
    match uc.orderFindByID orderID with
    | (_, some err) => (w, some err)
    | (none, none) => (w, some "order not found")
    | (some ord, none) =>
      if ord.Status ≠ OrderStatusPending then
        (w, some "cannot add items to a non-pending order")
      else
        match uc.productFindByID productID with
        | (_, some err) => (w, some err)
        | (none, none) => (w, some "product not found")
        | (some prod, none) =>
          match (match variantID with
                 | none => some (prod.SKU, prod.GetCurrentPrice now)
                 | some id =>
                   (findVariant id prod.Variants).map
                     (fun (variant : ProductVariant) => (variant.SKU, variant.GetCurrentPrice))) with
          | none => (w, some "variant not found for this product")
          | some (sku, price) =>
            match price.Multiply (F64.ofInt quantity.val) with
            | (_, some err) => (w, some err)
            | (subtotal, none) =>
              let item : OrderItem :=
                { Entity := ⟨0, 0, 0⟩, OrderItemID := 0, OrderID := orderID,
                  ProductID := productID, VariantID := variantID, SKU := sku,
                  Name := prod.Name, Quantity := quantity, UnitPrice := price,
                  Subtotal := subtotal, Tax := (vo.NewMoney 0 price.Currency).1,
                  Discount := (vo.NewMoney 0 price.Currency).1, Total := subtotal }
              match ord.AddItem item with
              | (_, some err) => (w, some err)
              | (ord1, none) => (w.record (.orderUpdate ord1), uc.orderUpdate ord1)

/-- `ProcessPayment` processes a payment for an order. -/
def ProcessPayment (uc : OrderUseCase) (w : World) (orderID : Nat)
    (referenceNumber gatewayResponse gatewayTransactionID : String) (now : Time) :
    World × GoError :=
  match uc.orderFindByID orderID with
  | (_, some err) => (w, some err)
  | (none, none) => (w, some "order not found")
  | (some ord, none) =>
    let transaction : Transaction :=
      { Entity := ⟨0, 0, 0⟩, TransactionID := 0, OrderID := orderID,
        PaymentMethodID := ord.PaymentMethodID, TransactionDate := now,
        Amount := ord.TotalAmount, Status := PaymentStatusPaid,
        ReferenceNumber := referenceNumber, GatewayResponse := gatewayResponse,
        GatewayTransactionID := gatewayTransactionID, Order := none, PaymentMethod := none }
    match uc.transactionCreate transaction with
    | some err => (w.record (.transactionCreate transaction), some err)
    | none =>
      match (ord.UpdatePaymentStatus PaymentStatusPaid now).UpdateStatus
          OrderStatusProcessing "Payment received, order processing" none now with
      | (_, some err) => (w.record (.transactionCreate transaction), some err)
      | (ord1, none) =>
        ((w.record (.transactionCreate transaction)).record (.orderUpdate ord1),
          uc.orderUpdate ord1)

/-- `CreateShipment` creates a shipment for an order. The source commits no
reserved stock: "For simplicity, we're skipping the actual inventory
commitment here". -/
def CreateShipment (uc : OrderUseCase) (w : World) (orderID : Nat)
    (trackingNumber carrier : String) (expectedDeliveryDate : Option Time) (now : Time) :
    World × GoError :=
  match uc.orderFindByID orderID with
  | (_, some err) => (w, some err)
  | (none, none) => (w, some "order not found")
  | (some ord, none) =>
    if ord.Status ≠ OrderStatusProcessing then
      (w, some "can only create shipment for processing orders")
    else
      let shipment : Shipment :=
        { Entity := ⟨0, 0, 0⟩, ShipmentID := 0, OrderID := orderID,
          TrackingNumber := trackingNumber, Carrier := carrier, ShippingDate := none,
          ExpectedDeliveryDate := expectedDeliveryDate, Status := ShipmentStatusPending,
          CreatedAt := now, UpdatedAt := now, Order := none }
      match ord.AddShipment shipment now with
      | (_, some err) => (w, some err)
      | (ord1, none) =>
        match uc.shipmentCreate shipment with
        | (_, some err) => (w.record (.shipmentCreate shipment), some err)
        | (created, none) =>
          match uc.shipmentUpdate (created.MarkAsShipped now) with
          | some err =>
            ((w.record (.shipmentCreate shipment)).record
              (.shipmentUpdate (created.MarkAsShipped now)), some err)
          | none =>
            ((((w.record (.shipmentCreate shipment)).record
              (.shipmentUpdate (created.MarkAsShipped now))).record (.orderUpdate ord1)),
              uc.orderUpdate ord1)

/-- `CancelOrder` cancels an order. The source releases no reserved stock:
"For simplicity, we're skipping the actual inventory release here". -/
def CancelOrder (uc : OrderUseCase) (w : World) (orderID : Nat) (reason : String)
    (staffID : Option Nat) (now : Time) : World × GoError :=
  match uc.orderFindByID orderID with
  | (_, some err) => (w, some err)
  | (none, none) => (w, some "order not found")
  | (some ord, none) =>
    match ord.Cancel reason staffID now with
    | (_, some err) => (w, some err)
    | (ord1, none) => (w.record (.orderUpdate ord1), uc.orderUpdate ord1)

end OrderUseCase

/-- Repositories that hold one order, under its `OrderID`, and one product,
under its `ProductID`, and accept every write. -/
def OrderUseCase.holding (ord : Order) (prod : Product) : OrderUseCase :=
  { orderFindByID := fun id => if id = ord.OrderID then (some ord, none) else (none, none)
    orderUpdate := fun _ => none
    productFindByID := fun id =>
      if id = prod.ProductID then (some prod, none) else (none, none)
    transactionCreate := fun _ => none
    shipmentCreate := fun shipment => (shipment, none)
    shipmentUpdate := fun _ => none }

/-- A world with one stock record, for the given product, and no repository
call made. -/
def World.ofStock (productID : Nat) (quantity reserved : GoInt) : World :=
  { inventories := [{ Inventory.ofStock quantity reserved with ProductID := productID }],
    calls := [] }

end usecase

open inventory order product usecase

/-! ## Arithmetic of `int` -/

theorem GoInt.lower (a : GoInt) : -9223372036854775808 ≤ a.val := a.property.1

theorem GoInt.upper (a : GoInt) : a.val ≤ 9223372036854775807 := a.property.2

theorem GoInt.add_val (a b : GoInt) : (a.add b).val = wrapInt (a.val + b.val) := rfl

theorem GoInt.sub_val (a b : GoInt) : (a.sub b).val = wrapInt (a.val - b.val) := rfl

/-- Inside the range of `int` wrapping changes nothing. -/
theorem wrapInt_of_range (x : Int) (h1 : -9223372036854775808 ≤ x)
    (h2 : x ≤ 9223372036854775807) : wrapInt x = x := by
  unfold wrapInt; omega

/-- The sum of two `int`s above `maxInt` wraps to the sum less `2^64`. -/
theorem wrapInt_of_above (x : Int) (h1 : 9223372036854775807 < x)
    (h2 : x ≤ 27670116110564327423) : wrapInt x = x - 18446744073709551616 := by
  unfold wrapInt; omega

/-- The difference of two `int`s below `minInt` wraps to the difference plus `2^64`. -/
theorem wrapInt_of_below (x : Int) (h1 : x < -9223372036854775808)
    (h2 : -27670116110564327424 ≤ x) : wrapInt x = x + 18446744073709551616 := by
  unfold wrapInt; omega

/-! ## The stock invariant under sequences of calls -/

/-- A guarded call keeps the stock invariant, whether it succeeds or fails. -/
theorem Inventory.call_invariant (i : Inventory) (c : Call) (now : Time)
    (h : i.Invariant) (hg : c.Guarded i) : (i.call c now).1.Invariant := by
  have hQl := i.Quantity.lower
  have hQu := i.Quantity.upper
  have hRl := i.ReservedQuantity.lower
  have hRu := i.ReservedQuantity.upper
  unfold Inventory.Invariant at h ⊢
  cases c with
  | AddStock q =>
    have hql := q.lower
    simp only [Call.Guarded, maxInt] at hg
    simp only [Inventory.call, Inventory.AddStock]
    split_ifs with h1
    · exact h
    · simp only [GoInt.add_val]
      rw [wrapInt_of_range _ (by omega) (by omega)]
      omega
  | RemoveStock q =>
    simp only [Call.Guarded] at hg
    simp only [Inventory.call, Inventory.RemoveStock]
    split_ifs with h1 h2
    · exact h
    · exact h
    · simp only [GoInt.sub_val]
      rw [wrapInt_of_range _ (by omega) (by omega)]
      omega
  | ReserveStock q =>
    simp only [Inventory.call, Inventory.ReserveStock, Inventory.GetAvailableQuantity,
      GoInt.sub_val]
    split_ifs with h1 h2
    · exact h
    · exact h
    · rw [wrapInt_of_range _ (by omega) (by omega)] at h2
      simp only [GoInt.add_val]
      rw [wrapInt_of_range _ (by omega) (by omega)]
      omega
  | ReleaseReservedStock q =>
    simp only [Inventory.call, Inventory.ReleaseReservedStock]
    split_ifs with h1 h2
    · exact h
    · exact h
    · simp only [GoInt.sub_val]
      rw [wrapInt_of_range _ (by omega) (by omega)]
      omega
  | CommitReservedStock q =>
    simp only [Inventory.call, Inventory.CommitReservedStock]
    split_ifs with h1 h2
    · exact h
    · exact h
    · simp only [GoInt.sub_val]
      rw [wrapInt_of_range (i.Quantity.val - q.val) (by omega) (by omega),
        wrapInt_of_range (i.ReservedQuantity.val - q.val) (by omega) (by omega)]
      omega

/-- C1, as stated, fails: on the record with `Quantity = 10` and
`ReservedQuantity = 5`, which satisfies `0 <= ReservedQuantity <= Quantity`,
the call `RemoveStock(8)` succeeds and leaves `Quantity = 2` below
`ReservedQuantity = 5`. -/
theorem C1_RemoveStock_breaks_invariant :
    (Inventory.ofStock 10 5).Invariant ∧
    ((Inventory.ofStock 10 5).RemoveStock 8 1).2 = none ∧
    ((Inventory.ofStock 10 5).run [(Call.RemoveStock 8, 1)]).Quantity.val = 2 ∧
    ((Inventory.ofStock 10 5).run [(Call.RemoveStock 8, 1)]).ReservedQuantity.val = 5 ∧
    ¬ ((Inventory.ofStock 10 5).run [(Call.RemoveStock 8, 1)]).Invariant := by
  decide

/-- C1, amended: a record that satisfies `0 <= ReservedQuantity <= Quantity`
still satisfies it after every finite sequence of calls to `AddStock`,
`RemoveStock`, `ReserveStock`, `ReleaseReservedStock` and
`CommitReservedStock` (arbitrary arguments, failed calls included) in which
every `RemoveStock(q)` is made with `q` at most the available quantity (or
fails) and every `AddStock(q)` has `Quantity + q` within `int`. -/
theorem C1_invariant_guarded_run (i : Inventory) (calls : List (Call × Time))
    (h : i.Invariant) (hg : i.GuardedRun calls) : (i.run calls).Invariant := by
  induction calls generalizing i with
  | nil => exact h
  | cons head rest ih =>
    obtain ⟨c, now⟩ := head
    exact ih (i.call c now).1 (Inventory.call_invariant i c now h hg.1) hg.2

/-- C1, amended, on a run that adds, reserves, commits, removes within the
available quantity, over-releases (a failed call) and releases. -/
theorem C1_invariant_guarded_run_witness :
    (Inventory.ofStock 10 5).Invariant ∧
    (Inventory.ofStock 10 5).GuardedRun
      [(Call.AddStock 4, 1), (Call.ReserveStock 6, 2), (Call.CommitReservedStock 3, 3),
       (Call.RemoveStock 2, 4), (Call.ReleaseReservedStock 50, 5),
       (Call.ReleaseReservedStock 8, 6)] ∧
    ((Inventory.ofStock 10 5).run
      [(Call.AddStock 4, 1), (Call.ReserveStock 6, 2), (Call.CommitReservedStock 3, 3),
       (Call.RemoveStock 2, 4), (Call.ReleaseReservedStock 50, 5),
       (Call.ReleaseReservedStock 8, 6)]).Invariant :=
  ⟨by decide, by simp only [Inventory.GuardedRun, Call.Guarded]; decide,
   C1_invariant_guarded_run _ _ (by decide)
     (by simp only [Inventory.GuardedRun, Call.Guarded]; decide)⟩

/-! ## The five stock operations, one by one -/

/-- C2, as stated, fails: on `Quantity = -2`, `ReservedQuantity = maxInt` the
difference `Quantity - ReservedQuantity` is below `1`, yet `ReserveStock(1)`
succeeds (the difference wraps to `maxInt`), and `ReservedQuantity` becomes
`minInt` instead of growing by `1`. -/
theorem C2_ReserveStock_wraps :
    (Inventory.ofStock (GoInt.ofInt (-2)) (GoInt.ofInt maxInt)).Quantity.val = -2 ∧
    (Inventory.ofStock (GoInt.ofInt (-2)) (GoInt.ofInt maxInt)).ReservedQuantity.val
      = 9223372036854775807 ∧
    (Inventory.ofStock (GoInt.ofInt (-2)) (GoInt.ofInt maxInt)).Quantity.val
      - (Inventory.ofStock (GoInt.ofInt (-2)) (GoInt.ofInt maxInt)).ReservedQuantity.val
      < (1 : GoInt).val ∧
    ((Inventory.ofStock (GoInt.ofInt (-2)) (GoInt.ofInt maxInt)).ReserveStock 1 1).2 = none ∧
    ((Inventory.ofStock (GoInt.ofInt (-2)) (GoInt.ofInt maxInt)).ReserveStock 1 1).1.ReservedQuantity.val
      = -9223372036854775808 := by
  decide

/-- C2, amended: for every record whose difference `Quantity - ReservedQuantity`
lies within `int` and every `qty > 0`, `ReserveStock(qty)` fails with
"insufficient available stock" exactly when `Quantity - ReservedQuantity < qty`,
leaving the record unchanged; otherwise it succeeds, increases
`ReservedQuantity` by exactly `qty` and leaves `Quantity` unchanged. -/
theorem C2_ReserveStock (i : Inventory) (q : GoInt) (now : Time) (hq : 0 < q.val)
    (hlo : minInt ≤ i.Quantity.val - i.ReservedQuantity.val)
    (hhi : i.Quantity.val - i.ReservedQuantity.val ≤ maxInt) :
    ((i.ReserveStock q now).2 ≠ none ↔
      i.Quantity.val - i.ReservedQuantity.val < q.val) ∧
    (i.Quantity.val - i.ReservedQuantity.val < q.val →
      i.ReserveStock q now = (i, some "insufficient available stock")) ∧
    (¬ i.Quantity.val - i.ReservedQuantity.val < q.val →
      (i.ReserveStock q now).2 = none ∧
      (i.ReserveStock q now).1.ReservedQuantity.val = i.ReservedQuantity.val + q.val ∧
      (i.ReserveStock q now).1.Quantity = i.Quantity) := by
  have hRl := i.ReservedQuantity.lower
  have hQu := i.Quantity.upper
  have hqu := q.upper
  simp only [minInt, maxInt] at hlo hhi
  have hw : wrapInt (i.Quantity.val - i.ReservedQuantity.val)
      = i.Quantity.val - i.ReservedQuantity.val := wrapInt_of_range _ hlo hhi
  simp only [Inventory.ReserveStock, Inventory.GetAvailableQuantity, GoInt.sub_val, hw]
  refine ⟨?_, ?_, ?_⟩
  · split_ifs with h1 h2
    · omega
    · simp [h2]
    · simp [h2]
  · intro h
    rw [if_neg (by omega), if_pos h]
  · intro h
    rw [if_neg (by omega), if_neg h]
    refine ⟨rfl, ?_, rfl⟩
    simp only [GoInt.add_val]
    exact wrapInt_of_range _ (by omega) (by omega)

/-- C2, the scenario: on `quantity = 10, reserved = 0`, `ReserveStock(10)`
succeeds and leaves `0` available, and a following `ReserveStock(1)` fails with
"insufficient available stock". -/
theorem C2_ReserveStock_witness :
    (0 < (10 : GoInt).val ∧
      minInt ≤ (Inventory.ofStock 10 0).Quantity.val
        - (Inventory.ofStock 10 0).ReservedQuantity.val ∧
      (Inventory.ofStock 10 0).Quantity.val
        - (Inventory.ofStock 10 0).ReservedQuantity.val ≤ maxInt) ∧
    ((Inventory.ofStock 10 0).ReserveStock 10 1).2 = none ∧
    ((Inventory.ofStock 10 0).ReserveStock 10 1).1.ReservedQuantity.val = 10 ∧
    ((Inventory.ofStock 10 0).ReserveStock 10 1).1.GetAvailableQuantity.val = 0 ∧
    (((Inventory.ofStock 10 0).ReserveStock 10 1).1.ReserveStock 1 2)
      = (((Inventory.ofStock 10 0).ReserveStock 10 1).1,
          some "insufficient available stock") :=
  ⟨⟨by decide, by decide, by decide⟩,
   ((C2_ReserveStock (Inventory.ofStock 10 0) 10 1 (by decide) (by decide) (by decide)).2.2
      (by decide)).1,
   ((C2_ReserveStock (Inventory.ofStock 10 0) 10 1 (by decide) (by decide) (by decide)).2.2
      (by decide)).2.1,
   by decide,
   (C2_ReserveStock ((Inventory.ofStock 10 0).ReserveStock 10 1).1 1 2
      (by decide) (by decide) (by decide)).2.1 (by decide)⟩

/-- C3, as stated, fails: on `Quantity = minInt`, `ReservedQuantity = 1` the
call `CommitReservedStock(1)` succeeds, and `Quantity` becomes `maxInt`
instead of decreasing by `1`. -/
theorem C3_CommitReservedStock_wraps :
    (Inventory.ofStock (GoInt.ofInt minInt) 1).Quantity.val = -9223372036854775808 ∧
    (Inventory.ofStock (GoInt.ofInt minInt) 1).ReservedQuantity.val = 1 ∧
    ((Inventory.ofStock (GoInt.ofInt minInt) 1).CommitReservedStock 1 1).2 = none ∧
    ((Inventory.ofStock (GoInt.ofInt minInt) 1).CommitReservedStock 1 1).1.Quantity.val
      = 9223372036854775807 := by
  decide

/-- C3, amended: for every record and every `qty > 0`,
`CommitReservedStock(qty)` fails with "trying to commit more than reserved"
exactly when `ReservedQuantity < qty`, leaving the record unchanged; otherwise
it succeeds, decreases `ReservedQuantity` by exactly `qty`, decreases
`Quantity` by exactly `qty` whenever `Quantity - qty` is not below the least
`int` (as it is not when `ReservedQuantity <= Quantity`), and the available
quantity `GetAvailableQuantity()` is the same before and after. -/
theorem C3_CommitReservedStock (i : Inventory) (q : GoInt) (now : Time) (hq : 0 < q.val) :
    ((i.CommitReservedStock q now).2 ≠ none ↔ i.ReservedQuantity.val < q.val) ∧
    (i.ReservedQuantity.val < q.val →
      i.CommitReservedStock q now = (i, some "trying to commit more than reserved")) ∧
    (¬ i.ReservedQuantity.val < q.val →
      (i.CommitReservedStock q now).2 = none ∧
      (i.CommitReservedStock q now).1.ReservedQuantity.val = i.ReservedQuantity.val - q.val ∧
      (minInt ≤ i.Quantity.val - q.val →
        (i.CommitReservedStock q now).1.Quantity.val = i.Quantity.val - q.val) ∧
      (i.ReservedQuantity.val ≤ i.Quantity.val → minInt ≤ i.Quantity.val - q.val) ∧
      (i.CommitReservedStock q now).1.GetAvailableQuantity = i.GetAvailableQuantity) := by
  have hQl := i.Quantity.lower
  have hQu := i.Quantity.upper
  have hRl := i.ReservedQuantity.lower
  have hRu := i.ReservedQuantity.upper
  have hqu := q.upper
  simp only [Inventory.CommitReservedStock, minInt]
  refine ⟨?_, ?_, ?_⟩
  · split_ifs with h1 h2
    · omega
    · simp [h2]
    · simp [h2]
  · intro h
    rw [if_neg (by omega), if_pos h]
  · intro h
    rw [if_neg (by omega), if_neg h]
    refine ⟨rfl, ?_, ?_, ?_, ?_⟩
    · simp only [GoInt.sub_val]
      exact wrapInt_of_range _ (by omega) (by omega)
    · intro hlo
      simp only [GoInt.sub_val]
      exact wrapInt_of_range _ hlo (by omega)
    · intro hle
      omega
    · apply Subtype.ext
      simp only [Inventory.GetAvailableQuantity, GoInt.sub_val]
      unfold wrapInt
      omega

/-- C3 on `quantity = 10, reserved = 10`: `CommitReservedStock(10)` succeeds
and yields `quantity = 0, reserved = 0`. -/
theorem C3_CommitReservedStock_witness :
    0 < (10 : GoInt).val ∧
    ((Inventory.ofStock 10 10).CommitReservedStock 10 1).2 = none ∧
    ((Inventory.ofStock 10 10).CommitReservedStock 10 1).1.ReservedQuantity.val = 0 ∧
    ((Inventory.ofStock 10 10).CommitReservedStock 10 1).1.Quantity.val = 0 :=
  ⟨by decide,
   ((C3_CommitReservedStock (Inventory.ofStock 10 10) 10 1 (by decide)).2.2 (by decide)).1,
   ((C3_CommitReservedStock (Inventory.ofStock 10 10) 10 1 (by decide)).2.2 (by decide)).2.1,
   ((C3_CommitReservedStock (Inventory.ofStock 10 10) 10 1 (by decide)).2.2
      (by decide)).2.2.1 (by decide)⟩

/-- C4: for every record and every `qty > 0`, `ReleaseReservedStock(qty)`
fails with "trying to release more than reserved" exactly when
`ReservedQuantity < qty`, leaving the record unchanged; otherwise it succeeds,
decreases `ReservedQuantity` by exactly `qty` and leaves `Quantity` unchanged. -/
theorem C4_ReleaseReservedStock (i : Inventory) (q : GoInt) (now : Time) (hq : 0 < q.val) :
    ((i.ReleaseReservedStock q now).2 ≠ none ↔ i.ReservedQuantity.val < q.val) ∧
    (i.ReservedQuantity.val < q.val →
      i.ReleaseReservedStock q now = (i, some "trying to release more than reserved")) ∧
    (¬ i.ReservedQuantity.val < q.val →
      (i.ReleaseReservedStock q now).2 = none ∧
      (i.ReleaseReservedStock q now).1.ReservedQuantity.val
        = i.ReservedQuantity.val - q.val ∧
      (i.ReleaseReservedStock q now).1.Quantity = i.Quantity) := by
  have hRu := i.ReservedQuantity.upper
  have hqu := q.upper
  simp only [Inventory.ReleaseReservedStock]
  refine ⟨?_, ?_, ?_⟩
  · split_ifs with h1 h2
    · omega
    · simp [h2]
    · simp [h2]
  · intro h
    rw [if_neg (by omega), if_pos h]
  · intro h
    rw [if_neg (by omega), if_neg h]
    refine ⟨rfl, ?_, rfl⟩
    simp only [GoInt.sub_val]
    exact wrapInt_of_range _ (by omega) (by omega)

/-- C4 on `quantity = 10, reserved = 4`: `ReleaseReservedStock(3)` succeeds
and leaves `reserved = 1`, and `ReleaseReservedStock(5)` fails. -/
theorem C4_ReleaseReservedStock_witness :
    0 < (3 : GoInt).val ∧
    ((Inventory.ofStock 10 4).ReleaseReservedStock 3 1).2 = none ∧
    ((Inventory.ofStock 10 4).ReleaseReservedStock 3 1).1.ReservedQuantity.val = 4 - 3 ∧
    ((Inventory.ofStock 10 4).ReleaseReservedStock 5 1)
      = (Inventory.ofStock 10 4, some "trying to release more than reserved") :=
  ⟨by decide,
   ((C4_ReleaseReservedStock (Inventory.ofStock 10 4) 3 1 (by decide)).2.2 (by decide)).1,
   ((C4_ReleaseReservedStock (Inventory.ofStock 10 4) 3 1 (by decide)).2.2 (by decide)).2.1,
   (C4_ReleaseReservedStock (Inventory.ofStock 10 4) 5 1 (by decide)).2.1 (by decide)⟩

/-- C5: for every record and every `qty > 0`, `RemoveStock(qty)` fails with
"insufficient stock" exactly when `Quantity < qty`, leaving the record
unchanged; otherwise it succeeds, decreases `Quantity` by exactly `qty` and
leaves `ReservedQuantity` unchanged. -/
theorem C5_RemoveStock (i : Inventory) (q : GoInt) (now : Time) (hq : 0 < q.val) :
    ((i.RemoveStock q now).2 ≠ none ↔ i.Quantity.val < q.val) ∧
    (i.Quantity.val < q.val → i.RemoveStock q now = (i, some "insufficient stock")) ∧
    (¬ i.Quantity.val < q.val →
      (i.RemoveStock q now).2 = none ∧
      (i.RemoveStock q now).1.Quantity.val = i.Quantity.val - q.val ∧
      (i.RemoveStock q now).1.ReservedQuantity = i.ReservedQuantity) := by
  have hQu := i.Quantity.upper
  have hqu := q.upper
  simp only [Inventory.RemoveStock]
  refine ⟨?_, ?_, ?_⟩
  · split_ifs with h1 h2
    · omega
    · simp [h2]
    · simp [h2]
  · intro h
    rw [if_neg (by omega), if_pos h]
  · intro h
    rw [if_neg (by omega), if_neg h]
    refine ⟨rfl, ?_, rfl⟩
    simp only [GoInt.sub_val]
    exact wrapInt_of_range _ (by omega) (by omega)

/-- C5 on `quantity = 10, reserved = 5`: `RemoveStock(8)` succeeds and leaves
`quantity = 2`, and `RemoveStock(11)` fails. -/
theorem C5_RemoveStock_witness :
    0 < (8 : GoInt).val ∧
    ((Inventory.ofStock 10 5).RemoveStock 8 1).2 = none ∧
    ((Inventory.ofStock 10 5).RemoveStock 8 1).1.Quantity.val = 10 - 8 ∧
    ((Inventory.ofStock 10 5).RemoveStock 11 1)
      = (Inventory.ofStock 10 5, some "insufficient stock") :=
  ⟨by decide,
   ((C5_RemoveStock (Inventory.ofStock 10 5) 8 1 (by decide)).2.2 (by decide)).1,
   ((C5_RemoveStock (Inventory.ofStock 10 5) 8 1 (by decide)).2.2 (by decide)).2.1,
   (C5_RemoveStock (Inventory.ofStock 10 5) 11 1 (by decide)).2.1 (by decide)⟩

/-- C6, as stated, fails: on `Quantity = maxInt` the call `AddStock(1)`
succeeds, and `Quantity` becomes `minInt` instead of growing by `1`. -/
theorem C6_AddStock_wraps :
    (Inventory.ofStock (GoInt.ofInt maxInt) 0).Quantity.val = 9223372036854775807 ∧
    0 < (1 : GoInt).val ∧
    ((Inventory.ofStock (GoInt.ofInt maxInt) 0).AddStock 1 1).2 = none ∧
    ((Inventory.ofStock (GoInt.ofInt maxInt) 0).AddStock 1 1).1.Quantity.val
      = -9223372036854775808 := by
  decide

/-- C6, amended: for every record and every `qty > 0`, `AddStock(qty)`
succeeds and leaves `ReservedQuantity` unchanged; it increases `Quantity` by
exactly `qty` whenever `Quantity + qty` is at most the greatest `int`, and
otherwise leaves `Quantity + qty - 2^64` in `Quantity`. -/
theorem C6_AddStock (i : Inventory) (q : GoInt) (now : Time) (hq : 0 < q.val) :
    (i.AddStock q now).2 = none ∧
    (i.AddStock q now).1.ReservedQuantity = i.ReservedQuantity ∧
    (i.Quantity.val + q.val ≤ maxInt →
      (i.AddStock q now).1.Quantity.val = i.Quantity.val + q.val) ∧
    (maxInt < i.Quantity.val + q.val →
      (i.AddStock q now).1.Quantity.val
        = i.Quantity.val + q.val - 18446744073709551616) := by
  have hQl := i.Quantity.lower
  have hQu := i.Quantity.upper
  have hqu := q.upper
  simp only [Inventory.AddStock, maxInt]
  rw [if_neg (by omega)]
  refine ⟨rfl, rfl, ?_, ?_⟩
  · intro h
    simp only [GoInt.add_val]
    exact wrapInt_of_range _ (by omega) h
  · intro h
    simp only [GoInt.add_val]
    exact wrapInt_of_above _ h (by omega)

/-- C6 on `quantity = 10, reserved = 5`: `AddStock(4)` succeeds and leaves
`quantity = 14, reserved = 5`. -/
theorem C6_AddStock_witness :
    0 < (4 : GoInt).val ∧
    ((Inventory.ofStock 10 5).AddStock 4 1).2 = none ∧
    ((Inventory.ofStock 10 5).AddStock 4 1).1.ReservedQuantity.val = 5 ∧
    ((Inventory.ofStock 10 5).AddStock 4 1).1.Quantity.val = 10 + 4 :=
  ⟨by decide,
   (C6_AddStock (Inventory.ofStock 10 5) 4 1 (by decide)).1,
   congrArg Subtype.val (C6_AddStock (Inventory.ofStock 10 5) 4 1 (by decide)).2.1,
   (C6_AddStock (Inventory.ofStock 10 5) 4 1 (by decide)).2.2.1 (by decide)⟩

/-- C7: for every record and every `qty <= 0`, each of `AddStock`,
`RemoveStock`, `ReserveStock`, `ReleaseReservedStock` and
`CommitReservedStock` returns the error "quantity must be greater than zero"
and leaves the whole record, so `Quantity`, `ReservedQuantity` and `UpdatedAt`,
unchanged. -/
theorem C7_invalid_quantity (i : Inventory) (q : GoInt) (now : Time) (hq : q.val ≤ 0) :
    i.AddStock q now = (i, some "quantity must be greater than zero") ∧
    i.RemoveStock q now = (i, some "quantity must be greater than zero") ∧
    i.ReserveStock q now = (i, some "quantity must be greater than zero") ∧
    i.ReleaseReservedStock q now = (i, some "quantity must be greater than zero") ∧
    i.CommitReservedStock q now = (i, some "quantity must be greater than zero") := by
  simp only [Inventory.AddStock, Inventory.RemoveStock, Inventory.ReserveStock,
    Inventory.ReleaseReservedStock, Inventory.CommitReservedStock, if_pos hq, and_self]

/-- C7 on `quantity = 10, reserved = 5` with the arguments `0` and `-3`. -/
theorem C7_invalid_quantity_witness :
    (0 : GoInt).val ≤ 0 ∧ (GoInt.ofInt (-3)).val ≤ 0 ∧
    ((Inventory.ofStock 10 5).AddStock 0 7).1.UpdatedAt = (Inventory.ofStock 10 5).UpdatedAt ∧
    ((Inventory.ofStock 10 5).CommitReservedStock (GoInt.ofInt (-3)) 7)
      = (Inventory.ofStock 10 5, some "quantity must be greater than zero") :=
  ⟨by decide, by decide,
   congrArg (fun r => r.1.UpdatedAt)
     (C7_invalid_quantity (Inventory.ofStock 10 5) 0 7 (by decide)).1,
   (C7_invalid_quantity (Inventory.ofStock 10 5) (GoInt.ofInt (-3)) 7 (by decide)).2.2.2.2⟩

/-- C8: for every record with `0 <= ReservedQuantity <= Quantity` and every
`q > 0` with `Quantity - ReservedQuantity >= q`, `ReserveStock(q)` followed by
`CommitReservedStock(q)` both succeed, `RemoveStock(q)` on the original record
succeeds, and the two end states have the same `Quantity` and the same
`ReservedQuantity`, which is the original `ReservedQuantity`. -/
theorem C8_reserve_commit_eq_remove (i : Inventory) (q : GoInt) (t1 t2 t3 : Time)
    (h : i.Invariant) (hq : 0 < q.val)
    (ha : q.val ≤ i.Quantity.val - i.ReservedQuantity.val) :
    (i.ReserveStock q t1).2 = none ∧
    ((i.ReserveStock q t1).1.CommitReservedStock q t2).2 = none ∧
    (i.RemoveStock q t3).2 = none ∧
    ((i.ReserveStock q t1).1.CommitReservedStock q t2).1.Quantity
      = (i.RemoveStock q t3).1.Quantity ∧
    ((i.ReserveStock q t1).1.CommitReservedStock q t2).1.ReservedQuantity
      = (i.RemoveStock q t3).1.ReservedQuantity ∧
    (i.RemoveStock q t3).1.ReservedQuantity = i.ReservedQuantity ∧
    (i.RemoveStock q t3).1.Quantity.val = i.Quantity.val - q.val := by
  have hQl := i.Quantity.lower
  have hQu := i.Quantity.upper
  have hRl := i.ReservedQuantity.lower
  have hRu := i.ReservedQuantity.upper
  have hqu := q.upper
  unfold Inventory.Invariant at h
  have hw : wrapInt (i.Quantity.val - i.ReservedQuantity.val)
      = i.Quantity.val - i.ReservedQuantity.val := wrapInt_of_range _ (by omega) (by omega)
  have hadd : wrapInt (i.ReservedQuantity.val + q.val) = i.ReservedQuantity.val + q.val :=
    wrapInt_of_range _ (by omega) (by omega)
  have h1 : ¬ q.val ≤ 0 := by omega
  have h2 : ¬ i.Quantity.val - i.ReservedQuantity.val < q.val := by omega
  have h3 : ¬ i.Quantity.val < q.val := by omega
  have h4 : ¬ i.ReservedQuantity.val + q.val < q.val := by omega
  simp only [Inventory.ReserveStock, Inventory.GetAvailableQuantity, GoInt.sub_val, hw,
    if_neg h1, if_neg h2, Inventory.CommitReservedStock, GoInt.add_val, hadd, if_neg h4,
    Inventory.RemoveStock, if_neg h3, true_and]
  refine ⟨?_, ?_⟩
  · apply Subtype.ext
    simp only [GoInt.sub_val, GoInt.add_val, hadd]
    rw [wrapInt_of_range _ (by omega) (by omega)]
    omega
  · exact wrapInt_of_range _ (by omega) (by omega)

/-- C8 on `quantity = 10, reserved = 2` with `q = 8`: both paths end in
`quantity = 2, reserved = 2`. -/
theorem C8_reserve_commit_eq_remove_witness :
    (Inventory.ofStock 10 2).Invariant ∧ 0 < (8 : GoInt).val ∧
    ((Inventory.ofStock 10 2).ReserveStock 8 1).2 = none ∧
    (((Inventory.ofStock 10 2).ReserveStock 8 1).1.CommitReservedStock 8 2).2 = none ∧
    ((Inventory.ofStock 10 2).RemoveStock 8 3).1.Quantity.val = 10 - 8 :=
  ⟨by decide, by decide,
   (C8_reserve_commit_eq_remove (Inventory.ofStock 10 2) 8 1 2 3
      (by decide) (by decide) (by decide)).1,
   (C8_reserve_commit_eq_remove (Inventory.ofStock 10 2) 8 1 2 3
      (by decide) (by decide) (by decide)).2.1,
   (C8_reserve_commit_eq_remove (Inventory.ofStock 10 2) 8 1 2 3
      (by decide) (by decide) (by decide)).2.2.2.2.2.2⟩

/-- What a successful `ReserveStock` tells about its argument and the record. -/
theorem Inventory.ReserveStock_ok (i : Inventory) (q : GoInt) (now : Time)
    (hs : (i.ReserveStock q now).2 = none) :
    0 < q.val ∧ ¬ i.GetAvailableQuantity.val < q.val ∧
    (i.ReserveStock q now).1
      = { i with ReservedQuantity := i.ReservedQuantity.add q, UpdatedAt := now } := by
  unfold Inventory.ReserveStock at hs ⊢
  split_ifs at hs ⊢ with h1 h2
  exact ⟨by omega, h2, rfl⟩

/-- C9, as stated, fails: on `Quantity = 0`, `ReservedQuantity = -5` the call
`ReserveStock(3)` succeeds (5 units count as available) and leaves
`ReservedQuantity = -2`, and the following `ReleaseReservedStock(3)` fails
with "trying to release more than reserved". -/
theorem C9_release_after_reserve_fails :
    ((Inventory.ofStock 0 (GoInt.ofInt (-5))).ReserveStock 3 1).2 = none ∧
    ((Inventory.ofStock 0 (GoInt.ofInt (-5))).ReserveStock 3 1).1.ReservedQuantity.val = -2 ∧
    (((Inventory.ofStock 0 (GoInt.ofInt (-5))).ReserveStock 3 1).1.ReleaseReservedStock 3 2).2
      = some "trying to release more than reserved" := by
  decide

/-- C9, amended: for every record and every `q` for which `ReserveStock(q)`
succeeds, a following `ReleaseReservedStock(q)` succeeds exactly when, before
the reservation, `ReservedQuantity >= 0` and `ReservedQuantity + q` is at most
the greatest `int`; it then restores `Quantity` and `ReservedQuantity` to
exactly their values before the reservation. Both conditions hold on every
record with `0 <= ReservedQuantity <= Quantity`. -/
theorem C9_reserve_then_release (i : Inventory) (q : GoInt) (t1 t2 : Time)
    (hs : (i.ReserveStock q t1).2 = none) :
    (((i.ReserveStock q t1).1.ReleaseReservedStock q t2).2 = none ↔
      (0 ≤ i.ReservedQuantity.val ∧ i.ReservedQuantity.val + q.val ≤ maxInt)) ∧
    (0 ≤ i.ReservedQuantity.val → i.ReservedQuantity.val + q.val ≤ maxInt →
      ((i.ReserveStock q t1).1.ReleaseReservedStock q t2).1.Quantity = i.Quantity ∧
      ((i.ReserveStock q t1).1.ReleaseReservedStock q t2).1.ReservedQuantity
        = i.ReservedQuantity) ∧
    (i.Invariant →
      0 ≤ i.ReservedQuantity.val ∧ i.ReservedQuantity.val + q.val ≤ maxInt) := by
  have hQl := i.Quantity.lower
  have hQu := i.Quantity.upper
  have hRl := i.ReservedQuantity.lower
  have hRu := i.ReservedQuantity.upper
  have hqu := q.upper
  obtain ⟨hq, hav, hst⟩ := Inventory.ReserveStock_ok i q t1 hs
  simp only [Inventory.GetAvailableQuantity, GoInt.sub_val] at hav
  rw [hst]
  simp only [Inventory.ReleaseReservedStock, maxInt, GoInt.add_val, Inventory.Invariant]
  rw [if_neg (by omega)]
  refine ⟨?_, ?_, ?_⟩
  · constructor
    · intro hrel
      split_ifs at hrel with h2
      unfold wrapInt at h2
      omega
    · rintro ⟨h0, h1⟩
      rw [if_neg (by rw [wrapInt_of_range _ (by omega) h1]; omega)]
  · intro h0 h1
    have hadd := wrapInt_of_range (i.ReservedQuantity.val + q.val) (by omega) h1
    rw [if_neg (by rw [hadd]; omega)]
    refine ⟨rfl, ?_⟩
    apply Subtype.ext
    simp only [GoInt.sub_val, GoInt.add_val, hadd]
    rw [wrapInt_of_range _ (by omega) (by omega)]
    omega
  · rintro ⟨h0, h1⟩
    unfold wrapInt at hav
    omega

/-- C9 on `quantity = 10, reserved = 2` with `q = 5`: the reservation
succeeds, the release succeeds, and the stock levels are back at `10` and `2`. -/
theorem C9_reserve_then_release_witness :
    ((Inventory.ofStock 10 2).ReserveStock 5 1).2 = none ∧
    (((Inventory.ofStock 10 2).ReserveStock 5 1).1.ReleaseReservedStock 5 2).2 = none ∧
    (((Inventory.ofStock 10 2).ReserveStock 5 1).1.ReleaseReservedStock 5 2).1.Quantity
      = (Inventory.ofStock 10 2).Quantity ∧
    (((Inventory.ofStock 10 2).ReserveStock 5 1).1.ReleaseReservedStock 5 2).1.ReservedQuantity
      = (Inventory.ofStock 10 2).ReservedQuantity :=
  ⟨by decide,
   (C9_reserve_then_release (Inventory.ofStock 10 2) 5 1 2 (by decide)).1.2
     ⟨by decide, by decide⟩,
   (C9_reserve_then_release (Inventory.ofStock 10 2) 5 1 2 (by decide)).2.1
     (by decide) (by decide)⟩

/-! ## The order status machine -/

/-- No transition out of `delivered` or `cancelled` is in the table. -/
theorem order.terminal_not_allowed (target : OrderStatus) :
    (OrderStatusDelivered, target) ∉ allowedTransitions ∧
    (OrderStatusCancelled, target) ∉ allowedTransitions := by
  simp [allowedTransitions, OrderStatusDelivered, OrderStatusCancelled]

/-- No self-transition is in the table. -/
theorem order.self_not_allowed (s : OrderStatus) : (s, s) ∉ allowedTransitions := by
  simp only [allowedTransitions, List.mem_cons, Prod.mk.injEq, List.mem_singleton,
    List.mem_nil_iff, or_false, not_or, not_and]
  refine ⟨?_, ?_, ?_, ?_, ?_, ?_⟩ <;> intro h <;> subst h <;> decide

/-- No transition out of an unrecognised status string is in the table. -/
theorem order.unknown_not_allowed (s target : OrderStatus) (h : s ∉ knownStatuses) :
    (s, target) ∉ allowedTransitions := by
  simp only [knownStatuses, List.mem_cons, List.mem_singleton, List.mem_nil_iff, or_false,
    not_or] at h
  simp only [allowedTransitions, List.mem_cons, Prod.mk.injEq, List.mem_singleton,
    List.mem_nil_iff, or_false, not_or, not_and]
  obtain ⟨h1, h2, h3, _, _⟩ := h
  exact ⟨fun e => absurd e h1, fun e => absurd e h1, fun e => absurd e h2,
    fun e => absurd e h2, fun e => absurd e h3, fun e => absurd e h3⟩

/-- The code's check accepts exactly the pairs of the table. -/
theorem order.isValidStatusTransition_iff (current new : OrderStatus) :
    isValidStatusTransition current new = true ↔ (current, new) ∈ allowedTransitions := by
  simp only [isValidStatusTransition, OrderStatusPending, OrderStatusProcessing,
    OrderStatusShipped, OrderStatusDelivered, OrderStatusCancelled, allowedTransitions,
    List.mem_cons, Prod.mk.injEq, List.mem_singleton, List.mem_nil_iff, or_false]
  split_ifs with h1 h2 h3 h4 h5 <;> simp_all

/-- C10: for every order and every pair (current status, target status) that
is not in the transition table, `UpdateStatus` returns the error "invalid
status transition" and leaves the whole order, so `Status` and
`StatusHistory`, unchanged. -/
theorem C10_UpdateStatus_rejects (o : Order) (status : OrderStatus) (comment : String)
    (staffID : Option Nat) (now : Time) (h : (o.Status, status) ∉ allowedTransitions) :
    o.UpdateStatus status comment staffID now = (o, some "invalid status transition") ∧
    (o.UpdateStatus status comment staffID now).1.Status = o.Status ∧
    (o.UpdateStatus status comment staffID now).1.StatusHistory = o.StatusHistory := by
  have hv : isValidStatusTransition o.Status status = false := by
    rw [← Bool.not_eq_true, order.isValidStatusTransition_iff]
    exact h
  simp [Order.UpdateStatus, hv]

/-- C10 on four rejected pairs: out of the terminal `delivered`, out of the
terminal `cancelled`, the self-transition of `pending`, and out of the
unrecognised status `refunded`. -/
theorem C10_UpdateStatus_rejects_witness :
    ("delivered", "cancelled") ∉ allowedTransitions ∧
    (Order.ofStatus "delivered" []).UpdateStatus "cancelled" "changed mind" (some 4) 9
      = (Order.ofStatus "delivered" [], some "invalid status transition") ∧
    (Order.ofStatus "cancelled" []).UpdateStatus "pending" "reopen" none 9
      = (Order.ofStatus "cancelled" [], some "invalid status transition") ∧
    (Order.ofStatus "pending" []).UpdateStatus "pending" "again" none 9
      = (Order.ofStatus "pending" [], some "invalid status transition") ∧
    (Order.ofStatus "refunded" []).UpdateStatus "pending" "retry" none 9
      = (Order.ofStatus "refunded" [], some "invalid status transition") :=
  ⟨by decide,
   (C10_UpdateStatus_rejects (Order.ofStatus "delivered" []) "cancelled" "changed mind"
      (some 4) 9 (by decide)).1,
   (C10_UpdateStatus_rejects (Order.ofStatus "cancelled" []) "pending" "reopen"
      none 9 (by decide)).1,
   (C10_UpdateStatus_rejects (Order.ofStatus "pending" []) "pending" "again"
      none 9 (by decide)).1,
   (C10_UpdateStatus_rejects (Order.ofStatus "refunded" []) "pending" "retry"
      none 9 (by decide)).1⟩

/-! ## Order operations: what they leave alone -/

/-- An accepted transition sets the status and appends one history entry. -/
theorem Order.UpdateStatus_valid (o : Order) (status : OrderStatus) (comment : String)
    (staffID : Option Nat) (now : Time)
    (h : isValidStatusTransition o.Status status = true) :
    o.UpdateStatus status comment staffID now
      = ({ o with
            Status := status,
            StatusHistory := o.StatusHistory ++
              [{ Entity := ⟨0, 0, 0⟩, HistoryID := 0, OrderID := o.OrderID, Status := status,
                 Comment := comment, StaffID := staffID, CreatedAt := now }] }, none) := by
  simp [Order.UpdateStatus, Order.AddStatusHistory, h]

/-- A rejected transition returns the order as it was. -/
theorem Order.UpdateStatus_invalid (o : Order) (status : OrderStatus) (comment : String)
    (staffID : Option Nat) (now : Time)
    (h : isValidStatusTransition o.Status status = false) :
    o.UpdateStatus status comment staffID now = (o, some "invalid status transition") := by
  simp [Order.UpdateStatus, h]

/-- Recalculation writes `Subtotal` and `TotalAmount` and nothing else. -/
theorem Order.recalculateOrderTotals_frame (o : Order) :
    o.recalculateOrderTotals.1
      = { o with
          Subtotal := o.recalculateOrderTotals.1.Subtotal,
          TotalAmount := o.recalculateOrderTotals.1.TotalAmount } := by
  simp only [Order.recalculateOrderTotals]
  repeat' split
  all_goals rfl

/-- A failed recalculation leaves `TotalAmount` as it was. -/
theorem Order.recalculateOrderTotals_error (o : Order)
    (h : o.recalculateOrderTotals.2 ≠ none) :
    o.recalculateOrderTotals.1.TotalAmount = o.TotalAmount := by
  simp only [Order.recalculateOrderTotals] at h ⊢
  repeat' split
  all_goals first
    | rfl
    | (exfalso; revert h; simp_all)

theorem Order.recalculateOrderTotals_Status (o : Order) :
    o.recalculateOrderTotals.1.Status = o.Status := by
  rw [Order.recalculateOrderTotals_frame]

theorem Order.recalculateOrderTotals_StatusHistory (o : Order) :
    o.recalculateOrderTotals.1.StatusHistory = o.StatusHistory := by
  rw [Order.recalculateOrderTotals_frame]

theorem Order.recalculateOrderTotals_Items (o : Order) :
    o.recalculateOrderTotals.1.Items = o.Items := by
  rw [Order.recalculateOrderTotals_frame]

theorem Order.recalculateOrderTotals_ShippingFee (o : Order) :
    o.recalculateOrderTotals.1.ShippingFee = o.ShippingFee := by
  rw [Order.recalculateOrderTotals_frame]

theorem Order.recalculateOrderTotals_TaxAmount (o : Order) :
    o.recalculateOrderTotals.1.TaxAmount = o.TaxAmount := by
  rw [Order.recalculateOrderTotals_frame]

theorem Order.recalculateOrderTotals_DiscountAmount (o : Order) :
    o.recalculateOrderTotals.1.DiscountAmount = o.DiscountAmount := by
  rw [Order.recalculateOrderTotals_frame]

/-- The two outcomes of `UpdateStatus`, told apart by the check of the
transition. -/
theorem Order.UpdateStatus_cases (o : Order) (status : OrderStatus) (comment : String)
    (staffID : Option Nat) (now : Time) :
    (isValidStatusTransition o.Status status = false ∧
      o.UpdateStatus status comment staffID now = (o, some "invalid status transition")) ∨
    (isValidStatusTransition o.Status status = true ∧
      o.UpdateStatus status comment staffID now
        = ({ o with
              Status := status,
              StatusHistory := o.StatusHistory ++
                [{ Entity := ⟨0, 0, 0⟩, HistoryID := 0, OrderID := o.OrderID,
                   Status := status, Comment := comment, StaffID := staffID,
                   CreatedAt := now }] }, none)) := by
  cases h : isValidStatusTransition o.Status status
  · exact Or.inl ⟨rfl, Order.UpdateStatus_invalid o status comment staffID now h⟩
  · exact Or.inr ⟨rfl, Order.UpdateStatus_valid o status comment staffID now h⟩

/-- The item mutations and the fee setters never write `Status` or
`StatusHistory`. -/
theorem Order.itemFee_status (o : Order) (item : OrderItem) (itemID : Nat) (quantity : GoInt)
    (fee : vo.Money) :
    ((o.AddItem item).1.Status = o.Status ∧
      (o.AddItem item).1.StatusHistory = o.StatusHistory) ∧
    ((o.UpdateItem itemID quantity).1.Status = o.Status ∧
      (o.UpdateItem itemID quantity).1.StatusHistory = o.StatusHistory) ∧
    ((o.RemoveItem itemID).1.Status = o.Status ∧
      (o.RemoveItem itemID).1.StatusHistory = o.StatusHistory) ∧
    ((o.SetShippingFee fee).1.Status = o.Status ∧
      (o.SetShippingFee fee).1.StatusHistory = o.StatusHistory) ∧
    ((o.SetDiscount fee).1.Status = o.Status ∧
      (o.SetDiscount fee).1.StatusHistory = o.StatusHistory) ∧
    ((o.SetTaxAmount fee).1.Status = o.Status ∧
      (o.SetTaxAmount fee).1.StatusHistory = o.StatusHistory) := by
  refine ⟨?_, ?_, ?_, ?_, ?_, ?_⟩
  · unfold Order.AddItem
    split_ifs
    · exact ⟨rfl, rfl⟩
    · split
      · exact ⟨rfl, rfl⟩
      · simp only [Order.recalculateOrderTotals_Status,
          Order.recalculateOrderTotals_StatusHistory, and_self]
  · unfold Order.UpdateItem
    split_ifs
    · exact ⟨rfl, rfl⟩
    · exact ⟨rfl, rfl⟩
    · split
      · exact ⟨rfl, rfl⟩
      · split_ifs
        · exact ⟨rfl, rfl⟩
        · simp only [Order.recalculateOrderTotals_Status,
            Order.recalculateOrderTotals_StatusHistory, and_self]
  · unfold Order.RemoveItem
    split_ifs
    · exact ⟨rfl, rfl⟩
    · split
      · exact ⟨rfl, rfl⟩
      · simp only [Order.recalculateOrderTotals_Status,
          Order.recalculateOrderTotals_StatusHistory, and_self]
  · unfold Order.SetShippingFee
    split_ifs
    · exact ⟨rfl, rfl⟩
    · simp only [Order.recalculateOrderTotals_Status,
        Order.recalculateOrderTotals_StatusHistory, and_self]
  · unfold Order.SetDiscount
    split_ifs
    · exact ⟨rfl, rfl⟩
    · simp only [Order.recalculateOrderTotals_Status,
        Order.recalculateOrderTotals_StatusHistory, and_self]
  · unfold Order.SetTaxAmount
    split_ifs
    · exact ⟨rfl, rfl⟩
    · simp only [Order.recalculateOrderTotals_Status,
        Order.recalculateOrderTotals_StatusHistory, and_self]

/-- What any one call does to `Status` and `StatusHistory`: nothing; or an
accepted transition with one matching entry appended; or, for a direct
`AddStatusHistory`, one entry appended and `Status` kept. -/
theorem Order.call_effect (o : Order) (c : OrderCall) (now : Time) :
    ((o.call c now).1.Status = o.Status ∧
      (o.call c now).1.StatusHistory = o.StatusHistory) ∨
    (∃ e : OrderStatusHistory,
      isValidStatusTransition o.Status (o.call c now).1.Status = true ∧
      e.Status = (o.call c now).1.Status ∧
      (o.call c now).1.StatusHistory = o.StatusHistory ++ [e]) ∨
    (∃ e : OrderStatusHistory,
      (∃ comment staffID, c = OrderCall.AddStatusHistory e.Status comment staffID) ∧
      (o.call c now).1.Status = o.Status ∧
      (o.call c now).1.StatusHistory = o.StatusHistory ++ [e]) := by
  have hu : ∀ (o1 : Order) (status : OrderStatus) (comment : String) (staffID : Option Nat),
      o1.Status = o.Status → o1.StatusHistory = o.StatusHistory →
      (((o1.UpdateStatus status comment staffID now).1.Status = o.Status ∧
        (o1.UpdateStatus status comment staffID now).1.StatusHistory = o.StatusHistory) ∨
      (∃ e : OrderStatusHistory,
        isValidStatusTransition o.Status
          (o1.UpdateStatus status comment staffID now).1.Status = true ∧
        e.Status = (o1.UpdateStatus status comment staffID now).1.Status ∧
        (o1.UpdateStatus status comment staffID now).1.StatusHistory
          = o.StatusHistory ++ [e])) := by
    intro o1 status comment staffID hs hh
    rcases Order.UpdateStatus_cases o1 status comment staffID now with ⟨_, h⟩ | ⟨hv, h⟩
    · left
      rw [h]
      exact ⟨hs, hh⟩
    · right
      rw [h]
      exact ⟨_, by rw [← hs]; exact hv, rfl, by rw [← hh]⟩
  have hi := fun item itemID quantity fee => Order.itemFee_status o item itemID quantity fee
  cases c with
  | AddItem item => exact Or.inl (hi item 0 0 ⟨0, ""⟩).1
  | UpdateItem itemID quantity =>
    exact Or.inl (hi (OrderItem.ofPrice 0 ⟨0, ""⟩ 0) itemID quantity ⟨0, ""⟩).2.1
  | RemoveItem itemID =>
    exact Or.inl (hi (OrderItem.ofPrice 0 ⟨0, ""⟩ 0) itemID 0 ⟨0, ""⟩).2.2.1
  | SetShippingFee fee => exact Or.inl (hi (OrderItem.ofPrice 0 ⟨0, ""⟩ 0) 0 0 fee).2.2.2.1
  | SetDiscount fee => exact Or.inl (hi (OrderItem.ofPrice 0 ⟨0, ""⟩ 0) 0 0 fee).2.2.2.2.1
  | SetTaxAmount fee => exact Or.inl (hi (OrderItem.ofPrice 0 ⟨0, ""⟩ 0) 0 0 fee).2.2.2.2.2
  | UpdateStatus status comment staffID =>
    rcases hu o status comment staffID rfl rfl with h | h
    · exact Or.inl h
    · exact Or.inr (Or.inl h)
  | AddStatusHistory status comment staffID =>
    exact Or.inr (Or.inr ⟨_, ⟨comment, staffID, rfl⟩, rfl, rfl⟩)
  | UpdatePaymentStatus status =>
    simp only [Order.call, Order.UpdatePaymentStatus]
    split_ifs
    · rcases hu { o with PaymentStatus := status } OrderStatusProcessing
        "Payment received, order processing" none rfl rfl with h | h
      · exact Or.inl h
      · exact Or.inr (Or.inl h)
    · exact Or.inl ⟨rfl, rfl⟩
  | AddShipment shipment =>
    simp only [Order.call, Order.AddShipment]
    split_ifs
    · exact Or.inl ⟨rfl, rfl⟩
    · rcases hu { o with Shipments := o.Shipments ++ [{ shipment with OrderID := o.OrderID }] }
        OrderStatusShipped "Order shipped" none rfl rfl with h | h
      · exact Or.inl h
      · exact Or.inr (Or.inl h)
  | Cancel reason staffID =>
    simp only [Order.call, Order.Cancel]
    split_ifs
    · exact Or.inl ⟨rfl, rfl⟩
    · rcases hu o OrderStatusCancelled reason staffID rfl rfl with h | h
      · exact Or.inl h
      · exact Or.inr (Or.inl h)

/-! ## The status machine: accepted transitions, history, terminal states -/

/-- C11: for every order and every pair (current status, target) of the
transition table, `UpdateStatus(target, comment, staffID)` succeeds, sets
`Status` to `target` and appends exactly one `StatusHistory` entry whose
`Status` is `target`, `Comment` is `comment` and `StaffID` is `staffID`; the
earlier entries and every other field of the order are unchanged. -/
theorem C11_UpdateStatus_accepts (o : Order) (status : OrderStatus) (comment : String)
    (staffID : Option Nat) (now : Time) (h : (o.Status, status) ∈ allowedTransitions) :
    o.UpdateStatus status comment staffID now
      = ({ o with
            Status := status,
            StatusHistory := o.StatusHistory ++
              [{ Entity := ⟨0, 0, 0⟩, HistoryID := 0, OrderID := o.OrderID, Status := status,
                 Comment := comment, StaffID := staffID, CreatedAt := now }] }, none) ∧
    (o.UpdateStatus status comment staffID now).1.Status = status ∧
    (o.UpdateStatus status comment staffID now).1.StatusHistory.length
      = o.StatusHistory.length + 1 ∧
    (o.UpdateStatus status comment staffID now).1.StatusHistory.take o.StatusHistory.length
      = o.StatusHistory := by
  have hv := (order.isValidStatusTransition_iff o.Status status).mpr h
  rw [Order.UpdateStatus_valid o status comment staffID now hv]
  simp

/-- C11 on a `processing` order with one history entry, moved to `shipped`. -/
theorem C11_UpdateStatus_accepts_witness :
    ("processing", "shipped") ∈ allowedTransitions ∧
    ((Order.ofStatus "processing"
        [⟨⟨0, 0, 0⟩, 0, 0, "processing", "paid", none, 3⟩]).UpdateStatus
      "shipped" "handed to carrier" (some 7) 9).2 = none ∧
    ((Order.ofStatus "processing"
        [⟨⟨0, 0, 0⟩, 0, 0, "processing", "paid", none, 3⟩]).UpdateStatus
      "shipped" "handed to carrier" (some 7) 9).1.Status = "shipped" ∧
    ((Order.ofStatus "processing"
        [⟨⟨0, 0, 0⟩, 0, 0, "processing", "paid", none, 3⟩]).UpdateStatus
      "shipped" "handed to carrier" (some 7) 9).1.StatusHistory
      = [⟨⟨0, 0, 0⟩, 0, 0, "processing", "paid", none, 3⟩,
         ⟨⟨0, 0, 0⟩, 0, 0, "shipped", "handed to carrier", some 7, 9⟩] :=
  ⟨by decide,
   congrArg Prod.snd (C11_UpdateStatus_accepts
     (Order.ofStatus "processing" [⟨⟨0, 0, 0⟩, 0, 0, "processing", "paid", none, 3⟩])
     "shipped" "handed to carrier" (some 7) 9 (by decide)).1,
   (C11_UpdateStatus_accepts
     (Order.ofStatus "processing" [⟨⟨0, 0, 0⟩, 0, 0, "processing", "paid", none, 3⟩])
     "shipped" "handed to carrier" (some 7) 9 (by decide)).2.1,
   congrArg (fun r => r.1.StatusHistory) (C11_UpdateStatus_accepts
     (Order.ofStatus "processing" [⟨⟨0, 0, 0⟩, 0, 0, "processing", "paid", none, 3⟩])
     "shipped" "handed to carrier" (some 7) 9 (by decide)).1⟩

/-- A call that records the current status keeps status and history in
agreement. -/
theorem Order.call_statusInSync (o : Order) (c : OrderCall) (now : Time)
    (h : o.StatusInSync) (hg : c.RecordsCurrentStatus o) : (o.call c now).1.StatusInSync := by
  unfold Order.StatusInSync at h ⊢
  rcases Order.call_effect o c now with ⟨h1, h2⟩ | ⟨e, _, h1, h2⟩ | ⟨e, ⟨cm, st, hc⟩, h1, h2⟩
  · rw [h1, h2]; exact h
  · rw [h2]; simp [h1]
  · subst hc
    simp only [OrderCall.RecordsCurrentStatus] at hg
    rw [h2, h1]; simp [hg]

/-- C12, as stated, fails: on the order `NewOrder` returns, the exported
`AddStatusHistory("shipped", ...)` appends an entry and leaves `Status` at
`pending`, so the last history entry says `shipped` and the order `pending`. -/
theorem C12_AddStatusHistory_diverges :
    (NewOrder 1 "ORD-1" 1 1 1 "" 0 0).1 = some Order.sample ∧
    (NewOrder 1 "ORD-1" 1 1 1 "" 0 0).2 = none ∧
    Order.sample.StatusInSync ∧
    (Order.sample.run [(OrderCall.AddStatusHistory "shipped" "note" none, 5)]).Status
      = "pending" ∧
    (Order.sample.run
      [(OrderCall.AddStatusHistory "shipped" "note" none, 5)]).StatusHistory.getLast?.map
        (fun h => h.Status) = some "shipped" ∧
    ¬ (Order.sample.run [(OrderCall.AddStatusHistory "shipped" "note" none, 5)]).StatusInSync := by
  decide

/-- C12, amended: in every order reachable from a successful `NewOrder` by a
finite sequence of `AddItem`, `UpdateItem`, `RemoveItem`, `SetShippingFee`,
`SetDiscount`, `SetTaxAmount`, `UpdateStatus`, `UpdatePaymentStatus`,
`AddShipment`, `Cancel`, and of `AddStatusHistory` calls that record the
status the order is in, `StatusHistory` is non-empty and the `Status` of its
last entry equals the order's `Status`. -/
theorem C12_status_history_in_sync (customerID : Nat) (orderNumber : String)
    (paymentMethodID shippingAddressID billingAddressID : Nat) (notes : String)
    (orderDate now : Time) (o : Order) (calls : List (OrderCall × Time))
    (hnew : (NewOrder customerID orderNumber paymentMethodID shippingAddressID
      billingAddressID notes orderDate now).1 = some o)
    (hg : o.RecordsCurrentStatusRun calls) :
    (o.run calls).StatusHistory ≠ [] ∧ (o.run calls).StatusInSync := by
  have h0 : o.StatusInSync := by
    unfold NewOrder at hnew
    split_ifs at hnew
    simp only [Option.some.injEq] at hnew
    subst hnew
    simp [Order.StatusInSync, Order.AddStatusHistory]
  have hrun : ∀ (calls : List (OrderCall × Time)) (o : Order), o.StatusInSync →
      o.RecordsCurrentStatusRun calls → (o.run calls).StatusInSync := by
    intro calls
    induction calls with
    | nil => intro o h _; exact h
    | cons head rest ih =>
      intro o h hg
      obtain ⟨c, t⟩ := head
      exact ih (o.call c t).1 (Order.call_statusInSync o c t h hg.1) hg.2
  have hs := hrun calls o h0 hg
  refine ⟨?_, hs⟩
  intro hnil
  unfold Order.StatusInSync at hs
  rw [hnil] at hs
  simp at hs

/-- C12, amended, on a run that pays (moving the order to `processing`),
records the current status by `AddStatusHistory`, ships, fails to add an item
and cancels. -/
theorem C12_status_history_in_sync_witness :
    (NewOrder 1 "ORD-1" 1 1 1 "" 0 0).1 = some Order.sample ∧
    Order.sample.RecordsCurrentStatusRun
      [(OrderCall.UpdatePaymentStatus "paid", 1),
       (OrderCall.AddStatusHistory "processing" "picked" none, 2),
       (OrderCall.AddShipment ⟨⟨0, 0, 0⟩, 1, 0, "TH123", "post", none, none, "pending", 0, 0,
          none⟩, 3),
       (OrderCall.AddItem (OrderItem.ofPrice 1 ⟨0, "THB"⟩ 1), 4),
       (OrderCall.Cancel "lost" (some 2), 5)] ∧
    (Order.sample.run
      [(OrderCall.UpdatePaymentStatus "paid", 1),
       (OrderCall.AddStatusHistory "processing" "picked" none, 2),
       (OrderCall.AddShipment ⟨⟨0, 0, 0⟩, 1, 0, "TH123", "post", none, none, "pending", 0, 0,
          none⟩, 3),
       (OrderCall.AddItem (OrderItem.ofPrice 1 ⟨0, "THB"⟩ 1), 4),
       (OrderCall.Cancel "lost" (some 2), 5)]).StatusInSync :=
  ⟨by decide,
   by simp only [Order.RecordsCurrentStatusRun, OrderCall.RecordsCurrentStatus]; decide,
   (C12_status_history_in_sync 1 "ORD-1" 1 1 1 "" 0 0 Order.sample _ (by decide)
     (by simp only [Order.RecordsCurrentStatusRun, OrderCall.RecordsCurrentStatus];
         decide)).2⟩

/-- C13: for every order and every call of an exported `Order` operation,
successful or failed, the `StatusHistory` before the call is a prefix of the
`StatusHistory` after the call; the same holds along every sequence of calls.
No existing entry is ever modified or removed. -/
theorem C13_history_append_only (o : Order) :
    (∀ (c : OrderCall) (now : Time), o.StatusHistory <+: (o.call c now).1.StatusHistory) ∧
    (∀ calls : List (OrderCall × Time), o.StatusHistory <+: (o.run calls).StatusHistory) := by
  have hcall : ∀ (o : Order) (c : OrderCall) (now : Time),
      o.StatusHistory <+: (o.call c now).1.StatusHistory := by
    intro o c now
    rcases Order.call_effect o c now with ⟨_, h2⟩ | ⟨e, _, _, h2⟩ | ⟨e, _, _, h2⟩
    · rw [h2]
    · rw [h2]; exact List.prefix_append _ _
    · rw [h2]; exact List.prefix_append _ _
  refine ⟨hcall o, ?_⟩
  intro calls
  induction calls generalizing o with
  | nil => exact List.prefix_refl _
  | cons head rest ih =>
    obtain ⟨c, t⟩ := head
    exact (hcall o c t).trans (ih (o.call c t).1)

/-- C14: for every order whose `Status` is `delivered` or `cancelled`, no
call of an exported `Order` operation changes `Status`, and so the status is
still the same after every sequence of calls. -/
theorem C14_terminal_states (o : Order)
    (h : o.Status = OrderStatusDelivered ∨ o.Status = OrderStatusCancelled) :
    (∀ (c : OrderCall) (now : Time), (o.call c now).1.Status = o.Status) ∧
    (∀ calls : List (OrderCall × Time), (o.run calls).Status = o.Status) := by
  have hcall : ∀ (o : Order),
      (o.Status = OrderStatusDelivered ∨ o.Status = OrderStatusCancelled) →
      ∀ (c : OrderCall) (now : Time), (o.call c now).1.Status = o.Status := by
    intro o h c now
    rcases Order.call_effect o c now with ⟨h1, _⟩ | ⟨e, hv, _, _⟩ | ⟨e, _, h1, _⟩
    · exact h1
    · exfalso
      rw [order.isValidStatusTransition_iff] at hv
      rcases h with h | h
      · rw [h] at hv; exact (order.terminal_not_allowed _).1 hv
      · rw [h] at hv; exact (order.terminal_not_allowed _).2 hv
    · exact h1
  refine ⟨hcall o h, ?_⟩
  intro calls
  induction calls generalizing o with
  | nil => rfl
  | cons head rest ih =>
    obtain ⟨c, t⟩ := head
    have h1 := hcall o h c t
    have h2 := ih (o.call c t).1 (by rw [h1]; exact h)
    exact h2.trans h1

/-- C14 on a `delivered` order: a run of `Cancel`, `UpdateStatus`,
`UpdatePaymentStatus`, `AddShipment` and `AddStatusHistory` leaves it
`delivered`. -/
theorem C14_terminal_states_witness :
    (Order.ofStatus "delivered" []).Status = OrderStatusDelivered ∧
    ((Order.ofStatus "delivered" []).run
      [(OrderCall.Cancel "late" none, 1), (OrderCall.UpdateStatus "pending" "reopen" none, 2),
       (OrderCall.UpdatePaymentStatus "paid", 3),
       (OrderCall.AddShipment ⟨⟨0, 0, 0⟩, 1, 0, "TH123", "post", none, none, "pending", 0, 0,
          none⟩, 4),
       (OrderCall.AddStatusHistory "cancelled" "note" none, 5)]).Status = "delivered" :=
  ⟨by decide, (C14_terminal_states (Order.ofStatus "delivered" []) (Or.inl (by decide))).2 _⟩

/-- C15: for every order whose `Status` is not `pending`, each of `AddItem`,
`UpdateItem`, `RemoveItem`, `SetShippingFee`, `SetDiscount` and `SetTaxAmount`
returns its error for every argument and leaves the whole order unchanged. -/
theorem C15_frozen_after_pending (o : Order) (item : OrderItem) (itemID : Nat)
    (quantity : GoInt) (fee : vo.Money) (h : o.Status ≠ OrderStatusPending) :
    o.AddItem item = (o, some "cannot add items to a non-pending order") ∧
    o.UpdateItem itemID quantity = (o, some "cannot update items in a non-pending order") ∧
    o.RemoveItem itemID = (o, some "cannot remove items from a non-pending order") ∧
    o.SetShippingFee fee = (o, some "cannot update shipping fee in a non-pending order") ∧
    o.SetDiscount fee = (o, some "cannot update discount in a non-pending order") ∧
    o.SetTaxAmount fee = (o, some "cannot update tax in a non-pending order") := by
  simp only [Order.AddItem, Order.UpdateItem, Order.RemoveItem, Order.SetShippingFee,
    Order.SetDiscount, Order.SetTaxAmount, if_pos h, and_self]

/-- C15 on a `shipped` order. -/
theorem C15_frozen_after_pending_witness :
    (Order.ofStatus "shipped" []).Status ≠ OrderStatusPending ∧
    (Order.ofStatus "shipped" []).AddItem (OrderItem.ofPrice 1 ⟨1, "THB"⟩ 2)
      = (Order.ofStatus "shipped" [], some "cannot add items to a non-pending order") ∧
    (Order.ofStatus "shipped" []).SetDiscount ⟨5, "THB"⟩
      = (Order.ofStatus "shipped" [], some "cannot update discount in a non-pending order") :=
  ⟨by decide,
   (C15_frozen_after_pending (Order.ofStatus "shipped" []) (OrderItem.ofPrice 1 ⟨1, "THB"⟩ 2)
      0 0 ⟨5, "THB"⟩ (by decide)).1,
   (C15_frozen_after_pending (Order.ofStatus "shipped" []) (OrderItem.ofPrice 1 ⟨1, "THB"⟩ 2)
      0 0 ⟨5, "THB"⟩ (by decide)).2.2.2.2.1⟩

/-! ## Cancel -/

/-- C19: for every order whose `Status` is `pending`, `processing` or
`shipped`, `Cancel(reason, staffID)` succeeds, sets `Status` to `cancelled`
and appends exactly one `StatusHistory` entry with `Status` `cancelled`,
`Comment` `reason` and `StaffID` `staffID`; a second `Cancel` on the resulting
order fails with "invalid status transition" and changes nothing. -/
theorem C19_Cancel (o : Order) (reason : String) (staffID : Option Nat) (now : Time)
    (h : o.Status = OrderStatusPending ∨ o.Status = OrderStatusProcessing ∨
      o.Status = OrderStatusShipped) :
    o.Cancel reason staffID now
      = ({ o with
            Status := OrderStatusCancelled,
            StatusHistory := o.StatusHistory ++
              [{ Entity := ⟨0, 0, 0⟩, HistoryID := 0, OrderID := o.OrderID,
                 Status := OrderStatusCancelled, Comment := reason, StaffID := staffID,
                 CreatedAt := now }] }, none) ∧
    (∀ (reason2 : String) (staffID2 : Option Nat) (now2 : Time),
      (o.Cancel reason staffID now).1.Cancel reason2 staffID2 now2
        = ((o.Cancel reason staffID now).1, some "invalid status transition")) := by
  have hnd : ¬ o.Status = OrderStatusDelivered := by
    rcases h with h | h | h <;> rw [h] <;> decide
  have hv : isValidStatusTransition o.Status OrderStatusCancelled = true := by
    rcases h with h | h | h <;> rw [h] <;> decide
  have h1 : o.Cancel reason staffID now
      = ({ o with
            Status := OrderStatusCancelled,
            StatusHistory := o.StatusHistory ++
              [{ Entity := ⟨0, 0, 0⟩, HistoryID := 0, OrderID := o.OrderID,
                 Status := OrderStatusCancelled, Comment := reason, StaffID := staffID,
                 CreatedAt := now }] }, none) := by
    unfold Order.Cancel
    rw [if_neg hnd]
    exact Order.UpdateStatus_valid o OrderStatusCancelled reason staffID now hv
  refine ⟨h1, ?_⟩
  intro reason2 staffID2 now2
  rw [h1]
  unfold Order.Cancel
  rw [if_neg (show ¬ OrderStatusCancelled = OrderStatusDelivered by decide)]
  exact Order.UpdateStatus_invalid _ OrderStatusCancelled reason2 staffID2 now2
    (show isValidStatusTransition OrderStatusCancelled OrderStatusCancelled = false by decide)

/-- C19 on a `shipped` order: `Cancel` succeeds and appends a `cancelled`
entry, and a second `Cancel` fails. -/
theorem C19_Cancel_witness :
    (Order.ofStatus "shipped" []).Status = OrderStatusShipped ∧
    ((Order.ofStatus "shipped" []).Cancel "customer request" (some 3) 8).2 = none ∧
    ((Order.ofStatus "shipped" []).Cancel "customer request" (some 3) 8).1.Status
      = "cancelled" ∧
    ((Order.ofStatus "shipped" []).Cancel "customer request" (some 3) 8).1.StatusHistory
      = [⟨⟨0, 0, 0⟩, 0, 0, "cancelled", "customer request", some 3, 8⟩] ∧
    (((Order.ofStatus "shipped" []).Cancel "customer request" (some 3) 8).1.Cancel
      "again" none 9).2 = some "invalid status transition" :=
  ⟨by decide,
   congrArg Prod.snd (C19_Cancel (Order.ofStatus "shipped" []) "customer request" (some 3) 8
     (Or.inr (Or.inr (by decide)))).1,
   congrArg (fun r => r.1.Status) (C19_Cancel (Order.ofStatus "shipped" [])
     "customer request" (some 3) 8 (Or.inr (Or.inr (by decide)))).1,
   congrArg (fun r => r.1.StatusHistory) (C19_Cancel (Order.ofStatus "shipped" [])
     "customer request" (some 3) 8 (Or.inr (Or.inr (by decide)))).1,
   congrArg Prod.snd ((C19_Cancel (Order.ofStatus "shipped" []) "customer request" (some 3) 8
     (Or.inr (Or.inr (by decide)))).2 "again" none 9)⟩

/-- C20: for every order whose `Status` is `delivered`, `Cancel` fails with
"cannot cancel a delivered order" and leaves the whole order, so `Status` and
`StatusHistory`, unchanged; that error is not the "invalid status transition"
error that `UpdateStatus` returns on the same order for every target. -/
theorem C20_Cancel_delivered (o : Order) (reason : String) (staffID : Option Nat)
    (now : Time) (h : o.Status = OrderStatusDelivered) :
    o.Cancel reason staffID now = (o, some "cannot cancel a delivered order") ∧
    (o.Cancel reason staffID now).1.Status = o.Status ∧
    (o.Cancel reason staffID now).1.StatusHistory = o.StatusHistory ∧
    (∀ (status : OrderStatus) (comment : String) (staffID2 : Option Nat) (now2 : Time),
      o.UpdateStatus status comment staffID2 now2 = (o, some "invalid status transition") ∧
      (o.Cancel reason staffID now).2 ≠ (o.UpdateStatus status comment staffID2 now2).2) := by
  have h1 : o.Cancel reason staffID now = (o, some "cannot cancel a delivered order") := by
    unfold Order.Cancel
    rw [if_pos h]
  refine ⟨h1, by rw [h1], by rw [h1], ?_⟩
  intro status comment staffID2 now2
  have hv : isValidStatusTransition o.Status status = false := by
    rw [← Bool.not_eq_true, order.isValidStatusTransition_iff, h]
    exact (order.terminal_not_allowed status).1
  rw [h1, Order.UpdateStatus_invalid o status comment staffID2 now2 hv]
  exact ⟨rfl, show some "cannot cancel a delivered order" ≠ some "invalid status transition"
    by decide⟩

/-- C20 on a `delivered` order with one history entry. -/
theorem C20_Cancel_delivered_witness :
    (Order.ofStatus "delivered"
      [⟨⟨0, 0, 0⟩, 0, 0, "delivered", "signed", none, 3⟩]).Status = OrderStatusDelivered ∧
    (Order.ofStatus "delivered" [⟨⟨0, 0, 0⟩, 0, 0, "delivered", "signed", none, 3⟩]).Cancel
        "too late" none 9
      = (Order.ofStatus "delivered" [⟨⟨0, 0, 0⟩, 0, 0, "delivered", "signed", none, 3⟩],
         some "cannot cancel a delivered order") :=
  ⟨by decide,
   (C20_Cancel_delivered
     (Order.ofStatus "delivered" [⟨⟨0, 0, 0⟩, 0, 0, "delivered", "signed", none, 3⟩])
     "too late" none 9 (by decide)).1⟩

/-! ## Money arithmetic and the errors of recalculation -/

/-- With a non-empty currency `NewMoney` succeeds. -/
theorem vo.NewMoney_ok (amount : F64) (currency : String) (h : currency ≠ "") :
    vo.NewMoney amount currency
      = (⟨F64.div (F64.Round (F64.mul amount 100)) 100, currency⟩, none) := by
  simp [vo.NewMoney, h]

/-- The two outcomes of `Add` on a receiver with a non-empty currency. -/
theorem vo.Money.Add_cases (m other : vo.Money) (h : m.Currency ≠ "") :
    (m.Currency = other.Currency ∧
      m.Add other
        = (⟨F64.div (F64.Round (F64.mul (F64.add m.Amount other.Amount) 100)) 100,
            m.Currency⟩, none)) ∨
    (m.Currency ≠ other.Currency ∧
      m.Add other = (⟨0, ""⟩, some "cannot add different currencies")) := by
  by_cases hc : m.Currency = other.Currency
  · left
    refine ⟨hc, ?_⟩
    simp only [vo.Money.Add, ne_eq, hc, not_true_eq_false, if_false]
    rw [← hc]
    exact vo.NewMoney_ok _ _ h
  · right
    exact ⟨hc, by simp [vo.Money.Add, hc]⟩

/-- The two outcomes of `Subtract` on a receiver with a non-empty currency. -/
theorem vo.Money.Subtract_cases (m other : vo.Money) (h : m.Currency ≠ "") :
    (m.Currency = other.Currency ∧
      m.Subtract other
        = (⟨F64.div (F64.Round (F64.mul (F64.sub m.Amount other.Amount) 100)) 100,
            m.Currency⟩, none)) ∨
    (m.Currency ≠ other.Currency ∧
      m.Subtract other = (⟨0, ""⟩, some "cannot subtract different currencies")) := by
  by_cases hc : m.Currency = other.Currency
  · left
    refine ⟨hc, ?_⟩
    simp only [vo.Money.Subtract, ne_eq, hc, not_true_eq_false, if_false]
    rw [← hc]
    exact vo.NewMoney_ok _ _ h
  · right
    exact ⟨hc, by simp [vo.Money.Subtract, hc]⟩

/-- The loop over the items either ends with a sum in the currency it
started with, or stops on a currency mismatch. -/
theorem Order.sumItemTotals_cases (items : List OrderItem) (subtotal : vo.Money)
    (h : subtotal.Currency ≠ "") :
    ((Order.sumItemTotals subtotal items).2 = none ∧
      (Order.sumItemTotals subtotal items).1.Currency = subtotal.Currency) ∨
    (Order.sumItemTotals subtotal items).2 = some "cannot add different currencies" := by
  induction items generalizing subtotal with
  | nil => exact Or.inl ⟨rfl, rfl⟩
  | cons item rest ih =>
    unfold Order.sumItemTotals
    rcases vo.Money.Add_cases subtotal item.Total h with ⟨_, ha⟩ | ⟨_, ha⟩
    · rw [ha]
      exact ih _ h
    · rw [ha]
      exact Or.inr rfl

/-- One fee step that adds: it keeps the currency or stops on a mismatch. -/
theorem vo.Money.addFee_cases (m fee : vo.Money) (h : m.Currency ≠ "") :
    ((if !fee.IsZero then m.Add fee else (m, none)).2 = none ∧
      (if !fee.IsZero then m.Add fee else (m, none)).1.Currency = m.Currency) ∨
    (if !fee.IsZero then m.Add fee else (m, none)).2
      = some "cannot add different currencies" := by
  split_ifs
  · rcases vo.Money.Add_cases m fee h with ⟨_, ha⟩ | ⟨_, ha⟩
    · rw [ha]; exact Or.inl ⟨rfl, rfl⟩
    · rw [ha]; exact Or.inr rfl
  · exact Or.inl ⟨rfl, rfl⟩

/-- One fee step that subtracts: it keeps the currency or stops on a mismatch. -/
theorem vo.Money.subtractFee_cases (m fee : vo.Money) (h : m.Currency ≠ "") :
    ((if !fee.IsZero then m.Subtract fee else (m, none)).2 = none ∧
      (if !fee.IsZero then m.Subtract fee else (m, none)).1.Currency = m.Currency) ∨
    (if !fee.IsZero then m.Subtract fee else (m, none)).2
      = some "cannot subtract different currencies" := by
  split_ifs
  · rcases vo.Money.Subtract_cases m fee h with ⟨_, ha⟩ | ⟨_, ha⟩
    · rw [ha]; exact Or.inl ⟨rfl, rfl⟩
    · rw [ha]; exact Or.inr rfl
  · exact Or.inl ⟨rfl, rfl⟩

/-- Applying the fees to a subtotal with a currency either succeeds or stops
on a currency mismatch. -/
theorem Order.totalWithFees_cases (o : Order) (h : o.Subtotal.Currency ≠ "") :
    o.totalWithFees.2 = none ∨
    o.totalWithFees.2 = some "cannot add different currencies" ∨
    o.totalWithFees.2 = some "cannot subtract different currencies" := by
  unfold Order.totalWithFees
  have c1 := vo.Money.addFee_cases o.Subtotal o.ShippingFee h
  rcases h1 : (if !o.ShippingFee.IsZero then o.Subtotal.Add o.ShippingFee
      else (o.Subtotal, none)) with ⟨total1, _ | err1⟩
  · rw [h1] at c1
    dsimp only
    have hc1 : total1.Currency ≠ "" := by
      rcases c1 with ⟨_, hc⟩ | hc
      · exact fun e => h (by rw [← hc]; exact e)
      · simp at hc
    have c2 := vo.Money.addFee_cases total1 o.TaxAmount hc1
    rcases h2 : (if !o.TaxAmount.IsZero then total1.Add o.TaxAmount
        else (total1, none)) with ⟨total2, _ | err2⟩
    · rw [h2] at c2
      dsimp only
      have hc2 : total2.Currency ≠ "" := by
        rcases c2 with ⟨_, hc⟩ | hc
        · exact fun e => hc1 (by rw [← hc]; exact e)
        · simp at hc
      have c3 := vo.Money.subtractFee_cases total2 o.DiscountAmount hc2
      rcases h3 : (if !o.DiscountAmount.IsZero then total2.Subtract o.DiscountAmount
          else (total2, none)) with ⟨total3, _ | err3⟩
      · exact Or.inl rfl
      · rw [h3] at c3
        dsimp only
        rcases c3 with ⟨hc, _⟩ | hc
        · simp at hc
        · exact Or.inr (Or.inr hc)
    · rw [h2] at c2
      dsimp only
      rcases c2 with ⟨hc, _⟩ | hc
      · simp at hc
      · exact Or.inr (Or.inl hc)
  · rw [h1] at c1
    dsimp only
    rcases c1 with ⟨hc, _⟩ | hc
    · simp at hc
    · exact Or.inr (Or.inl hc)

/-- The only errors recalculation raises are the two currency mismatches. -/
theorem Order.recalculateOrderTotals_error_kind (o : Order) (e : String)
    (h : o.recalculateOrderTotals.2 = some e) :
    e = "cannot add different currencies" ∨ e = "cannot subtract different currencies" := by
  unfold Order.recalculateOrderTotals at h
  have cs := Order.sumItemTotals_cases o.Items (vo.NewMoney 0 "THB").1 (by decide)
  rcases hs : Order.sumItemTotals (vo.NewMoney 0 "THB").1 o.Items with ⟨subtotal, _ | err⟩
  · rw [hs] at cs h
    dsimp only at h
    have hcur : subtotal.Currency ≠ "" := by
      rcases cs with ⟨_, hc⟩ | hc
      · rw [hc]; decide
      · simp at hc
    have ct := Order.totalWithFees_cases { o with Subtotal := subtotal } hcur
    rcases ht : Order.totalWithFees { o with Subtotal := subtotal } with ⟨total, _ | err⟩
    · rw [ht] at h; simp at h
    · rw [ht] at h ct
      simp only [Option.some.injEq] at h ct
      subst h
      simpa using ct
  · rw [hs] at cs h
    simp only [Option.some.injEq] at h cs
    subst h
    rcases cs with ⟨hc, _⟩ | hc
    · simp at hc
    · exact Or.inl hc

/-- The two outcomes of `Multiply`: the empty-currency error of `NewMoney`, or
the rounded product in the receiver's currency. -/
theorem vo.Money.Multiply_cases (m : vo.Money) (factor : F64) :
    (m.Currency = "" ∧ m.Multiply factor = (⟨0, ""⟩, some "currency cannot be empty")) ∨
    (m.Currency ≠ "" ∧
      m.Multiply factor
        = (⟨F64.div (F64.Round (F64.mul (F64.mul m.Amount factor) 100)) 100, m.Currency⟩,
            none)) := by
  by_cases h : m.Currency = ""
  · exact Or.inl ⟨h, by simp [vo.Money.Multiply, vo.NewMoney, h]⟩
  · exact Or.inr ⟨h, by simp [vo.Money.Multiply, vo.NewMoney, h]⟩

/-- A loop of `UpdateItem` that neither finds the item nor fails returns the
items as they were. -/
theorem Order.updateItemLoop_not_found (itemID : Nat) (quantity : GoInt)
    (items : List OrderItem)
    (hf : (Order.updateItemLoop itemID quantity items).2.1 = false)
    (he : (Order.updateItemLoop itemID quantity items).2.2 = none) :
    (Order.updateItemLoop itemID quantity items).1 = items := by
  induction items with
  | nil => rfl
  | cons item rest ih =>
    unfold Order.updateItemLoop at hf he ⊢
    split_ifs at hf he ⊢ with h1
    · rcases vo.Money.Multiply_cases item.UnitPrice (F64.ofInt quantity.val)
        with ⟨_, hm⟩ | ⟨_, hm⟩
      · rw [hm] at he; simp at he
      · rw [hm] at hf; simp at hf
    · simp only at hf he ⊢
      rw [ih hf he]

/-- A failed recalculation leaves `TotalAmount` as it was and its error is a
currency mismatch. -/
theorem Order.recalculateOrderTotals_failed (o : Order) (e : String)
    (h : o.recalculateOrderTotals.2 = some e) :
    o.recalculateOrderTotals.1.TotalAmount = o.TotalAmount ∧
    (e = "cannot add different currencies" ∨ e = "cannot subtract different currencies") :=
  ⟨Order.recalculateOrderTotals_error o (by rw [h]; simp),
   Order.recalculateOrderTotals_error_kind o e h⟩

/-! ## Item and fee mutations: guard failures and recalculation -/

/-- `AddItem` fails on a guard with the order untouched, or ends in the
recalculation of the order with the item appended. -/
theorem Order.AddItem_cases (o : Order) (item : OrderItem) :
    o.AddItem item = (o, some "cannot add items to a non-pending order") ∨
    o.AddItem item = (o, some "currency cannot be empty") ∨
    (o.Status = OrderStatusPending ∧ item.UnitPrice.Currency ≠ "" ∧
      o.AddItem item
        = Order.recalculateOrderTotals
            { o with Items := o.Items ++
                [{ item with
                    Subtotal := (item.UnitPrice.Multiply (F64.ofInt item.Quantity.val)).1,
                    Total := (item.UnitPrice.Multiply (F64.ofInt item.Quantity.val)).1 }] }) := by
  unfold Order.AddItem
  split_ifs with hp
  · exact Or.inl rfl
  · rcases vo.Money.Multiply_cases item.UnitPrice (F64.ofInt item.Quantity.val)
      with ⟨_, hm⟩ | ⟨hne, hm⟩
    · rw [hm]; exact Or.inr (Or.inl rfl)
    · rw [hm]; exact Or.inr (Or.inr ⟨not_not.mp hp, hne, rfl⟩)

/-- `UpdateItem` fails on a guard with the order untouched, or ends in the
recalculation of the order with the updated items. -/
theorem Order.UpdateItem_cases (o : Order) (itemID : Nat) (quantity : GoInt) :
    o.UpdateItem itemID quantity = (o, some "cannot update items in a non-pending order") ∨
    o.UpdateItem itemID quantity = (o, some "quantity must be greater than zero") ∨
    o.UpdateItem itemID quantity = (o, some "currency cannot be empty") ∨
    o.UpdateItem itemID quantity = (o, some "item not found in order") ∨
    (o.Status = OrderStatusPending ∧ 0 < quantity.val ∧
      (Order.updateItemLoop itemID quantity o.Items).2 = (true, none) ∧
      o.UpdateItem itemID quantity
        = Order.recalculateOrderTotals
            { o with Items := (Order.updateItemLoop itemID quantity o.Items).1 }) := by
  have herr : ∀ (items : List OrderItem) (err : String),
      (Order.updateItemLoop itemID quantity items).2.2 = some err →
      err = "currency cannot be empty" := by
    intro items
    induction items with
    | nil => intro err h; simp [Order.updateItemLoop] at h
    | cons item rest ih =>
      intro err h
      unfold Order.updateItemLoop at h
      split_ifs at h with h1
      · rcases vo.Money.Multiply_cases item.UnitPrice (F64.ofInt quantity.val)
          with ⟨_, hm⟩ | ⟨_, hm⟩
        · rw [hm] at h; simp at h; exact h.symm
        · rw [hm] at h; simp at h
      · exact ih err h
  unfold Order.UpdateItem
  split_ifs with hp hq
  · exact Or.inl rfl
  · exact Or.inr (Or.inl rfl)
  · have hnf := Order.updateItemLoop_not_found itemID quantity o.Items
    have he := herr o.Items
    rcases hl : Order.updateItemLoop itemID quantity o.Items with ⟨items, found, _ | err⟩
    · rw [hl] at hnf
      dsimp only
      cases found with
      | false =>
        have hi : items = o.Items := hnf rfl rfl
        subst hi
        exact Or.inr (Or.inr (Or.inr (Or.inl rfl)))
      | true =>
        exact Or.inr (Or.inr (Or.inr (Or.inr ⟨not_not.mp hp, by omega, rfl, rfl⟩)))
    · rw [hl] at he
      dsimp only
      rw [he err rfl]
      exact Or.inr (Or.inr (Or.inl rfl))

/-- `RemoveItem` fails on a guard with the order untouched, or ends in the
recalculation of the order without the item. -/
theorem Order.RemoveItem_cases (o : Order) (itemID : Nat) :
    o.RemoveItem itemID = (o, some "cannot remove items from a non-pending order") ∨
    o.RemoveItem itemID = (o, some "item not found in order") ∨
    (∃ itemIndex, o.Status = OrderStatusPending ∧
      Order.findItemIndex itemID o.Items = some itemIndex ∧
      o.RemoveItem itemID
        = Order.recalculateOrderTotals
            { o with Items := o.Items.take itemIndex ++ o.Items.drop (itemIndex + 1) }) := by
  unfold Order.RemoveItem
  split_ifs with hp
  · exact Or.inl rfl
  · rcases hf : Order.findItemIndex itemID o.Items with _ | idx
    · exact Or.inr (Or.inl rfl)
    · exact Or.inr (Or.inr ⟨idx, not_not.mp hp, rfl, rfl⟩)

/-- A call that mutates items or fees fails on a guard, with the order
untouched and an error that is no currency mismatch, or ends in the
recalculation of the order that holds the change. -/
theorem Order.itemFee_cases (o : Order) (c : OrderCall) (now : Time) (hc : c.IsItemOrFee) :
    (∃ msg, o.call c now = (o, some msg) ∧ msg ≠ "cannot add different currencies" ∧
      msg ≠ "cannot subtract different currencies") ∨
    (∃ o1 : Order, o.call c now = o1.recalculateOrderTotals ∧
      o1.TotalAmount = o.TotalAmount ∧
      (∀ item, c = OrderCall.AddItem item →
        o1.Items = o.Items ++
          [{ item with
              Subtotal := (item.UnitPrice.Multiply (F64.ofInt item.Quantity.val)).1,
              Total := (item.UnitPrice.Multiply (F64.ofInt item.Quantity.val)).1 }]) ∧
      (∀ fee, c = OrderCall.SetShippingFee fee → o1.ShippingFee = fee) ∧
      (∀ fee, c = OrderCall.SetDiscount fee → o1.DiscountAmount = fee) ∧
      (∀ fee, c = OrderCall.SetTaxAmount fee → o1.TaxAmount = fee)) := by
  cases c with
  | AddItem item =>
    rcases Order.AddItem_cases o item with h | h | ⟨_, _, h⟩
    · exact Or.inl ⟨_, h, by decide, by decide⟩
    · exact Or.inl ⟨_, h, by decide, by decide⟩
    · refine Or.inr ⟨_, h, rfl, ?_, ?_, ?_, ?_⟩
      · intro item2 heq
        simp only [OrderCall.AddItem.injEq] at heq
        subst heq
        rfl
      · intro fee heq; simp at heq
      · intro fee heq; simp at heq
      · intro fee heq; simp at heq
  | UpdateItem itemID quantity =>
    rcases Order.UpdateItem_cases o itemID quantity with h | h | h | h | ⟨_, _, _, h⟩
    · exact Or.inl ⟨_, h, by decide, by decide⟩
    · exact Or.inl ⟨_, h, by decide, by decide⟩
    · exact Or.inl ⟨_, h, by decide, by decide⟩
    · exact Or.inl ⟨_, h, by decide, by decide⟩
    · exact Or.inr ⟨_, h, rfl, fun _ heq => by simp at heq, fun _ heq => by simp at heq,
        fun _ heq => by simp at heq, fun _ heq => by simp at heq⟩
  | RemoveItem itemID =>
    rcases Order.RemoveItem_cases o itemID with h | h | ⟨idx, _, _, h⟩
    · exact Or.inl ⟨_, h, by decide, by decide⟩
    · exact Or.inl ⟨_, h, by decide, by decide⟩
    · exact Or.inr ⟨_, h, rfl, fun _ heq => by simp at heq, fun _ heq => by simp at heq,
        fun _ heq => by simp at heq, fun _ heq => by simp at heq⟩
  | SetShippingFee fee =>
    simp only [Order.call, Order.SetShippingFee]
    split_ifs with hp
    · exact Or.inl ⟨_, rfl, by decide, by decide⟩
    · refine Or.inr ⟨_, rfl, rfl, fun _ heq => by simp at heq, ?_,
        fun _ heq => by simp at heq, fun _ heq => by simp at heq⟩
      intro fee2 heq
      simp only [OrderCall.SetShippingFee.injEq] at heq
      subst heq
      rfl
  | SetDiscount fee =>
    simp only [Order.call, Order.SetDiscount]
    split_ifs with hp
    · exact Or.inl ⟨_, rfl, by decide, by decide⟩
    · refine Or.inr ⟨_, rfl, rfl, fun _ heq => by simp at heq, fun _ heq => by simp at heq, ?_,
        fun _ heq => by simp at heq⟩
      intro fee2 heq
      simp only [OrderCall.SetDiscount.injEq] at heq
      subst heq
      rfl
  | SetTaxAmount fee =>
    simp only [Order.call, Order.SetTaxAmount]
    split_ifs with hp
    · exact Or.inl ⟨_, rfl, by decide, by decide⟩
    · refine Or.inr ⟨_, rfl, rfl, fun _ heq => by simp at heq, fun _ heq => by simp at heq,
        fun _ heq => by simp at heq, ?_⟩
      intro fee2 heq
      simp only [OrderCall.SetTaxAmount.injEq] at heq
      subst heq
      rfl
  | UpdateStatus _ _ _ => exact absurd hc (by simp [OrderCall.IsItemOrFee])
  | AddStatusHistory _ _ _ => exact absurd hc (by simp [OrderCall.IsItemOrFee])
  | UpdatePaymentStatus _ => exact absurd hc (by simp [OrderCall.IsItemOrFee])
  | AddShipment _ => exact absurd hc (by simp [OrderCall.IsItemOrFee])
  | Cancel _ _ => exact absurd hc (by simp [OrderCall.IsItemOrFee])

/-! ## Failed item and fee mutations -/

/-- C17, as stated, fails: on the pending order `NewOrder` returns, `AddItem`
of an item priced in USD returns "cannot add different currencies", yet the
item has been appended: `Items` holds one item where it held none. -/
theorem C17_AddItem_partial_mutation :
    Order.sample.Status = "pending" ∧ Order.sample.Items = [] ∧
    (Order.sample.AddItem (OrderItem.ofPrice 1 ⟨10, "USD"⟩ 1)).2
      = some "cannot add different currencies" ∧
    (Order.sample.AddItem (OrderItem.ofPrice 1 ⟨10, "USD"⟩ 1)).1.Items.length = 1 ∧
    (Order.sample.AddItem (OrderItem.ofPrice 1 ⟨10, "USD"⟩ 1)).1.Items ≠ Order.sample.Items := by
  decide

/-- C17, amended: for every order and every call to `AddItem`, `UpdateItem`,
`RemoveItem`, `SetShippingFee`, `SetDiscount` or `SetTaxAmount` that returns
an error, `TotalAmount` is exactly as before the call; if the error is not a
currency mismatch raised by the total recomputation (so it is the non-pending
guard, the quantity check, item-not-found, or the empty-currency error of
`Multiply`), the whole order is unmodified; if it is a currency mismatch, the
change already made stays in the order: the item `AddItem` appended, or the
fee the setter stored. -/
theorem C17_failed_mutation (o : Order) (c : OrderCall) (now : Time) (e : String)
    (hc : c.IsItemOrFee) (he : (o.call c now).2 = some e) :
    (o.call c now).1.TotalAmount = o.TotalAmount ∧
    (e ≠ "cannot add different currencies" → e ≠ "cannot subtract different currencies" →
      (o.call c now).1 = o) ∧
    (e = "cannot add different currencies" ∨ e = "cannot subtract different currencies" →
      (∀ item, c = OrderCall.AddItem item →
        (o.call c now).1.Items = o.Items ++
          [{ item with
              Subtotal := (item.UnitPrice.Multiply (F64.ofInt item.Quantity.val)).1,
              Total := (item.UnitPrice.Multiply (F64.ofInt item.Quantity.val)).1 }]) ∧
      (∀ fee, c = OrderCall.SetShippingFee fee → (o.call c now).1.ShippingFee = fee) ∧
      (∀ fee, c = OrderCall.SetDiscount fee → (o.call c now).1.DiscountAmount = fee) ∧
      (∀ fee, c = OrderCall.SetTaxAmount fee → (o.call c now).1.TaxAmount = fee)) := by
  rcases Order.itemFee_cases o c now hc with ⟨msg, hm, n1, n2⟩ | ⟨o1, h1, ht, hA, hS, hD, hT⟩
  · rw [hm] at he ⊢
    simp only [Option.some.injEq] at he
    subst he
    refine ⟨rfl, fun _ _ => rfl, fun h => ?_⟩
    rcases h with h | h
    · exact absurd h n1
    · exact absurd h n2
  · rw [h1] at he ⊢
    obtain ⟨h2, h3⟩ := Order.recalculateOrderTotals_failed o1 e he
    refine ⟨h2.trans ht, fun n1 n2 => ?_, fun _ => ⟨?_, ?_, ?_, ?_⟩⟩
    · rcases h3 with h3 | h3
      · exact absurd h3 n1
      · exact absurd h3 n2
    · intro item heq
      rw [Order.recalculateOrderTotals_Items]
      exact hA item heq
    · intro fee heq
      rw [Order.recalculateOrderTotals_ShippingFee]
      exact hS fee heq
    · intro fee heq
      rw [Order.recalculateOrderTotals_DiscountAmount]
      exact hD fee heq
    · intro fee heq
      rw [Order.recalculateOrderTotals_TaxAmount]
      exact hT fee heq

/-- C17, amended, on two failing calls on the order `NewOrder` returns:
`AddItem` of a USD item (a mismatch: `TotalAmount` kept, the item stays) and
`UpdateItem` of an unknown item (a guard: the order is unmodified). -/
theorem C17_failed_mutation_witness :
    (OrderCall.AddItem (OrderItem.ofPrice 1 ⟨10, "USD"⟩ 1)).IsItemOrFee ∧
    (Order.sample.call (OrderCall.AddItem (OrderItem.ofPrice 1 ⟨10, "USD"⟩ 1)) 3).2
      = some "cannot add different currencies" ∧
    (Order.sample.call (OrderCall.AddItem (OrderItem.ofPrice 1 ⟨10, "USD"⟩ 1)) 3).1.TotalAmount
      = Order.sample.TotalAmount ∧
    (Order.sample.call (OrderCall.UpdateItem 7 2) 3).2 = some "item not found in order" ∧
    (Order.sample.call (OrderCall.UpdateItem 7 2) 3).1 = Order.sample :=
  ⟨trivial, by decide,
   (C17_failed_mutation Order.sample (OrderCall.AddItem (OrderItem.ofPrice 1 ⟨10, "USD"⟩ 1)) 3
      "cannot add different currencies" trivial (by decide)).1,
   by decide,
   (C17_failed_mutation Order.sample (OrderCall.UpdateItem 7 2) 3 "item not found in order"
      trivial (by decide)).2.1 (by decide) (by decide)⟩

/-! ## Totals after successful item and fee mutations -/

set_option maxRecDepth 100000 in
/-- C16, as stated, fails. On the order `NewOrder` returns, `AddItem` of one
unit at `NewMoney(1e16, "THB")` and of one unit at `NewMoney(1, "THB")` both
succeed; the item totals are exactly `10^16` and `1`, and `Subtotal` is
`10^16`, one whole unit below their exact sum. With the prices `0.1` and
`0.2`, `Subtotal` also differs from the `float64` sum of the two item totals,
and the exact value of `Subtotal` differs from the exact sum of the exact
values of the two item totals: amounts this small agree with the sum only as
numbers of hundredths. -/
theorem C16_subtotal_drift :
    (NewOrder 1 "ORD-1" 1 1 1 "" 0 0).1 = some Order.sample ∧
    (Order.sample.call (OrderCall.AddItem
      (OrderItem.ofPrice 1 (vo.NewMoney (F64.lit 10000000000000000 1) "THB").1 1)) 1).2
      = none ∧
    ((Order.sample.run [(OrderCall.AddItem
      (OrderItem.ofPrice 1 (vo.NewMoney (F64.lit 10000000000000000 1) "THB").1 1), 1)]).call
      (OrderCall.AddItem (OrderItem.ofPrice 2 (vo.NewMoney (F64.lit 1 1) "THB").1 1)) 2).2
      = none ∧
    ((Order.sample.run
      [(OrderCall.AddItem
          (OrderItem.ofPrice 1 (vo.NewMoney (F64.lit 10000000000000000 1) "THB").1 1), 1),
       (OrderCall.AddItem (OrderItem.ofPrice 2 (vo.NewMoney (F64.lit 1 1) "THB").1 1), 2)]
      ).Items.map (fun i => i.Total.Amount))
      = [F64.finite false 5000000000000000 1, F64.finite false 4503599627370496 (-52)] ∧
    (Order.sample.run
      [(OrderCall.AddItem
          (OrderItem.ofPrice 1 (vo.NewMoney (F64.lit 10000000000000000 1) "THB").1 1), 1),
       (OrderCall.AddItem (OrderItem.ofPrice 2 (vo.NewMoney (F64.lit 1 1) "THB").1 1), 2)]
      ).Subtotal = ⟨F64.finite false 5000000000000000 1, "THB"⟩ ∧
    F64.toRat (F64.finite false 5000000000000000 1) = 10000000000000000 ∧
    ([F64.finite false 5000000000000000 1, F64.finite false 4503599627370496 (-52)].map
      F64.toRat).sum = 10000000000000001 ∧
    (Order.sample.run
      [(OrderCall.AddItem (OrderItem.ofPrice 1 (vo.NewMoney (F64.lit 1 10) "THB").1 1), 1),
       (OrderCall.AddItem (OrderItem.ofPrice 2 (vo.NewMoney (F64.lit 2 10) "THB").1 1), 2)]
      ).Subtotal.Amount
      ≠ F64.add (vo.NewMoney (F64.lit 1 10) "THB").1.Amount
          (vo.NewMoney (F64.lit 2 10) "THB").1.Amount ∧
    ((Order.sample.run
      [(OrderCall.AddItem (OrderItem.ofPrice 1 (vo.NewMoney (F64.lit 1 10) "THB").1 1), 1),
       (OrderCall.AddItem (OrderItem.ofPrice 2 (vo.NewMoney (F64.lit 2 10) "THB").1 1), 2)]
      ).Items.map (fun i => i.Total.Amount))
      = [F64.finite false 7205759403792794 (-56), F64.finite false 7205759403792794 (-55)] ∧
    (Order.sample.run
      [(OrderCall.AddItem (OrderItem.ofPrice 1 (vo.NewMoney (F64.lit 1 10) "THB").1 1), 1),
       (OrderCall.AddItem (OrderItem.ofPrice 2 (vo.NewMoney (F64.lit 2 10) "THB").1 1), 2)]
      ).Subtotal.Amount = F64.finite false 5404319552844595 (-54) ∧
    ([F64.finite false 7205759403792794 (-56), F64.finite false 7205759403792794 (-55)].map
      F64.toRat).sum ≠ F64.toRat (F64.finite false 5404319552844595 (-54)) := by
  refine ⟨by decide, by decide, by decide, by decide, by decide, ?_, ?_, by decide,
    by decide, by decide, ?_⟩
  · norm_num [F64.toRat]
  · norm_num [F64.toRat]
  · norm_num [F64.toRat]

set_option maxRecDepth 100000 in
/-- C18, as stated, fails: in the scenario the second item's `Total` is not
`99.99` and the order `Subtotal` is not `199.99`. -/
theorem C18_scenario_not_99_99 :
    (NewOrder 1 "ORD-1" 1 1 1 "" 0 0).1 = some Order.sample ∧
    ((Order.sample.run
      [(OrderCall.AddItem (OrderItem.ofPrice 1 (vo.NewMoney (F64.lit 100 1) "THB").1 1), 1),
       (OrderCall.AddItem
          (OrderItem.ofPrice 2 (vo.NewMoney (F64.lit 49995 1000) "THB").1 2), 2)]
      ).Items.map (fun i => i.Total.Amount)) ≠ [F64.lit 100 1, F64.lit 9999 100] ∧
    (Order.sample.run
      [(OrderCall.AddItem (OrderItem.ofPrice 1 (vo.NewMoney (F64.lit 100 1) "THB").1 1), 1),
       (OrderCall.AddItem
          (OrderItem.ofPrice 2 (vo.NewMoney (F64.lit 49995 1000) "THB").1 2), 2)]
      ).Subtotal ≠ ⟨F64.lit 19999 100, "THB"⟩ := by
  decide

set_option maxRecDepth 100000 in
/-- C18, amended: on the order `NewOrder` returns, `AddItem` of an item with
unit price `NewMoney(100.00, "THB")` and quantity 1, then `AddItem` of an item
with unit price `NewMoney(49.995, "THB")` and quantity 2, both succeed;
`NewMoney` rounds the unit price `49.995` to `50.00`, the two items' `Total`
amounts are `100.00` and `100.00`, and the order `Subtotal` is `200.00` THB. -/
theorem C18_scenario :
    (NewOrder 1 "ORD-1" 1 1 1 "" 0 0) = (some Order.sample, none) ∧
    (vo.NewMoney (F64.lit 100 1) "THB") = (⟨F64.lit 100 1, "THB"⟩, none) ∧
    (vo.NewMoney (F64.lit 49995 1000) "THB") = (⟨F64.lit 50 1, "THB"⟩, none) ∧
    (Order.sample.call (OrderCall.AddItem
      (OrderItem.ofPrice 1 (vo.NewMoney (F64.lit 100 1) "THB").1 1)) 1).2 = none ∧
    ((Order.sample.run
      [(OrderCall.AddItem (OrderItem.ofPrice 1 (vo.NewMoney (F64.lit 100 1) "THB").1 1),
        1)]).call
      (OrderCall.AddItem (OrderItem.ofPrice 2 (vo.NewMoney (F64.lit 49995 1000) "THB").1 2))
      2).2 = none ∧
    ((Order.sample.run
      [(OrderCall.AddItem (OrderItem.ofPrice 1 (vo.NewMoney (F64.lit 100 1) "THB").1 1), 1),
       (OrderCall.AddItem
          (OrderItem.ofPrice 2 (vo.NewMoney (F64.lit 49995 1000) "THB").1 2), 2)]
      ).Items.map (fun i => i.Total)) = [⟨F64.lit 100 1, "THB"⟩, ⟨F64.lit 100 1, "THB"⟩] ∧
    (Order.sample.run
      [(OrderCall.AddItem (OrderItem.ofPrice 1 (vo.NewMoney (F64.lit 100 1) "THB").1 1), 1),
       (OrderCall.AddItem
          (OrderItem.ofPrice 2 (vo.NewMoney (F64.lit 49995 1000) "THB").1 2), 2)]
      ).Subtotal = ⟨F64.lit 200 1, "THB"⟩ := by
  decide

/-! ## Payment status, shipments and construction -/

/-- C21: for every order and payment status `s`, `UpdatePaymentStatus(s)` sets
`PaymentStatus` to `s`; if `s` is `paid` and `Status` is `pending` it also
moves `Status` to `processing` and appends exactly one `StatusHistory` entry
with `Status` `processing`; in every other case `Status` and `StatusHistory`
(and every field but `PaymentStatus`) are unchanged. -/
theorem C21_UpdatePaymentStatus (o : Order) (s : PaymentStatus) (now : Time) :
    (o.UpdatePaymentStatus s now).PaymentStatus = s ∧
    (s = PaymentStatusPaid ∧ o.Status = OrderStatusPending →
      o.UpdatePaymentStatus s now
        = { o with
            PaymentStatus := s,
            Status := OrderStatusProcessing,
            StatusHistory := o.StatusHistory ++
              [{ Entity := ⟨0, 0, 0⟩, HistoryID := 0, OrderID := o.OrderID,
                 Status := OrderStatusProcessing,
                 Comment := "Payment received, order processing", StaffID := none,
                 CreatedAt := now }] }) ∧
    (¬ (s = PaymentStatusPaid ∧ o.Status = OrderStatusPending) →
      o.UpdatePaymentStatus s now = { o with PaymentStatus := s } ∧
      (o.UpdatePaymentStatus s now).Status = o.Status ∧
      (o.UpdatePaymentStatus s now).StatusHistory = o.StatusHistory) := by
  refine ⟨?_, ?_, ?_⟩
  · simp only [Order.UpdatePaymentStatus]
    split_ifs with h
    · rcases Order.UpdateStatus_cases { o with PaymentStatus := s } OrderStatusProcessing
        "Payment received, order processing" none now with ⟨_, hu⟩ | ⟨_, hu⟩
      · rw [hu]
      · rw [hu]
    · rfl
  · intro h
    simp only [Order.UpdatePaymentStatus]
    rw [if_pos h]
    have hv : isValidStatusTransition
        ({ o with PaymentStatus := s } : Order).Status OrderStatusProcessing = true := by
      show isValidStatusTransition o.Status OrderStatusProcessing = true
      rw [h.2]
      decide
    rw [Order.UpdateStatus_valid _ _ _ _ _ hv]
  · intro h
    simp only [Order.UpdatePaymentStatus]
    rw [if_neg h]
    exact ⟨rfl, rfl, rfl⟩

/-- C22: for every order and shipment, `AddShipment` fails with "can only add
shipment to processing orders" exactly when `Status` is not `processing`,
leaving the order unchanged; when `Status` is `processing` it succeeds,
appends exactly one shipment to `Shipments`, the given one with `OrderID` set
to the order's `OrderID`, sets `Status` to `shipped` and appends one
`StatusHistory` entry with `Status` `shipped`. -/
theorem C22_AddShipment (o : Order) (shipment : Shipment) (now : Time) :
    ((o.AddShipment shipment now).2 ≠ none ↔ o.Status ≠ OrderStatusProcessing) ∧
    (o.Status ≠ OrderStatusProcessing →
      o.AddShipment shipment now = (o, some "can only add shipment to processing orders")) ∧
    (o.Status = OrderStatusProcessing →
      o.AddShipment shipment now
        = ({ o with
              Shipments := o.Shipments ++ [{ shipment with OrderID := o.OrderID }],
              Status := OrderStatusShipped,
              StatusHistory := o.StatusHistory ++
                [{ Entity := ⟨0, 0, 0⟩, HistoryID := 0, OrderID := o.OrderID,
                   Status := OrderStatusShipped, Comment := "Order shipped",
                   StaffID := none, CreatedAt := now }] }, none)) := by
  have h1 : o.Status ≠ OrderStatusProcessing →
      o.AddShipment shipment now
        = (o, some "can only add shipment to processing orders") := by
    intro h
    unfold Order.AddShipment
    rw [if_pos h]
  have h2 : o.Status = OrderStatusProcessing →
      o.AddShipment shipment now
        = ({ o with
              Shipments := o.Shipments ++ [{ shipment with OrderID := o.OrderID }],
              Status := OrderStatusShipped,
              StatusHistory := o.StatusHistory ++
                [{ Entity := ⟨0, 0, 0⟩, HistoryID := 0, OrderID := o.OrderID,
                   Status := OrderStatusShipped, Comment := "Order shipped",
                   StaffID := none, CreatedAt := now }] }, none) := by
    intro h
    unfold Order.AddShipment
    rw [if_neg (not_not.mpr h)]
    have hv : isValidStatusTransition
        ({ o with Shipments := o.Shipments ++ [{ shipment with OrderID := o.OrderID }] }
          : Order).Status OrderStatusShipped = true := by
      show isValidStatusTransition o.Status OrderStatusShipped = true
      rw [h]
      decide
    rw [Order.UpdateStatus_valid _ _ _ _ _ hv]
  refine ⟨?_, h1, h2⟩
  by_cases h : o.Status = OrderStatusProcessing
  · rw [h2 h]; simp [h]
  · rw [h1 h]; simp [h]

/-- `NewMoney(0, "THB")` is zero THB. -/
theorem vo.NewMoney_zero_THB :
    vo.NewMoney 0 "THB" = (⟨F64.zero false, "THB"⟩, none) := by
  decide

/-- C23: for every successful `NewOrder` call, the returned order has `Status`
`pending`, `PaymentStatus` `pending`, `Subtotal`, `ShippingFee`, `TaxAmount`,
`DiscountAmount` and `TotalAmount` all equal to zero THB, empty `Items`,
`Shipments` and `Transactions`, and a `StatusHistory` of exactly one entry
whose `Status` is `pending`; the customer ID, order number, payment method
ID, address IDs and notes are stored as given. -/
theorem C23_NewOrder (customerID : Nat) (orderNumber : String)
    (paymentMethodID shippingAddressID billingAddressID : Nat) (notes : String)
    (orderDate now : Time) (o : Order)
    (hnew : (NewOrder customerID orderNumber paymentMethodID shippingAddressID
      billingAddressID notes orderDate now).1 = some o) :
    (NewOrder customerID orderNumber paymentMethodID shippingAddressID
      billingAddressID notes orderDate now).2 = none ∧
    o.Status = OrderStatusPending ∧ o.PaymentStatus = PaymentStatusPending ∧
    o.Subtotal = ⟨F64.zero false, "THB"⟩ ∧ o.ShippingFee = ⟨F64.zero false, "THB"⟩ ∧
    o.TaxAmount = ⟨F64.zero false, "THB"⟩ ∧ o.DiscountAmount = ⟨F64.zero false, "THB"⟩ ∧
    o.TotalAmount = ⟨F64.zero false, "THB"⟩ ∧
    (o.Subtotal.IsZero = true ∧ o.ShippingFee.IsZero = true ∧ o.TaxAmount.IsZero = true ∧
      o.DiscountAmount.IsZero = true ∧ o.TotalAmount.IsZero = true) ∧
    o.Items = [] ∧ o.Shipments = [] ∧ o.Transactions = [] ∧
    o.StatusHistory
      = [{ Entity := ⟨0, 0, 0⟩, HistoryID := 0, OrderID := 0, Status := OrderStatusPending,
           Comment := "Order created", StaffID := none, CreatedAt := now }] ∧
    o.CustomerID = customerID ∧ o.OrderNumber = orderNumber ∧
    o.PaymentMethodID = paymentMethodID ∧ o.ShippingAddressID = shippingAddressID ∧
    o.BillingAddressID = billingAddressID ∧ o.Notes = notes ∧ o.OrderDate = orderDate := by
  unfold NewOrder at hnew ⊢
  split_ifs at hnew ⊢
  simp only [Option.some.injEq] at hnew
  subst hnew
  simp only [Order.AddStatusHistory, vo.NewMoney_zero_THB, List.nil_append, true_and,
    and_true]
  decide

/-- C23 on `NewOrder(7, "ORD-9", 2, 3, 4, "gift")`. -/
theorem C23_NewOrder_witness :
    ∃ o : Order, (NewOrder 7 "ORD-9" 2 3 4 "gift" 11 12).1 = some o ∧
      o.Status = "pending" ∧ o.TotalAmount = ⟨F64.zero false, "THB"⟩ ∧
      o.StatusHistory.length = 1 ∧ o.CustomerID = 7 ∧ o.Notes = "gift" :=
  ⟨((NewOrder 7 "ORD-9" 2 3 4 "gift" 11 12).1).getD (Order.ofStatus "" []), by decide,
   (C23_NewOrder 7 "ORD-9" 2 3 4 "gift" 11 12 _ (by decide)).2.1,
   (C23_NewOrder 7 "ORD-9" 2 3 4 "gift" 11 12 _ (by decide)).2.2.2.2.2.2.2.1,
   by decide, by decide, by decide⟩

/-- C24: `NewOrder` returns an error, and no order, exactly when `customerID`
is 0, or `orderNumber` is the empty string, or `paymentMethodID` is 0, or
`shippingAddressID` is 0, or `billingAddressID` is 0; for all other inputs it
returns an order and no error. -/
theorem C24_NewOrder_validation (customerID : Nat) (orderNumber : String)
    (paymentMethodID shippingAddressID billingAddressID : Nat) (notes : String)
    (orderDate now : Time) :
    ((NewOrder customerID orderNumber paymentMethodID shippingAddressID billingAddressID
        notes orderDate now).2 ≠ none ↔
      (customerID = 0 ∨ orderNumber = "" ∨ paymentMethodID = 0 ∨ shippingAddressID = 0 ∨
        billingAddressID = 0)) ∧
    ((NewOrder customerID orderNumber paymentMethodID shippingAddressID billingAddressID
        notes orderDate now).2 ≠ none →
      (NewOrder customerID orderNumber paymentMethodID shippingAddressID billingAddressID
        notes orderDate now).1 = none) ∧
    ((NewOrder customerID orderNumber paymentMethodID shippingAddressID billingAddressID
        notes orderDate now).2 = none →
      (NewOrder customerID orderNumber paymentMethodID shippingAddressID billingAddressID
        notes orderDate now).1.isSome = true) := by
  unfold NewOrder
  split_ifs with h1 h2 h3 h4 h5 <;> simp_all

/-! ## Item quantities -/

set_option maxRecDepth 100000 in
/-- C25 at its failing inputs: on the order `NewOrder` returns, `AddItem` of
an item with `Quantity` 0, and of one with `Quantity` -3, at unit price
`NewMoney(10, "THB")`, returns no error and leaves the item in `Items` with
that quantity, while `UpdateItem` rejects the quantities 0 and -3 with
"quantity must be greater than zero". -/
theorem C25_AddItem_accepts_nonpositive_quantity :
    (NewOrder 1 "ORD-1" 1 1 1 "" 0 0).1 = some Order.sample ∧
    (Order.sample.AddItem (OrderItem.ofPrice 1 (vo.NewMoney 10 "THB").1 0)).2 = none ∧
    ((Order.sample.AddItem (OrderItem.ofPrice 1 (vo.NewMoney 10 "THB").1 0)).1.Items.map
      (fun i => i.Quantity.val)) = [0] ∧
    (Order.sample.AddItem
      (OrderItem.ofPrice 1 (vo.NewMoney 10 "THB").1 (GoInt.ofInt (-3)))).2 = none ∧
    ((Order.sample.AddItem
      (OrderItem.ofPrice 1 (vo.NewMoney 10 "THB").1 (GoInt.ofInt (-3)))).1.Items.map
      (fun i => (i.Quantity.val, i.Total))) = [(-3, ⟨F64.neg 30, "THB"⟩)] ∧
    ((Order.sample.AddItem (OrderItem.ofPrice 1 (vo.NewMoney 10 "THB").1 0)).1.UpdateItem 1 0).2
      = some "quantity must be greater than zero" ∧
    ((Order.sample.AddItem
      (OrderItem.ofPrice 1 (vo.NewMoney 10 "THB").1 0)).1.UpdateItem 1 (GoInt.ofInt (-3))).2
      = some "quantity must be greater than zero" := by
  decide

/-! ## Money -/

set_option maxRecDepth 100000 in
/-- C26: for every amount and currency, `NewMoney(amount, currency)` fails,
with "currency cannot be empty" and the zero `Money`, exactly when `currency`
is the empty string; otherwise it returns a `Money` whose `Currency` is the
given currency and whose `Amount` is `math.Round(amount*100)/100` in
`float64`. `math.Round` rounds halves away from zero: `12.5`, `-12.5` and
`2.5` go to `13`, `-13` and `3`, so `0.125` and `-0.125` become `0.13` and
`-0.13`. -/
theorem C26_NewMoney (amount : F64) (currency : String) :
    ((vo.NewMoney amount currency).2 ≠ none ↔ currency = "") ∧
    (currency = "" →
      vo.NewMoney amount currency = (⟨0, ""⟩, some "currency cannot be empty")) ∧
    (currency ≠ "" →
      vo.NewMoney amount currency
        = (⟨F64.div (F64.Round (F64.mul amount 100)) 100, currency⟩, none)) ∧
    (F64.Round (F64.lit 125 10) = 13 ∧ F64.Round (F64.neg (F64.lit 125 10)) = F64.neg 13 ∧
      F64.Round (F64.lit 25 10) = 3) ∧
    (vo.NewMoney (F64.lit 125 1000) "THB" = (⟨F64.lit 13 100, "THB"⟩, none) ∧
      vo.NewMoney (F64.neg (F64.lit 125 1000)) "THB"
        = (⟨F64.neg (F64.lit 13 100), "THB"⟩, none)) := by
  refine ⟨?_, ?_, ?_, by decide, by decide⟩
  · by_cases h : currency = "" <;> simp [vo.NewMoney, h]
  · intro h; simp [vo.NewMoney, h]
  · intro h; exact vo.NewMoney_ok amount currency h

/-- C27: for all `Money` values `a` and `b` with non-empty currencies,
`a.Add(b)` and `a.Subtract(b)` fail exactly when `a.Currency` differs from
`b.Currency`; when the currencies are equal they succeed and return a `Money`
with that same currency whose amount is `a.Amount + b.Amount` (respectively
`a.Amount - b.Amount`) rounded by `NewMoney`, that is
`math.Round(x*100)/100` in `float64`. Both are functions of their value
arguments: neither `a` nor `b` is written. -/
theorem C27_Add_Subtract (a b : vo.Money) (ha : a.Currency ≠ "") (_hb : b.Currency ≠ "") :
    ((a.Add b).2 ≠ none ↔ a.Currency ≠ b.Currency) ∧
    ((a.Subtract b).2 ≠ none ↔ a.Currency ≠ b.Currency) ∧
    (a.Currency ≠ b.Currency →
      a.Add b = (⟨0, ""⟩, some "cannot add different currencies") ∧
      a.Subtract b = (⟨0, ""⟩, some "cannot subtract different currencies")) ∧
    (a.Currency = b.Currency →
      a.Add b
        = (⟨F64.div (F64.Round (F64.mul (F64.add a.Amount b.Amount) 100)) 100, a.Currency⟩,
            none) ∧
      a.Subtract b
        = (⟨F64.div (F64.Round (F64.mul (F64.sub a.Amount b.Amount) 100)) 100, a.Currency⟩,
            none) ∧
      a.Add b = vo.NewMoney (F64.add a.Amount b.Amount) a.Currency ∧
      a.Subtract b = vo.NewMoney (F64.sub a.Amount b.Amount) a.Currency) := by
  rcases vo.Money.Add_cases a b ha with ⟨hc, hadd⟩ | ⟨hc, hadd⟩ <;>
  rcases vo.Money.Subtract_cases a b ha with ⟨_, hsub⟩ | ⟨_, hsub⟩
  · refine ⟨by rw [hadd]; simp [hc], by rw [hsub]; simp [hc], fun h => absurd hc h,
      fun _ => ⟨hadd, hsub, ?_, ?_⟩⟩
    · rw [hadd, vo.NewMoney_ok _ _ ha]
    · rw [hsub, vo.NewMoney_ok _ _ ha]
  · exact absurd hc ‹_›
  · exact absurd ‹a.Currency = b.Currency› hc
  · exact ⟨by rw [hadd]; simp [hc], by rw [hsub]; simp [hc], fun _ => ⟨hadd, hsub⟩,
      fun h => absurd h hc⟩

set_option maxRecDepth 100000 in
/-- C27 on `10.10 THB` and `5.05 THB` (sum `15.15`, difference `5.05`) and on
`10.10 THB` against `5.05 USD`. -/
theorem C27_Add_Subtract_witness :
    (vo.Money.mk (F64.lit 1010 100) "THB").Currency ≠ "" ∧
    (vo.Money.mk (F64.lit 1010 100) "THB").Add ⟨F64.lit 505 100, "THB"⟩
      = (⟨F64.lit 1515 100, "THB"⟩, none) ∧
    (vo.Money.mk (F64.lit 1010 100) "THB").Subtract ⟨F64.lit 505 100, "THB"⟩
      = (⟨F64.lit 505 100, "THB"⟩, none) ∧
    (vo.Money.mk (F64.lit 1010 100) "THB").Add ⟨F64.lit 505 100, "USD"⟩
      = (⟨0, ""⟩, some "cannot add different currencies") :=
  ⟨by decide,
   ((C27_Add_Subtract ⟨F64.lit 1010 100, "THB"⟩ ⟨F64.lit 505 100, "THB"⟩ (by decide)
      (by decide)).2.2.2 (by decide)).1.trans (by decide),
   ((C27_Add_Subtract ⟨F64.lit 1010 100, "THB"⟩ ⟨F64.lit 505 100, "THB"⟩ (by decide)
      (by decide)).2.2.2 (by decide)).2.1.trans (by decide),
   ((C27_Add_Subtract ⟨F64.lit 1010 100, "THB"⟩ ⟨F64.lit 505 100, "USD"⟩ (by decide)
      (by decide)).2.2.1 (by decide)).1⟩

/-! ## The rounding of `float64` arithmetic -/

/-- No binary digits in `0`. -/
theorem F64.bitLength_zero (fuel : Nat) : F64.bitLength fuel 0 = 0 := by
  cases fuel <;> simp [F64.bitLength]

/-- With enough fuel, `bitLength` is the number of binary digits. -/
theorem F64.bitLength_spec (fuel n : Nat) (h : n ≤ fuel) (hn : 0 < n) :
    2 ^ (F64.bitLength fuel n - 1) ≤ n ∧ n < 2 ^ F64.bitLength fuel n := by
  induction fuel generalizing n with
  | zero => omega
  | succ fuel ih =>
    unfold F64.bitLength
    rw [if_neg (by omega)]
    by_cases h2 : n / 2 = 0
    · rw [h2, F64.bitLength_zero]
      have : n = 1 := by omega
      subst this
      simp
    · have hpos : 0 < n / 2 := by omega
      obtain ⟨h3, h4⟩ := ih (n / 2) (by omega) hpos
      have hb : 1 ≤ F64.bitLength fuel (n / 2) := by
        by_contra hc
        have : F64.bitLength fuel (n / 2) = 0 := by omega
        rw [this] at h4
        simp at h4
        omega
      constructor
      · have : F64.bitLength fuel (n / 2) + 1 - 1 = (F64.bitLength fuel (n / 2) - 1) + 1 := by
          omega
        rw [this, pow_succ]
        omega
      · rw [pow_succ]
        omega

/-- `2 ^ (-e).toNat / 2 ^ e.toNat` is `2 ^ (-e)`. -/
theorem F64.zpow_split (e : ℤ) :
    ((2 : ℚ) ^ (-e).toNat) / (2 : ℚ) ^ e.toNat = (2 : ℚ) ^ (-e) := by
  rcases le_total 0 e with h | h
  · have h1 : (-e).toNat = 0 := Int.toNat_eq_zero.mpr (by omega)
    rw [h1, pow_zero, one_div, ← zpow_natCast, Int.toNat_of_nonneg h, zpow_neg]
  · have h1 : e.toNat = 0 := Int.toNat_eq_zero.mpr h
    rw [h1, pow_zero, div_one, ← zpow_natCast, Int.toNat_of_nonneg (by omega)]

/-- `roundQuot` is within one half of the quotient, between its floor and
the next integer. -/
theorem F64.roundQuot_spec (num den : ℕ) (hden : 0 < den) :
    num / den ≤ F64.roundQuot num den ∧ F64.roundQuot num den ≤ num / den + 1 ∧
    |(F64.roundQuot num den : ℚ) - (num : ℚ) / den| ≤ 1 / 2 := by
  have hdm : den * (num / den) + num % den = num := Nat.div_add_mod num den
  have hr : num % den < den := Nat.mod_lt num hden
  have hdq : (0 : ℚ) < den := by exact_mod_cast hden
  have hcast : (num : ℚ) = den * ((num / den : ℕ) : ℚ) + ((num % den : ℕ) : ℚ) := by
    exact_mod_cast hdm.symm
  have hx : (num : ℚ) / den = ((num / den : ℕ) : ℚ) + ((num % den : ℕ) : ℚ) / den := by
    rw [hcast]; field_simp; ring
  have hrq : ((num % den : ℕ) : ℚ) < den := by exact_mod_cast hr
  have hr0 : (0 : ℚ) ≤ ((num % den : ℕ) : ℚ) := by positivity
  unfold F64.roundQuot
  split_ifs with hc
  · refine ⟨by omega, le_rfl, ?_⟩
    have h2 : den ≤ 2 * (num % den) := by
      rcases hc with hc | ⟨hc, _⟩ <;> omega
    have h2q : (den : ℚ) ≤ 2 * ((num % den : ℕ) : ℚ) := by exact_mod_cast h2
    rw [hx]
    push_cast
    rw [abs_le]
    constructor
    · have : ((num % den : ℕ) : ℚ) / den ≤ 1 := by
        rw [div_le_one hdq]; exact hrq.le
      linarith
    · have : (1 : ℚ) / 2 ≤ ((num % den : ℕ) : ℚ) / den := by
        rw [le_div_iff₀ hdq]; linarith
      linarith
  · refine ⟨le_rfl, by omega, ?_⟩
    have h2 : 2 * (num % den) ≤ den := by
      by_contra hcon
      exact hc (Or.inl (by omega))
    have h2q : 2 * ((num % den : ℕ) : ℚ) ≤ (den : ℚ) := by exact_mod_cast h2
    rw [hx]
    rw [abs_le]
    constructor
    · have : ((num % den : ℕ) : ℚ) / den ≤ 1 / 2 := by
        rw [div_le_iff₀ hdq]; linarith
      linarith
    · have : (0 : ℚ) ≤ ((num % den : ℕ) : ℚ) / den := by positivity
      linarith

/-- Powers of two are positive. -/
theorem F64.two_zpow_pos (a : ℤ) : (0 : ℚ) < (2 : ℚ) ^ a := by positivity

/-- `bitLength n n` of a positive `n` is one more than the exponent of its
leading binary digit. -/
theorem F64.bitLength_pos (n : ℕ) (hn : 0 < n) :
    ∃ a : ℕ, F64.bitLength n n = a + 1 ∧ 2 ^ a ≤ n ∧ n < 2 ^ (a + 1) := by
  obtain ⟨h1, h2⟩ := F64.bitLength_spec n n le_rfl hn
  have hb : 1 ≤ F64.bitLength n n := by
    by_contra hc
    have : F64.bitLength n n = 0 := by omega
    rw [this] at h2
    simp at h2
    omega
  refine ⟨F64.bitLength n n - 1, by omega, h1, ?_⟩
  have : F64.bitLength n n - 1 + 1 = F64.bitLength n n := by omega
  rw [this]
  exact h2

/-- A finite `float64` with a non-negative exponent is an integer. -/
theorem F64.toRat_int_of_nonneg (s : Bool) (m : ℕ) (e : ℤ) (he : 0 ≤ e) :
    ∃ z : ℤ, F64.toRat (F64.finite s m e) = z := by
  refine ⟨(if s then -1 else 1) * (m : ℤ) * 2 ^ e.toNat, ?_⟩
  have : (2 : ℚ) ^ e = (2 : ℚ) ^ e.toNat := by
    rw [← zpow_natCast, Int.toNat_of_nonneg he]
  simp only [F64.toRat]
  rw [this]
  cases s <;> simp

/-- What `pack` returns at a non-negative exponent is infinite or an integer. -/
theorem F64.pack_int (s : Bool) (q : ℕ) (e : ℤ) (he : 0 ≤ e) :
    F64.pack s q e = F64.inf s ∨
    ∃ m e2, F64.pack s q e = F64.finite s m e2 ∧ ∃ z : ℤ, F64.toRat (F64.finite s m e2) = z := by
  unfold F64.pack
  split_ifs
  · exact Or.inl rfl
  · exact Or.inr ⟨_, _, rfl, F64.toRat_int_of_nonneg _ _ _ (by omega)⟩
  · exact Or.inl rfl
  · exact Or.inr ⟨_, _, rfl, F64.toRat_int_of_nonneg _ _ _ he⟩

/-- The rounding exponent of an integer. -/
theorem F64.roundExp_one (K : ℕ) (hK : 0 < K) :
    ∃ a : ℕ, F64.roundExp K 1 = (a : ℤ) - 52 ∧ 2 ^ a ≤ K ∧ K < 2 ^ (a + 1) := by
  obtain ⟨a, ha, ha1, ha2⟩ := F64.bitLength_pos K hK
  refine ⟨a, ?_, ha1, ha2⟩
  have h1 : F64.bitLength 1 1 = 1 := by decide
  unfold F64.roundExp
  simp only [ha, h1]
  have hl : (((a + 1 : ℕ) : ℤ) - ((1 : ℕ) : ℤ)) = (a : ℤ) := by push_cast; ring
  rw [hl]
  have h2 : (-(a : ℤ)).toNat = 0 := Int.toNat_eq_zero.mpr (by omega)
  rw [h2, Int.toNat_natCast, pow_zero, one_mul, mul_one, if_pos ha1]
  exact max_eq_left (by omega)

/-- A quotient by `1` is not rounded. -/
theorem F64.roundQuot_one (n : ℕ) : F64.roundQuot n 1 = n := by
  unfold F64.roundQuot
  have : n % 1 = 0 := Nat.mod_one n
  rw [this, if_neg (by omega)]
  exact Nat.div_one n

/-- The `float64` nearest to an integer is that integer when it is below
`2^53`. -/
theorem F64.nearest_small (s : Bool) (K : ℕ) (hK : 0 < K) (hlt : K < 9007199254740992) :
    ∃ m e, F64.nearest s K 1 = F64.finite s m e ∧ 4503599627370496 ≤ m ∧
      m < 9007199254740992 ∧ -52 ≤ e ∧ e ≤ 0 ∧ (m : ℚ) * 2 ^ e = K := by
  obtain ⟨a, hr, ha1, ha2⟩ := F64.roundExp_one K hK
  have ha : a ≤ 52 := by
    by_contra hc
    have : (2 : ℕ) ^ 53 ≤ 2 ^ a := Nat.pow_le_pow_right (by norm_num) (by omega)
    have h53 : (2 : ℕ) ^ 53 = 9007199254740992 := by norm_num
    omega
  unfold F64.nearest
  rw [if_neg (by omega), hr]
  have h1 : ((a : ℤ) - 52).toNat = 0 := Int.toNat_eq_zero.mpr (by omega)
  have h2 : (-((a : ℤ) - 52)).toNat = 52 - a := by omega
  rw [h1, h2, pow_zero, mul_one, F64.roundQuot_one]
  have hp : (2 : ℕ) ^ a * 2 ^ (52 - a) = 4503599627370496 := by
    rw [← pow_add, show a + (52 - a) = 52 by omega]; norm_num
  have hlo : 4503599627370496 ≤ K * 2 ^ (52 - a) := by
    rw [← hp]; exact Nat.mul_le_mul_right _ ha1
  have hhi : K * 2 ^ (52 - a) < 9007199254740992 := by
    have : (2 : ℕ) ^ (a + 1) * 2 ^ (52 - a) = 9007199254740992 := by
      rw [← pow_add, show a + 1 + (52 - a) = 53 by omega]; norm_num
    rw [← this]
    exact Nat.mul_lt_mul_of_pos_right ha2 (by positivity)
  unfold F64.pack
  rw [if_neg (by omega), if_neg (by omega)]
  refine ⟨_, _, rfl, hlo, hhi, by omega, by omega, ?_⟩
  push_cast
  rw [mul_assoc, ← zpow_natCast, ← zpow_add₀ (by norm_num : (2 : ℚ) ≠ 0)]
  have : (((52 - a : ℕ) : ℤ) + ((a : ℤ) - 52)) = 0 := by omega
  rw [this, zpow_zero, mul_one]

/-- The `float64` nearest to an integer is infinite or an integer. -/
theorem F64.nearest_int (s : Bool) (K : ℕ) :
    F64.nearest s K 1 = F64.inf s ∨
    ∃ m e, F64.nearest s K 1 = F64.finite s m e ∧
      ∃ z : ℤ, F64.toRat (F64.finite s m e) = z := by
  rcases Nat.eq_zero_or_pos K with h0 | hK
  · subst h0
    refine Or.inr ⟨0, -1074, rfl, 0, ?_⟩
    simp [F64.toRat]
  · by_cases hlt : K < 9007199254740992
    · obtain ⟨m, e, h, _, _, _, _, hv⟩ := F64.nearest_small s K hK hlt
      refine Or.inr ⟨m, e, h, (if s then -1 else 1) * (K : ℤ), ?_⟩
      simp only [F64.toRat]
      rw [mul_assoc, hv]
      cases s <;> simp
    · obtain ⟨a, hr, ha1, ha2⟩ := F64.roundExp_one K hK
      have ha : 53 ≤ a + 1 := by
        by_contra hc
        have : (2 : ℕ) ^ (a + 1) ≤ 2 ^ 52 := Nat.pow_le_pow_right (by norm_num) (by omega)
        have h52 : (2 : ℕ) ^ 52 = 4503599627370496 := by norm_num
        omega
      unfold F64.nearest
      rw [if_neg (by omega)]
      exact F64.pack_int s _ _ (by rw [hr]; omega)

/-- `math.Round` returns NaN, an infinity or an integer. -/
theorem F64.Round_int (x : F64) :
    F64.Round x = F64.nan ∨ (∃ s, F64.Round x = F64.inf s) ∨
    ∃ s m e, F64.Round x = F64.finite s m e ∧ ∃ z : ℤ, F64.toRat (F64.finite s m e) = z := by
  cases x with
  | nan => exact Or.inl rfl
  | inf s => exact Or.inr (Or.inl ⟨s, rfl⟩)
  | finite s m e =>
    right
    simp only [F64.Round]
    split_ifs with h1 h2
    · exact Or.inr ⟨s, m, e, rfl, F64.toRat_int_of_nonneg s m e h1⟩
    · refine Or.inr ⟨s, 0, -1074, rfl, 0, ?_⟩
      simp [F64.toRat]
    · rcases F64.nearest_int s ((2 * m + 2 ^ (-e).toNat) / (2 * 2 ^ (-e).toNat)) with h | ⟨k, f, h, hz⟩
      · exact Or.inl ⟨s, h⟩
      · exact Or.inr ⟨s, k, f, h, hz⟩

/-- Before it is clamped at `-1074`, `roundExp n d` is the exponent `e` with
`2^(e+52) <= n/d < 2^(e+53)`. -/
theorem F64.roundExp_raw (n d : ℕ) (hn : 0 < n) (hd : 0 < d) :
    ∃ e1 : ℤ, F64.roundExp n d = max e1 (-1074) ∧
      (2 : ℚ) ^ (e1 + 52) ≤ (n : ℚ) / d ∧ (n : ℚ) / d < (2 : ℚ) ^ (e1 + 53) := by
  obtain ⟨a, ha, ha1, ha2⟩ := F64.bitLength_pos n hn
  obtain ⟨b, hb, hb1, hb2⟩ := F64.bitLength_pos d hd
  have hdq : (0 : ℚ) < d := by exact_mod_cast hd
  have hnq : (0 : ℚ) < n := by exact_mod_cast hn
  have ha1q : (2 : ℚ) ^ (a : ℤ) ≤ n := by rw [zpow_natCast]; exact_mod_cast ha1
  have ha2q : (n : ℚ) < (2 : ℚ) ^ ((a : ℤ) + 1) := by
    rw [show ((a : ℤ) + 1) = ((a + 1 : ℕ) : ℤ) by push_cast; ring, zpow_natCast]
    exact_mod_cast ha2
  have hb1q : (2 : ℚ) ^ (b : ℤ) ≤ d := by rw [zpow_natCast]; exact_mod_cast hb1
  have hb2q : (d : ℚ) < (2 : ℚ) ^ ((b : ℤ) + 1) := by
    rw [show ((b : ℤ) + 1) = ((b + 1 : ℕ) : ℤ) by push_cast; ring, zpow_natCast]
    exact_mod_cast hb2
  have h2 : (2 : ℚ) ≠ 0 := by norm_num
  have hup : (n : ℚ) / d < (2 : ℚ) ^ ((a : ℤ) - b + 1) := by
    rw [div_lt_iff₀ hdq]
    calc (n : ℚ) < (2 : ℚ) ^ ((a : ℤ) + 1) := ha2q
      _ = (2 : ℚ) ^ ((a : ℤ) - b + 1) * (2 : ℚ) ^ (b : ℤ) := by
          rw [← zpow_add₀ h2]; congr 1; ring
      _ ≤ (2 : ℚ) ^ ((a : ℤ) - b + 1) * d :=
          mul_le_mul_of_nonneg_left hb1q (F64.two_zpow_pos _).le
  have hdown : (2 : ℚ) ^ ((a : ℤ) - b - 1) < (n : ℚ) / d := by
    rw [lt_div_iff₀ hdq]
    calc (2 : ℚ) ^ ((a : ℤ) - b - 1) * d
        < (2 : ℚ) ^ ((a : ℤ) - b - 1) * (2 : ℚ) ^ ((b : ℤ) + 1) :=
          mul_lt_mul_of_pos_left hb2q (F64.two_zpow_pos _)
      _ = (2 : ℚ) ^ (a : ℤ) := by rw [← zpow_add₀ h2]; congr 1; ring
      _ ≤ n := ha1q
  have hcond : (d * 2 ^ ((a : ℤ) - b).toNat ≤ n * 2 ^ (-((a : ℤ) - b)).toNat) ↔
      (2 : ℚ) ^ ((a : ℤ) - b) ≤ (n : ℚ) / d := by
    have hs := F64.zpow_split (-((a : ℤ) - b))
    rw [neg_neg] at hs
    have hP : (0 : ℚ) < (2 : ℚ) ^ (-((a : ℤ) - b)).toNat := by positivity
    rw [← hs, div_le_div_iff₀ hP hdq]
    constructor
    · intro h
      have : ((d * 2 ^ ((a : ℤ) - b).toNat : ℕ) : ℚ) ≤ ((n * 2 ^ (-((a : ℤ) - b)).toNat : ℕ) : ℚ) := by
        exact_mod_cast h
      push_cast at this
      linarith
    · intro h
      have : ((d * 2 ^ ((a : ℤ) - b).toNat : ℕ) : ℚ) ≤ ((n * 2 ^ (-((a : ℤ) - b)).toNat : ℕ) : ℚ) := by
        push_cast
        linarith
      exact_mod_cast this
  have hl : ((F64.bitLength n n : ℕ) : ℤ) - ((F64.bitLength d d : ℕ) : ℤ) = (a : ℤ) - b := by
    rw [ha, hb]; push_cast; ring
  unfold F64.roundExp
  simp only [hl]
  by_cases hc : d * 2 ^ ((a : ℤ) - b).toNat ≤ n * 2 ^ (-((a : ℤ) - b)).toNat
  · rw [if_pos hc]
    refine ⟨(a : ℤ) - b - 52, rfl, ?_, ?_⟩
    · rw [show (a : ℤ) - b - 52 + 52 = (a : ℤ) - b by ring]; exact hcond.mp hc
    · rw [show (a : ℤ) - b - 52 + 53 = (a : ℤ) - b + 1 by ring]; exact hup
  · rw [if_neg hc]
    have hlt : (n : ℚ) / d < (2 : ℚ) ^ ((a : ℤ) - b) := by
      by_contra hcon
      exact hc (hcond.mpr (not_lt.mp hcon))
    refine ⟨(a : ℤ) - b - 53, rfl, ?_, ?_⟩
    · rw [show (a : ℤ) - b - 53 + 52 = (a : ℤ) - b - 1 by ring]; exact hdown.le
    · rw [show (a : ℤ) - b - 53 + 53 = (a : ℤ) - b by ring]; exact hlt

/-- What `pack` returns for a mantissa with 53 digits (or carried to `2^53`):
an infinity when the exponent overflows, and otherwise a normal `float64` of
the value `q * 2^e`. -/
theorem F64.pack_cases (s : Bool) (q : ℕ) (e : ℤ) (h1 : 4503599627370496 ≤ q)
    (h2 : q ≤ 9007199254740992) :
    (F64.pack s q e = F64.inf s ∧ 971 ≤ e) ∨
    ∃ m e2, F64.pack s q e = F64.finite s m e2 ∧ 4503599627370496 ≤ m ∧
      m < 9007199254740992 ∧ (m : ℚ) * 2 ^ e2 = (q : ℚ) * 2 ^ e ∧ e ≤ e2 ∧ e2 ≤ 971 := by
  unfold F64.pack
  by_cases hq : q = 9007199254740992
  · rw [if_pos hq]
    by_cases he : 971 < e + 1
    · rw [if_pos he]
      exact Or.inl ⟨rfl, by omega⟩
    · rw [if_neg he]
      refine Or.inr ⟨_, _, rfl, le_rfl, by norm_num, ?_, by omega, by omega⟩
      subst hq
      rw [zpow_add₀ (by norm_num : (2 : ℚ) ≠ 0)]
      norm_num
      ring
  · rw [if_neg hq]
    by_cases he : 971 < e
    · rw [if_pos he]
      exact Or.inl ⟨rfl, by omega⟩
    · rw [if_neg he]
      exact Or.inr ⟨_, _, rfl, h1, by omega, rfl, le_rfl, by omega⟩

/-- The quotient that `nearest` rounds is `n/d` scaled by the rounding
exponent. -/
theorem F64.scaled_quot (n d : ℕ) (e : ℤ) (hd : 0 < d) :
    ((n * 2 ^ (-e).toNat : ℕ) : ℚ) / ((d * 2 ^ e.toNat : ℕ) : ℚ)
      = (n : ℚ) / d * (2 : ℚ) ^ (-e) := by
  have hdq : (d : ℚ) ≠ 0 := by exact_mod_cast hd.ne'
  have hp : ((2 : ℚ) ^ e.toNat) ≠ 0 := by positivity
  rw [← F64.zpow_split e]
  push_cast
  field_simp

/-- The three outcomes of `nearest` on a positive quotient: overflow to
infinity, a number with the smallest exponent, or a normal number within
half a unit in the last place (relative error at most `2^-53`). -/
theorem F64.nearest_cases (s : Bool) (n d : ℕ) (hn : 0 < n) (hd : 0 < d) :
    (F64.nearest s n d = F64.inf s ∧ (2 : ℚ) ^ (1023 : ℤ) ≤ (n : ℚ) / d) ∨
    (∃ m, F64.nearest s n d = F64.finite s m (-1074) ∧ m ≤ 4503599627370496 ∧
      (n : ℚ) / d < (2 : ℚ) ^ (-1022 : ℤ)) ∨
    (∃ m e, F64.nearest s n d = F64.finite s m e ∧ 4503599627370496 ≤ m ∧
      m < 9007199254740992 ∧ -1074 ≤ e ∧ e ≤ 971 ∧
      9007199254740992 * |(m : ℚ) * 2 ^ e - (n : ℚ) / d| ≤ (n : ℚ) / d) := by
  obtain ⟨e1, hr, hlo, hhi⟩ := F64.roundExp_raw n d hn hd
  have h2 : (2 : ℚ) ≠ 0 := by norm_num
  have hdpos : 0 < d * 2 ^ (F64.roundExp n d).toNat := by positivity
  obtain ⟨-, -, hq⟩ := F64.roundQuot_spec (n * 2 ^ (-(F64.roundExp n d)).toNat)
    (d * 2 ^ (F64.roundExp n d).toNat) hdpos
  rw [F64.scaled_quot n d _ hd] at hq
  unfold F64.nearest
  rw [if_neg (by omega)]
  generalize F64.roundQuot (n * 2 ^ (-(F64.roundExp n d)).toNat)
    (d * 2 ^ (F64.roundExp n d).toNat) = q at hq
  generalize F64.roundExp n d = e0 at hr hq
  generalize (n : ℚ) / d = r at hlo hhi hq
  have hP : (0 : ℚ) < (2 : ℚ) ^ e0 := F64.two_zpow_pos e0
  have hinv : (2 : ℚ) ^ (-e0) = ((2 : ℚ) ^ e0)⁻¹ := zpow_neg 2 e0
  rw [hinv, ← div_eq_mul_inv] at hq
  rcases le_or_lt (-1074) e1 with hc | hc
  · -- normal range
    rw [max_eq_left hc] at hr
    subst hr
    have hlo1 : (4503599627370496 : ℚ) ≤ r / (2 : ℚ) ^ e0 := by
      rw [le_div_iff₀ hP]
      have : (2 : ℚ) ^ (e0 + 52) = 4503599627370496 * (2 : ℚ) ^ e0 := by
        rw [zpow_add₀ h2]; norm_num; ring
      linarith
    have hhi1 : r / (2 : ℚ) ^ e0 < 9007199254740992 := by
      rw [div_lt_iff₀ hP]
      have : (2 : ℚ) ^ (e0 + 53) = 9007199254740992 * (2 : ℚ) ^ e0 := by
        rw [zpow_add₀ h2]; norm_num; ring
      linarith
    rw [abs_le] at hq
    have hq1 : 4503599627370496 ≤ q := by
      have : (4503599627370495 : ℚ) < q := by linarith
      have : 4503599627370495 < q := by exact_mod_cast this
      omega
    have hq2 : q ≤ 9007199254740992 := by
      have : (q : ℚ) < 9007199254740993 := by linarith
      have : q < 9007199254740993 := by exact_mod_cast this
      omega
    rcases F64.pack_cases s q e0 hq1 hq2 with ⟨hp, he⟩ | ⟨m, e2, hp, hm1, hm2, hv, he1, he2⟩
    · left
      refine ⟨hp, le_trans ?_ hlo⟩
      exact zpow_le_zpow_right₀ (by norm_num) (by omega)
    · right; right
      refine ⟨m, e2, hp, hm1, hm2, by omega, he2, ?_⟩
      rw [hv]
      have hr : r = r / (2 : ℚ) ^ e0 * (2 : ℚ) ^ e0 := by field_simp
      have habs : |(q : ℚ) * (2 : ℚ) ^ e0 - r| ≤ 1 / 2 * (2 : ℚ) ^ e0 := by
        rw [abs_le]
        constructor
        · nlinarith [hq.1, hq.2]
        · nlinarith [hq.1, hq.2]
      have hlo2 : 4503599627370496 * (2 : ℚ) ^ e0 ≤ r := by
        rw [le_div_iff₀ hP] at hlo1
        exact hlo1
      linarith
  · -- below the normal range
    rw [max_eq_right hc.le] at hr
    subst hr
    right; left
    have hhi1 : r / (2 : ℚ) ^ (-1074 : ℤ) < 4503599627370496 := by
      rw [div_lt_iff₀ hP]
      have h1 : (2 : ℚ) ^ (e1 + 53) ≤ (2 : ℚ) ^ ((-1074 : ℤ) + 52) :=
        zpow_le_zpow_right₀ (by norm_num) (by omega)
      have h3 : (2 : ℚ) ^ ((-1074 : ℤ) + 52) = 4503599627370496 * (2 : ℚ) ^ (-1074 : ℤ) := by
        rw [zpow_add₀ h2]; norm_num
      linarith
    rw [abs_le] at hq
    have hq2 : q ≤ 4503599627370496 := by
      have : (q : ℚ) < 4503599627370497 := by linarith
      have : q < 4503599627370497 := by exact_mod_cast this
      omega
    refine ⟨q, ?_, hq2, ?_⟩
    · unfold F64.pack
      rw [if_neg (by omega), if_neg (by norm_num)]
    · exact lt_of_lt_of_le hhi (zpow_le_zpow_right₀ (by norm_num) (by omega))

/-- The absolute value of a finite number. -/
theorem F64.toRat_abs (s : Bool) (m : ℕ) (e : ℤ) :
    |F64.toRat (F64.finite s m e)| = (m : ℚ) * 2 ^ e := by
  have h : (0 : ℚ) ≤ (m : ℚ) * 2 ^ e := by positivity
  simp only [F64.toRat]
  cases s
  · simp only [Bool.false_eq_true, if_false, one_mul]
    exact abs_of_nonneg h
  · simp only [if_true, neg_mul, one_mul, abs_neg]
    exact abs_of_nonneg h

/-- A zero of either sign approximates `0`. -/
theorem F64.Approx_zero (s : Bool) : F64.Approx (F64.zero s) 0 :=
  ⟨s, 0, -1074, rfl, Or.inl ⟨rfl, rfl, rfl⟩, by simp [F64.toRat, F64.zero]⟩

/-- In the normal range `nearest` approximates the quotient it is given. -/
theorem F64.nearest_approx (s : Bool) (n d : ℕ) (v : ℚ) (hn : 0 < n) (hd : 0 < d)
    (hv : |v| = (n : ℚ) / d) (hs : s = true ↔ v < 0)
    (hlo : (2 : ℚ) ^ (-1022 : ℤ) ≤ |v|) (hhi : |v| < (2 : ℚ) ^ (1023 : ℤ)) :
    F64.Approx (F64.nearest s n d) v := by
  rcases F64.nearest_cases s n d hn hd with ⟨-, h⟩ | ⟨m, -, -, h⟩ | ⟨m, e, h, hm1, hm2, -, -, herr⟩
  · rw [← hv] at h
    exact absurd h (not_le.mpr hhi)
  · rw [← hv] at h
    exact absurd h (not_lt.mpr hlo)
  · have hv0 : v ≠ 0 := by
      intro h0
      rw [h0, abs_zero] at hlo
      exact absurd hlo (not_le.mpr (F64.two_zpow_pos _))
    refine ⟨s, m, e, h, Or.inr ⟨hm1, hm2, hv0, hs⟩, ?_⟩
    rw [h, hv]
    rw [← hv] at herr
    have hp : (0 : ℚ) ≤ (m : ℚ) * 2 ^ e := by positivity
    rcases lt_or_gt_of_ne hv0 with hneg | hpos
    · have hs1 : s = true := hs.mpr hneg
      subst hs1
      have : F64.toRat (F64.finite true m e) - v = -((m : ℚ) * 2 ^ e - |v|) := by
        simp only [F64.toRat, if_true]
        rw [abs_of_neg hneg]
        ring
      rw [this, abs_neg]
      rw [hv] at herr ⊢
      exact herr
    · have hs1 : s = false := by
        cases s
        · rfl
        · exact absurd (hs.mp rfl) (not_lt.mpr hpos.le)
      subst hs1
      have : F64.toRat (F64.finite false m e) - v = (m : ℚ) * 2 ^ e - |v| := by
        simp only [F64.toRat, Bool.false_eq_true, if_false]
        rw [abs_of_pos hpos]
        ring
      rw [this]
      rw [hv] at herr ⊢
      exact herr

/-- The integer `scaled s m e g` times `2^g` is the value of the number. -/
theorem F64.scaled_toRat (s : Bool) (m : ℕ) (e g : ℤ) (h : m = 0 ∨ g ≤ e) :
    ((F64.scaled s m e g : ℤ) : ℚ) * 2 ^ g = F64.toRat (F64.finite s m e) := by
  simp only [F64.scaled, F64.toRat]
  rcases h with h | h
  · subst h
    simp
  · have h1 : ((2 : ℚ) ^ (e - g).toNat) * 2 ^ g = 2 ^ e := by
      rw [← zpow_natCast, Int.toNat_of_nonneg (by omega), ← zpow_add₀ (by norm_num : (2 : ℚ) ≠ 0)]
      congr 1
      ring
    push_cast
    rw [← h1]
    cases s <;> simp <;> ring

/-- The quotient `N * 2^E` as `nearest` receives it. -/
theorem F64.pow_quot (N : ℕ) (E : ℤ) :
    ((N * 2 ^ E.toNat : ℕ) : ℚ) / ((2 ^ (-E).toNat : ℕ) : ℚ) = (N : ℚ) * 2 ^ E := by
  have h := F64.zpow_split (-E)
  rw [neg_neg] at h
  push_cast
  rw [mul_div_assoc, h]

/-- The common exponent is at most the exponent of each non-zero operand. -/
theorem F64.commonExp_le (m k : ℕ) (e f : ℤ) :
    (m = 0 ∨ F64.commonExp m e k f ≤ e) ∧ (k = 0 ∨ F64.commonExp m e k f ≤ f) := by
  unfold F64.commonExp
  split_ifs with h1 h2
  · exact ⟨Or.inl h1, Or.inr le_rfl⟩
  · exact ⟨Or.inr le_rfl, Or.inl h2⟩
  · exact ⟨Or.inr (min_le_left e f), Or.inr (min_le_right e f)⟩

/-- A lower bound of the exponents of the non-zero operands bounds the common
exponent. -/
theorem F64.commonExp_ge (m k : ℕ) (e f L : ℤ) (he : m = 0 ∨ L ≤ e) (hf : k = 0 ∨ L ≤ f)
    (hmk : m ≠ 0 ∨ k ≠ 0) : L ≤ F64.commonExp m e k f := by
  unfold F64.commonExp
  split_ifs with h1 h2
  · rcases hf with h | h
    · rcases hmk with h3 | h3
      · exact absurd h1 h3
      · exact absurd h h3
    · exact h
  · rcases he with h | h
    · exact absurd h h1
    · exact h
  · rcases he with h | h
    · exact absurd h h1
    · rcases hf with h3 | h3
      · exact absurd h3 h2
      · exact le_min h h3

/-- `x + y` of two finite numbers approximates the exact sum, which is zero
or at least `2^L` in absolute value when both exponents are at least `L`. -/
theorem F64.add_approx (s t : Bool) (m k : ℕ) (e f : ℤ)
    (he : m = 0 ∨ -1000 ≤ e) (hf : k = 0 ∨ -1000 ≤ f)
    (hv : |F64.toRat (F64.finite s m e) + F64.toRat (F64.finite t k f)| < (2 : ℚ) ^ (1023 : ℤ)) :
    F64.Approx (F64.add (F64.finite s m e) (F64.finite t k f))
      (F64.toRat (F64.finite s m e) + F64.toRat (F64.finite t k f)) ∧
    (F64.toRat (F64.finite s m e) + F64.toRat (F64.finite t k f) = 0 ∨
      (2 : ℚ) ^ (-1000 : ℤ) ≤ |F64.toRat (F64.finite s m e) + F64.toRat (F64.finite t k f)|) := by
  obtain ⟨hg1, hg2⟩ := F64.commonExp_le m k e f
  have ha := F64.scaled_toRat s m e (F64.commonExp m e k f) hg1
  have hb := F64.scaled_toRat t k f (F64.commonExp m e k f) hg2
  have hab : (((F64.scaled s m e (F64.commonExp m e k f)
      + F64.scaled t k f (F64.commonExp m e k f) : ℤ)) : ℚ) * 2 ^ (F64.commonExp m e k f)
      = F64.toRat (F64.finite s m e) + F64.toRat (F64.finite t k f) := by
    push_cast
    rw [add_mul, ha, hb]
  simp only [F64.add]
  have hmk : (F64.scaled s m e (F64.commonExp m e k f)
      + F64.scaled t k f (F64.commonExp m e k f) ≠ 0) → m ≠ 0 ∨ k ≠ 0 := by
    intro h
    by_contra hc
    push_neg at hc
    apply h
    rw [hc.1, hc.2]
    simp [F64.scaled]
  generalize F64.scaled s m e (F64.commonExp m e k f) = a at hab hmk
  generalize F64.scaled t k f (F64.commonExp m e k f) = b at hab hmk
  generalize F64.toRat (F64.finite s m e) + F64.toRat (F64.finite t k f) = v at hab hv
  by_cases h0 : a + b = 0
  · rw [if_pos h0]
    rw [h0] at hab
    have : v = 0 := by rw [← hab]; simp
    rw [this]
    exact ⟨F64.Approx_zero _, Or.inl rfl⟩
  · rw [if_neg h0]
    have hg := F64.commonExp_ge m k e f (-1000) he hf (hmk h0)
    generalize F64.commonExp m e k f = g at hab hg
    have hP := F64.two_zpow_pos g
    have hna : 0 < (a + b).natAbs := Int.natAbs_pos.mpr h0
    have habs : |v| = ((a + b).natAbs : ℚ) * 2 ^ g := by
      rw [← hab, abs_mul, abs_of_pos hP, Nat.cast_natAbs, Int.cast_abs]
    have h1 : (1 : ℚ) ≤ ((a + b).natAbs : ℚ) := by exact_mod_cast hna
    have hlow : (2 : ℚ) ^ (-1000 : ℤ) ≤ |v| := by
      rw [habs]
      have h2 : (2 : ℚ) ^ (-1000 : ℤ) ≤ (2 : ℚ) ^ g :=
        zpow_le_zpow_right₀ (by norm_num) hg
      nlinarith
    refine ⟨?_, Or.inr hlow⟩
    unfold F64.ofScaled
    apply F64.nearest_approx _ _ _ v (by positivity) (by positivity)
    · rw [habs, F64.pow_quot]
    · rw [decide_eq_true_iff, ← hab]
      constructor
      · intro h
        have : ((a + b : ℤ) : ℚ) < 0 := by exact_mod_cast h
        exact mul_neg_of_neg_of_pos this hP
      · intro h
        have : ((a + b : ℤ) : ℚ) < 0 := by
          by_contra hc
          exact absurd h (not_lt.mpr (mul_nonneg (not_lt.mp hc) hP.le))
        exact_mod_cast this
    · exact le_trans (zpow_le_zpow_right₀ (by norm_num) (by norm_num)) hlow
    · exact hv

/-- The sign of a product of two non-zero finite numbers. -/
theorem F64.sign_mul (s t : Bool) (a b : ℚ) (ha : 0 < a) (hb : 0 < b) :
    (xor s t = true) ↔
      ((if s = true then (-1 : ℚ) else 1) * a) * ((if t = true then (-1 : ℚ) else 1) * b) < 0 := by
  have hab : 0 < a * b := mul_pos ha hb
  cases s <;> cases t <;> simp <;> nlinarith

/-- The sign of a quotient of two non-zero finite numbers. -/
theorem F64.sign_div (s t : Bool) (a b : ℚ) (ha : 0 < a) (hb : 0 < b) :
    (xor s t = true) ↔
      ((if s = true then (-1 : ℚ) else 1) * a) / ((if t = true then (-1 : ℚ) else 1) * b) < 0 := by
  have hab : 0 < a / b := div_pos ha hb
  cases s <;> cases t <;> simp [div_neg, neg_div] <;> linarith

/-- `x * y` of two finite numbers approximates the exact product when that
is zero or in the normal range. -/
theorem F64.mul_approx (s t : Bool) (m k : ℕ) (e f : ℤ)
    (hv : F64.toRat (F64.finite s m e) * F64.toRat (F64.finite t k f) = 0 ∨
      ((2 : ℚ) ^ (-1022 : ℤ) ≤ |F64.toRat (F64.finite s m e) * F64.toRat (F64.finite t k f)| ∧
       |F64.toRat (F64.finite s m e) * F64.toRat (F64.finite t k f)| < (2 : ℚ) ^ (1023 : ℤ))) :
    F64.Approx (F64.mul (F64.finite s m e) (F64.finite t k f))
      (F64.toRat (F64.finite s m e) * F64.toRat (F64.finite t k f)) := by
  simp only [F64.mul]
  by_cases h0 : m = 0 ∨ k = 0
  · rw [if_pos h0]
    have : F64.toRat (F64.finite s m e) * F64.toRat (F64.finite t k f) = 0 := by
      simp only [F64.toRat]
      rcases h0 with h | h <;> subst h <;> simp
    rw [this]
    exact F64.Approx_zero _
  · rw [if_neg h0]
    push_neg at h0
    have hm : 0 < m := Nat.pos_of_ne_zero h0.1
    have hk : 0 < k := Nat.pos_of_ne_zero h0.2
    have hmq : (0 : ℚ) < (m : ℚ) * 2 ^ e := by positivity
    have hkq : (0 : ℚ) < (k : ℚ) * 2 ^ f := by positivity
    have hne : F64.toRat (F64.finite s m e) * F64.toRat (F64.finite t k f) ≠ 0 := by
      rw [← abs_pos, abs_mul, F64.toRat_abs, F64.toRat_abs]
      positivity
    rcases hv with hv | ⟨hlo, hhi⟩
    · exact absurd hv hne
    · apply F64.nearest_approx _ _ _ _ (by positivity) (by positivity)
      · rw [F64.pow_quot, abs_mul, F64.toRat_abs, F64.toRat_abs,
          zpow_add₀ (by norm_num : (2 : ℚ) ≠ 0)]
        push_cast
        ring
      · simp only [F64.toRat]
        rw [mul_assoc _ (m : ℚ), mul_assoc _ (k : ℚ)]
        exact F64.sign_mul s t _ _ hmq hkq
      · exact hlo
      · exact hhi

/-- `x / y` of two finite numbers, `y` not zero, approximates the exact
quotient when that is zero or in the normal range. -/
theorem F64.div_approx (s t : Bool) (m k : ℕ) (e f : ℤ) (hk : k ≠ 0)
    (hv : m = 0 ∨
      ((2 : ℚ) ^ (-1022 : ℤ) ≤ |F64.toRat (F64.finite s m e) / F64.toRat (F64.finite t k f)| ∧
       |F64.toRat (F64.finite s m e) / F64.toRat (F64.finite t k f)| < (2 : ℚ) ^ (1023 : ℤ))) :
    F64.Approx (F64.div (F64.finite s m e) (F64.finite t k f))
      (F64.toRat (F64.finite s m e) / F64.toRat (F64.finite t k f)) := by
  simp only [F64.div]
  rw [if_neg hk]
  by_cases h0 : m = 0
  · rw [if_pos h0]
    have : F64.toRat (F64.finite s m e) / F64.toRat (F64.finite t k f) = 0 := by
      simp only [F64.toRat]
      subst h0
      simp
    rw [this]
    exact F64.Approx_zero _
  · rw [if_neg h0]
    have hm : 0 < m := Nat.pos_of_ne_zero h0
    have hk1 : 0 < k := Nat.pos_of_ne_zero hk
    have hmq : (0 : ℚ) < (m : ℚ) * 2 ^ e := by positivity
    have hkq : (0 : ℚ) < (k : ℚ) * 2 ^ f := by positivity
    rcases hv with hv | ⟨hlo, hhi⟩
    · exact absurd hv h0
    · apply F64.nearest_approx _ _ _ _ (by positivity) (by positivity)
      · rw [abs_div, F64.toRat_abs, F64.toRat_abs]
        have h := F64.zpow_split (f - e)
        rw [neg_sub] at h
        have h2 : (2 : ℚ) ^ (e - f) = 2 ^ e / 2 ^ f := by
          rw [zpow_sub₀ (by norm_num : (2 : ℚ) ≠ 0)]
        rw [h2] at h
        have hp1 : ((2 : ℚ) ^ (f - e).toNat) ≠ 0 := by positivity
        have hp2 : ((2 : ℚ) ^ f) ≠ 0 := by positivity
        have hkq2 : (k : ℚ) ≠ 0 := by exact_mod_cast hk
        push_cast
        field_simp at h ⊢
        linear_combination (-((m : ℚ) * (k : ℚ))) * h
      · simp only [F64.toRat]
        rw [mul_assoc _ (m : ℚ), mul_assoc _ (k : ℚ)]
        exact F64.sign_div s t _ _ hmq hkq
      · exact hlo
      · exact hhi

/-- `math.Round` of a zero or a normal number that lies within one half of
the integer `K < 2^52` is `K` with the sign bit of the number. -/
theorem F64.Round_of_near (s : Bool) (m : ℕ) (e : ℤ) (K : ℕ)
    (hm : (m = 0 ∧ e = -1074) ∨ (4503599627370496 ≤ m ∧ m < 9007199254740992))
    (hK : K < 4503599627370496) (h : |(m : ℚ) * 2 ^ e - K| < 1 / 2) :
    F64.Round (F64.finite s m e) = F64.nearest s K 1 := by
  have hKq : (K : ℚ) ≤ 4503599627370495 := by
    have : K ≤ 4503599627370495 := by omega
    exact_mod_cast this
  have hzero : ∀ x : ℚ, |x - K| < 1 / 2 → x < 1 / 2 → F64.nearest s K 1 = F64.zero s := by
    intro x hx hx2
    rw [abs_lt] at hx
    have : (K : ℚ) < 1 := by linarith
    have : K < 1 := by exact_mod_cast this
    have : K = 0 := by omega
    subst this
    rfl
  simp only [F64.Round]
  rcases hm with ⟨hm0, he⟩ | ⟨hm1, hm2⟩
  · subst hm0
    subst he
    rw [if_neg (by norm_num), if_pos (by norm_num)]
    exact (hzero _ h (by norm_num)).symm
  · have hm1q : (4503599627370496 : ℚ) ≤ m := by exact_mod_cast hm1
    have hm2q : (m : ℚ) < 9007199254740992 := by exact_mod_cast hm2
    rw [abs_lt] at h
    by_cases h0 : 0 ≤ e
    · exfalso
      have : (1 : ℚ) ≤ (2 : ℚ) ^ e := by
        have := zpow_le_zpow_right₀ (by norm_num : (1 : ℚ) ≤ 2) h0
        simpa using this
      nlinarith
    · rw [if_neg h0]
      by_cases h1 : e < -54
      · rw [if_pos h1]
        have h2 : (2 : ℚ) ^ e ≤ (2 : ℚ) ^ (-55 : ℤ) :=
          zpow_le_zpow_right₀ (by norm_num) (by omega)
        have h3 : (2 : ℚ) ^ (-55 : ℤ) = 1 / 36028797018963968 := by norm_num
        have hP := F64.two_zpow_pos e
        have h4 : (m : ℚ) * 2 ^ e < 1 / 2 := by
          have h5 : (m : ℚ) * 2 ^ e ≤ 9007199254740992 * (1 / 36028797018963968) :=
            mul_le_mul hm2q.le (h3 ▸ h2) hP.le (by norm_num)
          have h6 : (9007199254740992 : ℚ) * (1 / 36028797018963968) < 1 / 2 := by norm_num
          linarith
        exact (hzero _ (abs_lt.mpr h) h4).symm
      · rw [if_neg h1]
        congr 1
        have hP : (2 : ℚ) ^ e = 1 / ((2 ^ (-e).toNat : ℕ) : ℚ) := by
          push_cast
          rw [one_div, ← zpow_natCast, Int.toNat_of_nonneg (by omega), ← zpow_neg, neg_neg]
        generalize 2 ^ (-e).toNat = P at hP
        have hPpos : (0 : ℚ) < (P : ℚ) := by
          by_contra hc
          have hc2 : (P : ℚ) = 0 := le_antisymm (not_lt.mp hc) (by positivity)
          rw [hc2] at hP
          have := F64.two_zpow_pos e
          rw [hP] at this
          simp at this
        rw [hP, mul_one_div] at h
        obtain ⟨hl, hr⟩ := h
        rw [lt_sub_iff_add_lt, lt_div_iff₀ hPpos] at hl
        rw [sub_lt_iff_lt_add, div_lt_iff₀ hPpos] at hr
        apply Nat.div_eq_of_lt_le
        · have : ((K * (2 * P) : ℕ) : ℚ) ≤ ((2 * m + P : ℕ) : ℚ) := by
            push_cast
            linarith
          exact_mod_cast this
        · have : ((2 * m + P : ℕ) : ℚ) < (((K + 1) * (2 * P) : ℕ) : ℚ) := by
            push_cast
            linarith
          exact_mod_cast this

/-- The constant `100`. -/
theorem F64.hundred : (100 : F64) = F64.finite false 7036874417766400 (-46) := by
  decide

/-- The exact value of the constant `100`. -/
theorem F64.toRat_hundred : F64.toRat (F64.finite false 7036874417766400 (-46)) = 100 := by
  simp only [F64.toRat]
  norm_num

/-- The exponent of a normal number that approximates a value of absolute
value at least `1/100` is above `-100`. -/
theorem F64.exp_ge_of_approx (s : Bool) (m : ℕ) (e : ℤ) (v : ℚ)
    (hm : m < 9007199254740992)
    (herr : 9007199254740992 * |F64.toRat (F64.finite s m e) - v| ≤ |v|)
    (hv : v = 0 ∨ 1 / 100 ≤ |v|) : m = 0 ∨ -1000 ≤ e := by
  rcases hv with hv | hv
  · left
    subst hv
    simp only [sub_zero, abs_zero] at herr
    have h1 : |F64.toRat (F64.finite s m e)| = 0 := by
      have := abs_nonneg (F64.toRat (F64.finite s m e))
      linarith
    rw [F64.toRat_abs] at h1
    have hP := F64.two_zpow_pos e
    rcases mul_eq_zero.mp h1 with h | h
    · exact_mod_cast h
    · exact absurd h hP.ne'
  · right
    by_contra hc
    push_neg at hc
    have h2 : (2 : ℚ) ^ e ≤ (2 : ℚ) ^ (-101 : ℤ) :=
      zpow_le_zpow_right₀ (by norm_num) (by omega)
    have h3 : (2 : ℚ) ^ (-101 : ℤ) = 1 / 2535301200456458802993406410752 := by norm_num
    have hP := F64.two_zpow_pos e
    have hmq : (m : ℚ) ≤ 9007199254740992 := by exact_mod_cast hm.le
    have h5 : (m : ℚ) * 2 ^ e ≤ 9007199254740992 * (1 / 2535301200456458802993406410752) :=
      mul_le_mul hmq (h3 ▸ h2) hP.le (by norm_num)
    have h6 : |F64.toRat (F64.finite s m e)| ≤ 1 / 200 := by
      rw [F64.toRat_abs]
      have : (9007199254740992 : ℚ) * (1 / 2535301200456458802993406410752) ≤ 1 / 200 := by
        norm_num
      linarith
    have h7 : |v| - |F64.toRat (F64.finite s m e)| ≤ |F64.toRat (F64.finite s m e) - v| := by
      rw [abs_sub_comm]
      exact abs_sub_abs_le_abs_sub _ _
    have h8 := abs_nonneg v
    nlinarith

/-- The rounding at the end of `Add`: when `A` and `B` approximate `ka` and
`kb` hundredths, `math.Round((A + B) * 100)` is exactly `|ka + kb|`, with the
sign of `ka + kb`. -/
theorem F64.round_sum_cents (A B : F64) (ka kb : ℤ)
    (hA : F64.Approx A ((ka : ℚ) / 100)) (hB : F64.Approx B ((kb : ℚ) / 100))
    (hM : |ka| + |kb| ≤ 35184372088832) :
    ∃ s, F64.Round (F64.mul (F64.add A B) 100) = F64.nearest s (ka + kb).natAbs 1 ∧
      (ka + kb ≠ 0 → (s = true ↔ ka + kb < 0)) := by
  obtain ⟨s1, m1, e1, rfl, hm1, herr1⟩ := hA
  obtain ⟨s2, m2, e2, rfl, hm2, herr2⟩ := hB
  have hlt1 : m1 < 9007199254740992 := by rcases hm1 with h | h <;> omega
  have hlt2 : m2 < 9007199254740992 := by rcases hm2 with h | h <;> omega
  have hcent : ∀ k : ℤ, (k : ℚ) / 100 = 0 ∨ 1 / 100 ≤ |(k : ℚ) / 100| := by
    intro k
    rcases eq_or_ne k 0 with h | h
    · left; subst h; simp
    · right
      have h1 : (1 : ℤ) ≤ |k| := Int.one_le_abs h
      have h2 : (1 : ℚ) ≤ |(k : ℚ)| := by exact_mod_cast h1
      rw [abs_div]
      norm_num
      linarith
  have hx1 := F64.exp_ge_of_approx s1 m1 e1 _ hlt1 herr1 (hcent ka)
  have hx2 := F64.exp_ge_of_approx s2 m2 e2 _ hlt2 herr2 (hcent kb)
  -- the magnitudes
  have hMq : |(ka : ℚ)| + |(kb : ℚ)| ≤ 35184372088832 := by exact_mod_cast hM
  have ha1 := neg_abs_le (ka : ℚ)
  have ha2 := le_abs_self (ka : ℚ)
  have hb1 := neg_abs_le (kb : ℚ)
  have hb2 := le_abs_self (kb : ℚ)
  have hna := abs_nonneg (ka : ℚ)
  have hnb := abs_nonneg (kb : ℚ)
  rw [abs_div, abs_of_pos (by norm_num : (0 : ℚ) < 100)] at herr1 herr2
  have hα := abs_le.mp (show |F64.toRat (F64.finite s1 m1 e1) - (ka : ℚ) / 100|
      ≤ |(ka : ℚ)| / 100 / 9007199254740992 by
    rw [le_div_iff₀ (by norm_num)]; linarith)
  have hβ := abs_le.mp (show |F64.toRat (F64.finite s2 m2 e2) - (kb : ℚ) / 100|
      ≤ |(kb : ℚ)| / 100 / 9007199254740992 by
    rw [le_div_iff₀ (by norm_num)]; linarith)
  have h46 : (70368744177664 : ℚ) ≤ (2 : ℚ) ^ (1023 : ℤ) := by
    have h := zpow_le_zpow_right₀ (by norm_num : (1 : ℚ) ≤ 2) (by norm_num : (46 : ℤ) ≤ 1023)
    have h2 : (2 : ℚ) ^ (46 : ℤ) = 70368744177664 := by norm_num
    rw [h2] at h
    exact h
  have hsm : (2 : ℚ) ^ (-1022 : ℤ) ≤ (2 : ℚ) ^ (-1000 : ℤ) :=
    zpow_le_zpow_right₀ (by norm_num) (by norm_num)
  have hsmpos := F64.two_zpow_pos (-1022)
  obtain ⟨T, hT⟩ : ∃ T : ℚ, T = (2 : ℚ) ^ (-1000 : ℤ) := ⟨_, rfl⟩
  obtain ⟨T2, hT2⟩ : ∃ T : ℚ, T = (2 : ℚ) ^ (-1022 : ℤ) := ⟨_, rfl⟩
  obtain ⟨T3, hT3⟩ : ∃ T : ℚ, T = (2 : ℚ) ^ (1023 : ℤ) := ⟨_, rfl⟩
  rw [← hT, ← hT2] at hsm
  rw [← hT2] at hsmpos
  rw [← hT3] at h46
  have hv : |F64.toRat (F64.finite s1 m1 e1) + F64.toRat (F64.finite s2 m2 e2)|
      ≤ (|(ka : ℚ)| + |(kb : ℚ)|) / 50 :=
    abs_le.mpr ⟨by linarith [hα.1, hβ.1], by linarith [hα.2, hβ.2]⟩
  obtain ⟨hS, hSlow⟩ := F64.add_approx s1 s2 m1 m2 e1 e2 hx1 hx2 (by rw [← hT3]; linarith)
  rw [← hT] at hSlow
  obtain ⟨s3, m3, e3, hSeq, hm3, herr3⟩ := hS
  rw [hSeq] at herr3 ⊢
  generalize F64.toRat (F64.finite s1 m1 e1) = α at hα herr1 hv hSlow herr3
  generalize F64.toRat (F64.finite s2 m2 e2) = β at hβ herr2 hv hSlow herr3
  have hvn := abs_nonneg (α + β)
  have hσ := abs_le.mp (show |F64.toRat (F64.finite s3 m3 e3) - (α + β)|
      ≤ (|(ka : ℚ)| + |(kb : ℚ)|) / 50 / 9007199254740992 by
    rw [le_div_iff₀ (by norm_num)]; linarith)
  have hσabs : |F64.toRat (F64.finite s3 m3 e3)| ≤ (|(ka : ℚ)| + |(kb : ℚ)|) / 25 := by
    have := abs_le.mp hv
    exact abs_le.mpr ⟨by linarith [hσ.1], by linarith [hσ.2]⟩
  have hσlow : F64.toRat (F64.finite s3 m3 e3) = 0 ∨
      T / 2 ≤ |F64.toRat (F64.finite s3 m3 e3)| := by
    rcases hSlow with h0 | hlow
    · left
      rw [h0, abs_zero, sub_zero] at herr3
      have := abs_nonneg (F64.toRat (F64.finite s3 m3 e3))
      exact abs_eq_zero.mp (by linarith)
    · right
      have h7 : |α + β| - |F64.toRat (F64.finite s3 m3 e3)|
          ≤ |F64.toRat (F64.finite s3 m3 e3) - (α + β)| := by
        rw [abs_sub_comm]
        exact abs_sub_abs_le_abs_sub _ _
      linarith
  rw [F64.hundred]
  have hy := F64.mul_approx s3 false m3 7036874417766400 e3 (-46) (by
    rw [F64.toRat_hundred, abs_mul, abs_of_pos (by norm_num : (0 : ℚ) < 100)]
    rcases hσlow with h0 | hlow
    · left; rw [h0, zero_mul]
    · right
      rw [← hT2, ← hT3]
      constructor
      · linarith
      · linarith)
  rw [F64.toRat_hundred] at hy
  obtain ⟨s4, m4, e4, hyeq, hm4, herr4⟩ := hy
  rw [hyeq] at herr4 ⊢
  rw [abs_mul, abs_of_pos (by norm_num : (0 : ℚ) < 100)] at herr4
  have hη := abs_le.mp (show |F64.toRat (F64.finite s4 m4 e4)
      - F64.toRat (F64.finite s3 m3 e3) * 100|
      ≤ 4 * (|(ka : ℚ)| + |(kb : ℚ)|) / 9007199254740992 by
    rw [le_div_iff₀ (by norm_num)]; linarith)
  have hfin : |F64.toRat (F64.finite s4 m4 e4) - ((ka + kb : ℤ) : ℚ)| < 1 / 2 := by
    push_cast
    exact abs_lt.mpr ⟨by linarith [hσ.1, hη.1, hα.1, hβ.1], by linarith [hσ.2, hη.2, hα.2, hβ.2]⟩
  have hK : (ka + kb).natAbs < 4503599627370496 := by
    have h1 := abs_add ka kb
    have h2 : (((ka + kb).natAbs : ℕ) : ℤ) = |ka + kb| := Int.natCast_natAbs _
    omega
  refine ⟨s4, F64.Round_of_near s4 m4 e4 _ ?_ hK ?_, ?_⟩
  · rcases hm4 with ⟨h1, h2, -⟩ | ⟨h1, h2, -⟩
    · exact Or.inl ⟨h1, h2⟩
    · exact Or.inr ⟨h1, h2⟩
  · rw [← F64.toRat_abs s4, Nat.cast_natAbs, Int.cast_abs]
    exact lt_of_le_of_lt (abs_abs_sub_abs_le_abs_sub _ _) hfin
  · intro hk
    have hk1 : (1 : ℤ) ≤ |ka + kb| := Int.one_le_abs hk
    rcases hm4 with ⟨h1, -, h3⟩ | ⟨-, -, -, hs⟩
    · exfalso
      subst h1
      simp only [F64.toRat, Nat.cast_zero, mul_zero, zero_mul, zero_sub, abs_neg] at hfin
      have : |((ka + kb : ℤ) : ℚ)| < 1 := by linarith
      have : |ka + kb| < 1 := by exact_mod_cast this
      omega
    · rw [hs]
      push_cast at hfin
      have hf := abs_lt.mp hfin
      constructor
      · intro h
        have h5 : ((ka + kb : ℤ) : ℚ) < 1 := by
          push_cast
          linarith [hσ.1, hη.1, hα.1, hβ.1, hσ.2, hη.2, hα.2, hβ.2]
        have h6 : ka + kb < 1 := by exact_mod_cast h5
        omega
      · intro h
        have h5 : ((ka + kb : ℤ) : ℚ) ≤ -1 := by
          have : ka + kb ≤ -1 := by omega
          exact_mod_cast this
        push_cast at h5
        linarith [hσ.1, hη.1, hα.1, hβ.1, hσ.2, hη.2, hα.2, hβ.2]

/-- The negation approximates the negated value. -/
theorem F64.neg_approx (x : F64) (v : ℚ) (h : F64.Approx x v) : F64.Approx (F64.neg x) (-v) := by
  obtain ⟨s, m, e, rfl, hm, herr⟩ := h
  refine ⟨!s, m, e, rfl, ?_, ?_⟩
  · rcases hm with ⟨h1, h2, h3⟩ | ⟨h1, h2, h3, h4⟩
    · exact Or.inl ⟨h1, h2, by rw [h3, neg_zero]⟩
    · refine Or.inr ⟨h1, h2, neg_ne_zero.mpr h3, ?_⟩
      rw [neg_lt_zero]
      rcases lt_or_gt_of_ne h3 with hv | hv
      · have hs : s = true := h4.mpr hv
        subst hs
        simp only [Bool.not_true, Bool.false_eq_true, false_iff, not_lt]
        exact hv.le
      · have hs : s = false := by
          cases s
          · rfl
          · exact absurd (h4.mp rfl) (not_lt.mpr hv.le)
        subst hs
        simp only [Bool.not_false, true_iff]
        exact hv
  · have : F64.toRat (F64.neg (F64.finite s m e)) - -v
        = -(F64.toRat (F64.finite s m e) - v) := by
      simp only [F64.neg, F64.toRat]
      cases s <;> simp <;> ring
    rw [this, abs_neg, abs_neg]
    exact herr

/-- The amount `NewMoney` computes from the rounded hundredths `K` with sign
bit `s` approximates `K/100` with that sign. -/
theorem F64.cents_approx (s : Bool) (K : ℕ) (hK : K < 9007199254740992) :
    F64.Approx (F64.div (F64.nearest s K 1) 100)
      (((if s = true then -(K : ℤ) else (K : ℤ) : ℤ) : ℚ) / 100) := by
  rw [F64.hundred]
  rcases Nat.eq_zero_or_pos K with h0 | hpos
  · subst h0
    have h := F64.div_approx s false 0 7036874417766400 (-1074) (-46) (by norm_num) (Or.inl rfl)
    have hv : F64.toRat (F64.finite s 0 (-1074))
        / F64.toRat (F64.finite false 7036874417766400 (-46))
        = (((if s = true then -((0 : ℕ) : ℤ) else ((0 : ℕ) : ℤ) : ℤ) : ℚ) / 100) := by
      simp [F64.toRat]
    rw [hv] at h
    exact h
  · obtain ⟨m, e, hn, hm1, hm2, he1, he2, hval⟩ := F64.nearest_small s K hpos hK
    rw [hn]
    have hKq1 : (1 : ℚ) ≤ K := by exact_mod_cast hpos
    have hKq2 : (K : ℚ) < 9007199254740992 := by exact_mod_cast hK
    have habs : |F64.toRat (F64.finite s m e)
        / F64.toRat (F64.finite false 7036874417766400 (-46))| = (K : ℚ) / 100 := by
      rw [abs_div, F64.toRat_abs, F64.toRat_hundred, hval]
      norm_num
    have h := F64.div_approx s false m 7036874417766400 e (-46) (by norm_num) (Or.inr (by
      rw [habs]
      constructor
      · have h1 : (2 : ℚ) ^ (-1022 : ℤ) ≤ (2 : ℚ) ^ (-7 : ℤ) :=
          zpow_le_zpow_right₀ (by norm_num) (by norm_num)
        have h2 : (2 : ℚ) ^ (-7 : ℤ) = 1 / 128 := by norm_num
        rw [h2] at h1
        linarith
      · have h1 : (2 : ℚ) ^ (53 : ℤ) ≤ (2 : ℚ) ^ (1023 : ℤ) :=
          zpow_le_zpow_right₀ (by norm_num) (by norm_num)
        have h2 : (2 : ℚ) ^ (53 : ℤ) = 9007199254740992 := by norm_num
        rw [h2] at h1
        linarith))
    have hv : F64.toRat (F64.finite s m e)
        / F64.toRat (F64.finite false 7036874417766400 (-46))
        = (((if s = true then -(K : ℤ) else (K : ℤ) : ℤ) : ℚ) / 100) := by
      rw [F64.toRat_hundred]
      simp only [F64.toRat]
      rw [mul_assoc, hval]
      cases s <;> simp
    rw [hv] at h
    exact h

/-- A `float64` that approximates a rational is equal to itself (it is not
NaN). -/
theorem F64.eq_self_of_approx (x : F64) (v : ℚ) (h : F64.Approx x v) : F64.eq x x = true := by
  obtain ⟨s, m, e, rfl, -, -⟩ := h
  simp [F64.eq]

/-- The signed integer of a sign bit and an absolute value. -/
theorem F64.signed_natAbs (s : Bool) (k : ℤ) (h : k ≠ 0 → (s = true ↔ k < 0)) :
    (if s = true then -((k.natAbs : ℕ) : ℤ) else ((k.natAbs : ℕ) : ℤ)) = k := by
  rcases eq_or_ne k 0 with h0 | h0
  · subst h0
    cases s <;> simp
  · have hs := h h0
    cases s
    · have : ¬ k < 0 := fun hk => by simpa using hs.mpr hk
      simp only [Bool.false_eq_true, if_false]
      omega
    · have : k < 0 := hs.mp rfl
      simp only [if_true]
      omega

/-- Adding and subtracting again on amounts of `Ka` and `Kb` hundredths, both
at most `10^13`: both operations succeed and the result equals the first
operand. -/
theorem vo.Money.add_subtract_cents (cur : String) (hcur : cur ≠ "") (sa sb : Bool)
    (Ka Kb : ℕ) (hKa : Ka ≤ 10000000000000) (hKb : Kb ≤ 10000000000000) :
    ∃ c d : vo.Money,
      (vo.Money.mk (F64.div (F64.nearest sa Ka 1) 100) cur).Add
        ⟨F64.div (F64.nearest sb Kb 1) 100, cur⟩ = (c, none) ∧
      c.Subtract ⟨F64.div (F64.nearest sb Kb 1) 100, cur⟩ = (d, none) ∧
      d.Equals ⟨F64.div (F64.nearest sa Ka 1) 100, cur⟩ = true := by
  have hA := F64.cents_approx sa Ka (by omega)
  have hB := F64.cents_approx sb Kb (by omega)
  have hka : |(if sa = true then -(Ka : ℤ) else (Ka : ℤ))| = Ka := by
    cases sa <;> simp
  have hkb : |(if sb = true then -(Kb : ℤ) else (Kb : ℤ))| = Kb := by
    cases sb <;> simp
  have hsa : (if sa = true then -(Ka : ℤ) else (Ka : ℤ)) ≠ 0 →
      (sa = true ↔ (if sa = true then -(Ka : ℤ) else (Ka : ℤ)) < 0) := by
    cases sa <;> simp
    omega
  generalize (if sa = true then -(Ka : ℤ) else (Ka : ℤ)) = ka at hA hka hsa
  generalize (if sb = true then -(Kb : ℤ) else (Kb : ℤ)) = kb at hB hkb
  -- the sum
  obtain ⟨sc, hc, hsc⟩ := F64.round_sum_cents _ _ ka kb hA hB (by rw [hka, hkb]; omega)
  have hkc : |ka + kb| ≤ 20000000000000 := by
    have := abs_add ka kb
    omega
  have hC := F64.cents_approx sc (ka + kb).natAbs (by
    have h2 : (((ka + kb).natAbs : ℕ) : ℤ) = |ka + kb| := Int.natCast_natAbs _
    omega)
  rw [F64.signed_natAbs sc (ka + kb) hsc] at hC
  -- the difference
  have hnB := F64.neg_approx _ _ hB
  rw [← neg_div, ← Int.cast_neg] at hnB
  obtain ⟨sd, hd, hsd⟩ := F64.round_sum_cents _ _ (ka + kb) (-kb) hC hnB (by
    rw [abs_neg, hkb]; omega)
  have hkd : ka + kb + -kb = ka := by ring
  rw [hkd] at hd hsd
  refine ⟨⟨F64.div (F64.nearest sc (ka + kb).natAbs 1) 100, cur⟩,
    ⟨F64.div (F64.nearest sd ka.natAbs 1) 100, cur⟩, ?_, ?_, ?_⟩
  · simp only [vo.Money.Add, vo.NewMoney, ne_eq, not_true_eq_false, if_false, if_neg hcur, hc]
  · simp only [vo.Money.Subtract, vo.NewMoney, ne_eq, not_true_eq_false, if_false, if_neg hcur,
      F64.sub, hd]
  · simp only [vo.Money.Equals, decide_True, Bool.and_true]
    have hna : ka.natAbs = Ka := by
      have h2 : ((ka.natAbs : ℕ) : ℤ) = |ka| := Int.natCast_natAbs _
      omega
    rw [hna]
    rcases Nat.eq_zero_or_pos Ka with h0 | hpos
    · subst h0
      cases sd <;> cases sa <;> decide
    · have hk0 : ka ≠ 0 := by
        intro h
        rw [h] at hka
        simp at hka
        omega
      have hs : sd = sa := by
        rw [Bool.eq_iff_iff, hsd hk0, hsa hk0]
      rw [hs]
      exact F64.eq_self_of_approx _ _ hA

/-- `x < y` on finite numbers compares the exact values. -/
theorem F64.lt_finite (s t : Bool) (m k : ℕ) (e f : ℤ) :
    F64.lt (F64.finite s m e) (F64.finite t k f) = true ↔
      F64.toRat (F64.finite s m e) < F64.toRat (F64.finite t k f) := by
  obtain ⟨hg1, hg2⟩ := F64.commonExp_le m k e f
  have ha := F64.scaled_toRat s m e (F64.commonExp m e k f) hg1
  have hb := F64.scaled_toRat t k f (F64.commonExp m e k f) hg2
  have hP := F64.two_zpow_pos (F64.commonExp m e k f)
  simp only [F64.lt, decide_eq_true_iff]
  rw [← ha, ← hb, mul_lt_mul_right hP]
  exact Int.cast_lt.symm

/-- The constant `100000000000`. -/
theorem F64.ten11 : (100000000000 : F64) = F64.finite false 6553600000000000 (-16) := by
  decide

/-- The exact value of the constant `100000000000`. -/
theorem F64.toRat_ten11 :
    F64.toRat (F64.finite false 6553600000000000 (-16)) = 100000000000 := by
  simp only [F64.toRat]
  norm_num

/-- A `float64` strictly between `-10^11` and `10^11` is finite, with an exact
value of absolute value below `10^11`. -/
theorem F64.abs_lt_of_lt (x : F64) (h1 : F64.lt (F64.neg 100000000000) x = true)
    (h2 : F64.lt x 100000000000 = true) :
    ∃ s m e, x = F64.finite s m e ∧ |F64.toRat x| < 100000000000 := by
  rw [F64.ten11] at h1 h2
  cases x with
  | nan => simp [F64.lt] at h2
  | inf s =>
    cases s
    · simp [F64.lt] at h2
    · simp [F64.lt, F64.neg] at h1
  | finite s m e =>
    refine ⟨s, m, e, rfl, ?_⟩
    simp only [F64.neg] at h1
    rw [F64.lt_finite] at h1 h2
    rw [F64.toRat_ten11] at h2
    have h3 : F64.toRat (F64.finite (!false) 6553600000000000 (-16)) = -100000000000 := by
      simp only [F64.toRat]
      norm_num
    rw [h3] at h1
    exact abs_lt.mpr ⟨h1, h2⟩

/-- The forms of `math.Round` of a rounded quotient: an infinity, the
`float64` of an integer below `2^53`, or a normal number with a non-negative
exponent. -/
theorem F64.Round_nearest_cases (s : Bool) (n d : ℕ) (hn : 0 < n) (hd : 0 < d) :
    F64.Round (F64.nearest s n d) = F64.inf s ∨
    (∃ K, F64.Round (F64.nearest s n d) = F64.nearest s K 1 ∧ K < 9007199254740992) ∨
    (∃ m e, F64.Round (F64.nearest s n d) = F64.finite s m e ∧ 4503599627370496 ≤ m ∧
      m < 9007199254740992 ∧ 0 ≤ e ∧ e ≤ 971) := by
  rcases F64.nearest_cases s n d hn hd with ⟨h, -⟩ | ⟨m, h, -, -⟩ | ⟨m, e, h, hm1, hm2, -, he2, -⟩
  · left
    rw [h]
    rfl
  · right; left
    refine ⟨0, ?_, by norm_num⟩
    rw [h]
    simp only [F64.Round]
    rw [if_neg (by norm_num), if_pos (by norm_num)]
    rfl
  · rw [h]
    simp only [F64.Round]
    by_cases h0 : 0 ≤ e
    · rw [if_pos h0]
      exact Or.inr (Or.inr ⟨m, e, rfl, hm1, hm2, h0, he2⟩)
    · rw [if_neg h0]
      right; left
      by_cases h1 : e < -54
      · rw [if_pos h1]
        exact ⟨0, rfl, by norm_num⟩
      · rw [if_neg h1]
        refine ⟨_, rfl, ?_⟩
        have hP : 0 < 2 ^ (-e).toNat := by positivity
        generalize 2 ^ (-e).toNat = P at hP
        have h3 : (2 * m + P) / (2 * P) < m + 1 := by
          rw [Nat.div_lt_iff_lt_mul (by omega)]
          have : m ≤ m * P := Nat.le_mul_of_pos_right m hP
          nlinarith
        omega

/-- The forms of `math.Round(x * 100)`. -/
theorem F64.Round_mul_hundred_cases (x : F64) :
    F64.Round (F64.mul x 100) = F64.nan ∨ (∃ s, F64.Round (F64.mul x 100) = F64.inf s) ∨
    (∃ s K, F64.Round (F64.mul x 100) = F64.nearest s K 1 ∧ K < 9007199254740992) ∨
    (∃ s m e, F64.Round (F64.mul x 100) = F64.finite s m e ∧ 4503599627370496 ≤ m ∧
      m < 9007199254740992 ∧ 0 ≤ e ∧ e ≤ 971) := by
  rw [F64.hundred]
  cases x with
  | nan => exact Or.inl rfl
  | inf s => exact Or.inr (Or.inl ⟨xor s false, by simp [F64.mul, F64.Round]⟩)
  | finite s m e =>
    right
    simp only [F64.mul]
    by_cases h0 : m = 0 ∨ 7036874417766400 = 0
    · rw [if_pos h0]
      right; left
      refine ⟨xor s false, 0, ?_, by norm_num⟩
      simp only [F64.zero, F64.Round]
      rw [if_neg (by norm_num), if_pos (by norm_num)]
      rfl
    · rw [if_neg h0]
      push_neg at h0
      have hm : 0 < m := Nat.pos_of_ne_zero h0.1
      rcases F64.Round_nearest_cases (xor s false)
        (m * 7036874417766400 * 2 ^ (e + -46).toNat) (2 ^ (-(e + -46)).toNat)
        (by positivity) (by positivity) with h | ⟨K, h, hK⟩ | ⟨k, f, h, h1, h2, h3, h4⟩
      · exact Or.inl ⟨_, h⟩
      · exact Or.inr (Or.inl ⟨_, K, h, hK⟩)
      · exact Or.inr (Or.inr ⟨_, k, f, h, h1, h2, h3, h4⟩)

/-- When the amount `math.Round(x*100) / 100` lies strictly between `-10^11`
and `10^11`, the rounded hundredths are an integer of absolute value at most
`10^13`. -/
theorem F64.cents_of_bounded (r : F64)
    (hr : r = F64.nan ∨ (∃ s, r = F64.inf s) ∨
      (∃ s K, r = F64.nearest s K 1 ∧ K < 9007199254740992) ∨
      (∃ s m e, r = F64.finite s m e ∧ 4503599627370496 ≤ m ∧
        m < 9007199254740992 ∧ 0 ≤ e ∧ e ≤ 971))
    (h1 : F64.lt (F64.neg 100000000000) (F64.div r 100) = true)
    (h2 : F64.lt (F64.div r 100) 100000000000 = true) :
    ∃ s K, r = F64.nearest s K 1 ∧ K ≤ 10000000000000 := by
  obtain ⟨s0, m0, e0, hfin, habs⟩ := F64.abs_lt_of_lt _ h1 h2
  rcases hr with h | ⟨s, h⟩ | ⟨s, K, h, hK⟩ | ⟨s, m, e, h, hm1, hm2, he1, he2⟩
  · subst h
    simp [F64.div] at hfin
  · subst h
    rw [F64.hundred] at hfin
    simp [F64.div] at hfin
  · refine ⟨s, K, h, ?_⟩
    subst h
    obtain ⟨s1, m1, e1, -, -, herr⟩ := F64.cents_approx s K hK
    have hk : |(((if s = true then -(K : ℤ) else (K : ℤ) : ℤ) : ℚ) / 100)| = (K : ℚ) / 100 := by
      rw [abs_div, abs_of_pos (by norm_num : (0 : ℚ) < 100)]
      cases s <;> simp
    rw [hk] at herr
    have h7 := abs_sub_abs_le_abs_sub
      (((if s = true then -(K : ℤ) else (K : ℤ) : ℤ) : ℚ) / 100)
      (F64.toRat (F64.div (F64.nearest s K 1) 100))
    rw [hk, abs_sub_comm] at h7
    by_contra hc
    have hK2 : (10000000000001 : ℚ) ≤ K := by
      have : 10000000000001 ≤ K := by omega
      exact_mod_cast this
    linarith
  · exfalso
    subst h
    rw [F64.hundred] at hfin habs
    have hP := F64.two_zpow_pos e
    have hX1 : (1 : ℚ) ≤ (2 : ℚ) ^ e := by
      have := zpow_le_zpow_right₀ (by norm_num : (1 : ℚ) ≤ 2) he1
      simpa using this
    have hX2 : (2 : ℚ) ^ e ≤ (2 : ℚ) ^ (971 : ℤ) :=
      zpow_le_zpow_right₀ (by norm_num) he2
    have hT : (2 : ℚ) ^ (1023 : ℤ) = 4503599627370496 * (2 : ℚ) ^ (971 : ℤ) := by
      rw [show (1023 : ℤ) = 52 + 971 by norm_num, zpow_add₀ (by norm_num : (2 : ℚ) ≠ 0)]
      norm_num
    have hS : (2 : ℚ) ^ (-1022 : ℤ) ≤ 1 := by
      have := zpow_le_zpow_right₀ (by norm_num : (1 : ℚ) ≤ 2) (by norm_num : (-1022 : ℤ) ≤ 0)
      simpa using this
    have hm1q : (4503599627370496 : ℚ) ≤ m := by exact_mod_cast hm1
    have hm2q : (m : ℚ) ≤ 9007199254740992 := by exact_mod_cast hm2.le
    have hlo : (4503599627370496 : ℚ) ≤ (m : ℚ) * 2 ^ e := by nlinarith
    have hhi : (m : ℚ) * 2 ^ e ≤ 9007199254740992 * (2 : ℚ) ^ (971 : ℤ) :=
      mul_le_mul hm2q hX2 hP.le (by norm_num)
    have hv : |F64.toRat (F64.finite s m e)
        / F64.toRat (F64.finite false 7036874417766400 (-46))| = (m : ℚ) * 2 ^ e / 100 := by
      rw [abs_div, F64.toRat_abs, F64.toRat_hundred]
      norm_num
    have hT971 := F64.two_zpow_pos 971
    obtain ⟨s1, m1, e1, -, -, herr⟩ := F64.div_approx s false m 7036874417766400 e (-46)
      (by norm_num) (Or.inr (by
        rw [hv, hT]
        constructor
        · linarith
        · linarith))
    rw [hv] at herr
    have h7 := abs_sub_abs_le_abs_sub
      (F64.toRat (F64.finite s m e) / F64.toRat (F64.finite false 7036874417766400 (-46)))
      (F64.toRat (F64.div (F64.finite s m e) (F64.finite false 7036874417766400 (-46))))
    rw [hv, abs_sub_comm] at h7
    linarith

/-! ## Adding and subtracting again -/

set_option maxRecDepth 100000 in
/-- C28 at its failing inputs: `a = NewMoney(0.01, "THB")` and
`b = NewMoney(100000000000000, "THB")` are returned without error, `a.Add(b)`
succeeds with `100000000000000.02` (the `float64` sum is
`100000000000000.015625`, and times 100 it rounds to `10000000000000002`),
subtracting `b` again succeeds with `0.02`, and `Equals(a)` is false. -/
theorem C28_add_subtract_not_inverse :
    vo.NewMoney (F64.lit 1 100) "THB" = (⟨F64.lit 1 100, "THB"⟩, none) ∧
    vo.NewMoney 100000000000000 "THB" = (⟨100000000000000, "THB"⟩, none) ∧
    (vo.Money.mk (F64.lit 1 100) "THB").Add ⟨100000000000000, "THB"⟩
      = (⟨F64.lit 10000000000000002 100, "THB"⟩, none) ∧
    F64.add (F64.lit 1 100) 100000000000000 = F64.lit 100000000000000015625 1000000 ∧
    (vo.Money.mk (F64.lit 10000000000000002 100) "THB").Subtract ⟨100000000000000, "THB"⟩
      = (⟨F64.lit 2 100, "THB"⟩, none) ∧
    (vo.Money.mk (F64.lit 2 100) "THB").Equals ⟨F64.lit 1 100, "THB"⟩ = false := by
  decide

/-- C28, amended: for all `Money` values `a` and `b` produced by `NewMoney`
with the same currency whose amounts lie strictly between `-10^11` and
`10^11`, `a.Add(b)` succeeds with some `c`, `c.Subtract(b)` succeeds with
some `d`, and `d.Equals(a)` is true. -/
theorem C28_add_subtract_bounded (xa xb : F64) (cur : String) (a b : vo.Money)
    (ha : vo.NewMoney xa cur = (a, none)) (hb : vo.NewMoney xb cur = (b, none))
    (ha1 : F64.lt (F64.neg 100000000000) a.Amount = true)
    (ha2 : F64.lt a.Amount 100000000000 = true)
    (hb1 : F64.lt (F64.neg 100000000000) b.Amount = true)
    (hb2 : F64.lt b.Amount 100000000000 = true) :
    ∃ c d : vo.Money, a.Add b = (c, none) ∧ c.Subtract b = (d, none) ∧ d.Equals a = true := by
  unfold vo.NewMoney at ha hb
  split_ifs at ha with hcur
  · simp at ha
  · rw [if_neg hcur] at hb
    simp only [Prod.mk.injEq, and_true] at ha hb
    subst ha
    subst hb
    obtain ⟨sa, Ka, hra, hKa⟩ :=
      F64.cents_of_bounded _ (F64.Round_mul_hundred_cases xa) ha1 ha2
    obtain ⟨sb, Kb, hrb, hKb⟩ :=
      F64.cents_of_bounded _ (F64.Round_mul_hundred_cases xb) hb1 hb2
    rw [hra, hrb]
    exact vo.Money.add_subtract_cents cur hcur sa sb Ka Kb hKa hKb

set_option maxRecDepth 100000 in
/-- C28, amended, on `a = NewMoney(19.99, "THB")` and
`b = NewMoney(-5.05, "THB")`. -/
theorem C28_add_subtract_bounded_witness :
    vo.NewMoney (F64.lit 1999 100) "THB" = (⟨F64.lit 1999 100, "THB"⟩, none) ∧
    vo.NewMoney (F64.neg (F64.lit 505 100)) "THB"
      = (⟨F64.neg (F64.lit 505 100), "THB"⟩, none) ∧
    F64.lt (F64.neg 100000000000) (F64.lit 1999 100) = true ∧
    F64.lt (F64.lit 1999 100) 100000000000 = true ∧
    F64.lt (F64.neg 100000000000) (F64.neg (F64.lit 505 100)) = true ∧
    F64.lt (F64.neg (F64.lit 505 100)) 100000000000 = true ∧
    ∃ c d : vo.Money,
      (vo.Money.mk (F64.lit 1999 100) "THB").Add ⟨F64.neg (F64.lit 505 100), "THB"⟩
        = (c, none) ∧
      c.Subtract ⟨F64.neg (F64.lit 505 100), "THB"⟩ = (d, none) ∧
      d.Equals ⟨F64.lit 1999 100, "THB"⟩ = true :=
  ⟨by decide, by decide, by decide, by decide, by decide, by decide,
   C28_add_subtract_bounded (F64.lit 1999 100) (F64.neg (F64.lit 505 100)) "THB"
     ⟨F64.lit 1999 100, "THB"⟩ ⟨F64.neg (F64.lit 505 100), "THB"⟩
     (by decide) (by decide) (by decide) (by decide) (by decide) (by decide)⟩

/-! ## The two-decimal invariant -/

/-- A `float64` with an odd mantissa and a negative exponent is no integer. -/
theorem F64.not_integer_of_odd (s : Bool) (m k : ℕ) (hm : m % 2 = 1) (hk : 0 < k) :
    ¬ (F64.finite s m (-(k : ℤ))).IsInteger := by
  rintro ⟨s2, m2, e2, _, z, hz⟩
  simp only [F64.toRat] at hz
  rw [zpow_neg, zpow_natCast] at hz
  have hp : (2 : ℚ) ^ k ≠ 0 := by positivity
  have h1 : (if s = true then (-1 : ℚ) else 1) * (m : ℚ) = (z : ℚ) * (2 : ℚ) ^ k := by
    rw [← hz, mul_assoc, mul_assoc, inv_mul_cancel₀ hp, mul_one]
  obtain ⟨j, hj⟩ : ∃ j, k = j + 1 := ⟨k - 1, by omega⟩
  have h2 : (if s = true then (-1 : ℤ) else 1) * (m : ℤ) = 2 * (z * 2 ^ j) := by
    have : (((if s = true then (-1 : ℤ) else 1) * (m : ℤ) : ℤ) : ℚ)
        = ((2 * (z * 2 ^ j) : ℤ) : ℚ) := by
      push_cast
      rw [hj, pow_succ] at h1
      cases s <;> simp at h1 ⊢ <;> linarith
    exact_mod_cast this
  generalize z * 2 ^ j = w at h2
  cases s <;> simp at h2 <;> omega

/-- `math.Round` returns NaN, an infinity or an integer. -/
theorem F64.Round_cases (x : F64) :
    F64.Round x = F64.nan ∨ (∃ s, F64.Round x = F64.inf s) ∨ (F64.Round x).IsInteger := by
  rcases F64.Round_int x with h | h | ⟨s, m, e, h, hz⟩
  · exact Or.inl h
  · exact Or.inr (Or.inl h)
  · exact Or.inr (Or.inr ⟨s, m, e, h, by rw [h]; exact hz⟩)

/-- The amount of a successfully returned `NewMoney`. -/
theorem vo.NewMoney_amount (y : F64) (currency : String) (m : vo.Money)
    (h : vo.NewMoney y currency = (m, none)) :
    m.Amount = F64.div (F64.Round (F64.mul y 100)) 100 := by
  unfold vo.NewMoney at h
  split_ifs at h
  · simp at h
  · simp only [Prod.mk.injEq, and_true] at h
    rw [← h]

set_option maxRecDepth 100000 in
/-- C29 at its failing input: `NewMoney(0.29, "THB")` succeeds and returns the
amount `0.29`, the `float64` nearest to 29/100; its `float64` product with
100 is `28.999999999999996` (mantissa `8162774324609023`, exponent `-48`),
which is not equal to 29 and no integer, and its exact value times 100 is no
integer either. -/
theorem C29_amount_not_hundredths :
    vo.NewMoney (F64.lit 29 100) "THB" = (⟨F64.lit 29 100, "THB"⟩, none) ∧
    F64.mul (F64.lit 29 100) 100 = F64.finite false 8162774324609023 (-48) ∧
    F64.eq (F64.mul (F64.lit 29 100) 100) 29 = false ∧
    ¬ (F64.mul (F64.lit 29 100) 100).IsInteger ∧
    (¬ ∃ z : ℤ, F64.toRat (F64.lit 29 100) * 100 = z) := by
  have hl : F64.lit 29 100 = F64.finite false 5224175567749775 (-54) := by decide
  have hm : F64.mul (F64.lit 29 100) 100 = F64.finite false 8162774324609023 (-48) := by decide
  refine ⟨by decide, hm, by decide, ?_, ?_⟩
  · rw [hm]
    exact F64.not_integer_of_odd false 8162774324609023 48 (by norm_num) (by norm_num)
  · rintro ⟨z, hz⟩
    rw [hl] at hz
    simp only [F64.toRat] at hz
    have h1 : (28 : ℚ) < z := by rw [← hz]; norm_num
    have h2 : (z : ℚ) < 29 := by rw [← hz]; norm_num
    have h3 : (28 : ℤ) < z := by exact_mod_cast h1
    have h4 : z < 29 := by exact_mod_cast h2
    omega

/-- C29, amended: every `Money` returned successfully by `NewMoney`, `Add`,
`Subtract` or `Multiply`, for arbitrary input amounts and factors, has the
amount `math.Round(y*100) / 100` computed in `float64`, where `y` is the
input amount, the `float64` sum, difference or product; `math.Round(y*100)`
is NaN, an infinity or an integer, so `Amount` is NaN, an infinity or the
`float64` quotient of an integer by 100 (which times 100 need not be an
integer again). -/
theorem C29_amount_rounded_quotient (amount factor : F64) (currency : String)
    (a b m : vo.Money) :
    (vo.NewMoney amount currency = (m, none) →
      m.Amount = F64.div (F64.Round (F64.mul amount 100)) 100) ∧
    (a.Add b = (m, none) →
      m.Amount = F64.div (F64.Round (F64.mul (F64.add a.Amount b.Amount) 100)) 100) ∧
    (a.Subtract b = (m, none) →
      m.Amount = F64.div (F64.Round (F64.mul (F64.sub a.Amount b.Amount) 100)) 100) ∧
    (a.Multiply factor = (m, none) →
      m.Amount = F64.div (F64.Round (F64.mul (F64.mul a.Amount factor) 100)) 100) ∧
    (∀ y : F64, F64.Round (F64.mul y 100) = F64.nan ∨
      (∃ s, F64.Round (F64.mul y 100) = F64.inf s) ∨
      (F64.Round (F64.mul y 100)).IsInteger) := by
  refine ⟨vo.NewMoney_amount _ _ _, ?_, ?_, ?_, fun y => F64.Round_cases _⟩
  · intro h
    unfold vo.Money.Add at h
    split_ifs at h
    · simp at h
    · exact vo.NewMoney_amount _ _ _ h
  · intro h
    unfold vo.Money.Subtract at h
    split_ifs at h
    · simp at h
    · exact vo.NewMoney_amount _ _ _ h
  · intro h
    exact vo.NewMoney_amount _ _ _ h

set_option maxRecDepth 100000 in
/-- C29, amended, on `NewMoney(0.29, "THB")`, `10.10 + 5.05`, `10.10 - 5.05`
and `19.99 * 3`. -/
theorem C29_amount_rounded_quotient_witness :
    vo.NewMoney (F64.lit 29 100) "THB" = (⟨F64.lit 29 100, "THB"⟩, none) ∧
    (vo.Money.mk (F64.lit 1010 100) "THB").Add ⟨F64.lit 505 100, "THB"⟩
      = (⟨F64.lit 1515 100, "THB"⟩, none) ∧
    (vo.Money.mk (F64.lit 1010 100) "THB").Subtract ⟨F64.lit 505 100, "THB"⟩
      = (⟨F64.lit 505 100, "THB"⟩, none) ∧
    (vo.Money.mk (F64.lit 1999 100) "THB").Multiply 3 = (⟨F64.lit 5997 100, "THB"⟩, none) ∧
    (vo.Money.mk (F64.lit 29 100) "THB").Amount
      = F64.div (F64.Round (F64.mul (F64.lit 29 100) 100)) 100 ∧
    (vo.Money.mk (F64.lit 1515 100) "THB").Amount
      = F64.div (F64.Round (F64.mul (F64.add (F64.lit 1010 100) (F64.lit 505 100)) 100)) 100 ∧
    (vo.Money.mk (F64.lit 505 100) "THB").Amount
      = F64.div (F64.Round (F64.mul (F64.sub (F64.lit 1010 100) (F64.lit 505 100)) 100)) 100 ∧
    (vo.Money.mk (F64.lit 5997 100) "THB").Amount
      = F64.div (F64.Round (F64.mul (F64.mul (F64.lit 1999 100) 3) 100)) 100 :=
  ⟨by decide, by decide, by decide, by decide,
   (C29_amount_rounded_quotient (F64.lit 29 100) 0 "THB" ⟨0, ""⟩ ⟨0, ""⟩
      ⟨F64.lit 29 100, "THB"⟩).1 (by decide),
   (C29_amount_rounded_quotient 0 0 "" ⟨F64.lit 1010 100, "THB"⟩ ⟨F64.lit 505 100, "THB"⟩
      ⟨F64.lit 1515 100, "THB"⟩).2.1 (by decide),
   (C29_amount_rounded_quotient 0 0 "" ⟨F64.lit 1010 100, "THB"⟩ ⟨F64.lit 505 100, "THB"⟩
      ⟨F64.lit 505 100, "THB"⟩).2.2.1 (by decide),
   (C29_amount_rounded_quotient 0 3 "" ⟨F64.lit 1999 100, "THB"⟩ ⟨0, ""⟩
      ⟨F64.lit 5997 100, "THB"⟩).2.2.2.1 (by decide)⟩

/-- C30: for every `Money` `m` with a non-empty currency and every factor `f`
(positive, zero or negative), `m.Multiply(f)` succeeds and returns a `Money`
with `Currency` equal to `m.Currency` and `Amount` equal to `m.Amount*f`
rounded by `NewMoney`, that is `math.Round(x*100)/100` in `float64`;
`Multiply` is a function of its value receiver, so `m` is not written. -/
theorem C30_Multiply (m : vo.Money) (f : F64) (h : m.Currency ≠ "") :
    m.Multiply f
      = (⟨F64.div (F64.Round (F64.mul (F64.mul m.Amount f) 100)) 100, m.Currency⟩, none) ∧
    (m.Multiply f).2 = none ∧ (m.Multiply f).1.Currency = m.Currency ∧
    m.Multiply f = vo.NewMoney (F64.mul m.Amount f) m.Currency := by
  rcases vo.Money.Multiply_cases m f with ⟨he, _⟩ | ⟨_, hm⟩
  · exact absurd he h
  · rw [hm, vo.NewMoney_ok _ _ h]
    exact ⟨rfl, rfl, rfl, rfl⟩

set_option maxRecDepth 100000 in
/-- C30 on `19.99 THB` times `3`, `0` and `-2`: `59.97`, `0` and `-39.98`. -/
theorem C30_Multiply_witness :
    (vo.Money.mk (F64.lit 1999 100) "THB").Currency ≠ "" ∧
    (vo.Money.mk (F64.lit 1999 100) "THB").Multiply 3 = (⟨F64.lit 5997 100, "THB"⟩, none) ∧
    (vo.Money.mk (F64.lit 1999 100) "THB").Multiply 0 = (⟨0, "THB"⟩, none) ∧
    (vo.Money.mk (F64.lit 1999 100) "THB").Multiply (F64.neg 2)
      = (⟨F64.neg (F64.lit 3998 100), "THB"⟩, none) :=
  ⟨by decide,
   (C30_Multiply ⟨F64.lit 1999 100, "THB"⟩ 3 (by decide)).1.trans (by decide),
   (C30_Multiply ⟨F64.lit 1999 100, "THB"⟩ 0 (by decide)).1.trans (by decide),
   (C30_Multiply ⟨F64.lit 1999 100, "THB"⟩ (F64.neg 2) (by decide)).1.trans (by decide)⟩

/-! ## The order use case: payment, items, shipments, cancellation -/

/-- After `UpdatePaymentStatus(paid)` the order is not pending, so no
transition to `processing` is accepted. -/
theorem Order.UpdatePaymentStatus_paid_blocks (o : Order) (now : Time) :
    isValidStatusTransition (o.UpdatePaymentStatus PaymentStatusPaid now).Status
      OrderStatusProcessing = false := by
  have hnot : ∀ s : OrderStatus, s ≠ OrderStatusPending →
      isValidStatusTransition s OrderStatusProcessing = false := by
    intro s hs
    cases h : isValidStatusTransition s OrderStatusProcessing
    · rfl
    · have := (order.isValidStatusTransition_iff s OrderStatusProcessing).mp h
      simp only [allowedTransitions, OrderStatusProcessing, List.mem_cons, Prod.mk.injEq,
        List.mem_singleton, List.mem_nil_iff, or_false] at this
      rcases this with ⟨h1, _⟩ | ⟨_, h2⟩ | ⟨_, h2⟩ | ⟨_, h2⟩ | ⟨_, h2⟩ | ⟨_, h2⟩
      · exact absurd h1 hs
      all_goals exact absurd h2 (by decide)
  simp only [Order.UpdatePaymentStatus]
  split_ifs with h
  · have hv : isValidStatusTransition
        ({ o with PaymentStatus := PaymentStatusPaid } : Order).Status
        OrderStatusProcessing = true := by
      show isValidStatusTransition o.Status OrderStatusProcessing = true
      rw [h.2]
      decide
    rw [Order.UpdateStatus_valid _ _ _ _ _ hv]
    show isValidStatusTransition OrderStatusProcessing OrderStatusProcessing = false
    decide
  · exact hnot o.Status (fun hp => h ⟨trivial, hp⟩)

/-- `ProcessPayment` on an order the repository finds, when the transaction
is recorded: the status update after `UpdatePaymentStatus` is rejected, the
call returns "invalid status transition" and the order is never saved. -/
theorem OrderUseCase.ProcessPayment_found (uc : OrderUseCase) (w : World) (orderID : Nat)
    (referenceNumber gatewayResponse gatewayTransactionID : String) (now : Time) (ord : Order)
    (hfind : uc.orderFindByID orderID = (some ord, none))
    (hcreate : ∀ t, uc.transactionCreate t = none) :
    uc.ProcessPayment w orderID referenceNumber gatewayResponse gatewayTransactionID now
      = (w.record (.transactionCreate
          { Entity := ⟨0, 0, 0⟩, TransactionID := 0, OrderID := orderID,
            PaymentMethodID := ord.PaymentMethodID, TransactionDate := now,
            Amount := ord.TotalAmount, Status := PaymentStatusPaid,
            ReferenceNumber := referenceNumber, GatewayResponse := gatewayResponse,
            GatewayTransactionID := gatewayTransactionID, Order := none,
            PaymentMethod := none }), some "invalid status transition") := by
  unfold OrderUseCase.ProcessPayment
  rw [hfind]
  simp only [hcreate]
  rw [Order.UpdateStatus_invalid _ _ _ _ _ (Order.UpdatePaymentStatus_paid_blocks ord now)]

set_option maxRecDepth 100000 in
/-- C31 at its failing input: the order `NewOrder` returns is pending and is
stored under ID 0, and every repository call succeeds. `ProcessPayment`
records the transaction (status paid, amount the order total) and then
returns "invalid status transition": `UpdatePaymentStatus(paid)` has already
moved the order to processing, so the `UpdateStatus(processing)` that follows
is rejected, and `orderRepo.Update` is never called. The same happens for
every order the repository finds. -/
theorem C31_ProcessPayment_rejects_pending_order :
    Order.sample.Status = "pending" ∧
    (OrderUseCase.holding Order.sample
        (Product.sample 1 "SKU-1" "Pen" (vo.NewMoney 10 "THB").1)).ProcessPayment
      (World.ofStock 1 10 0) 0 "REF-1" "approved" "GW-1" 7
      = ({ inventories := (World.ofStock 1 10 0).inventories,
           calls := [.transactionCreate
             { Entity := ⟨0, 0, 0⟩, TransactionID := 0, OrderID := 0, PaymentMethodID := 1,
               TransactionDate := 7, Amount := ⟨F64.zero false, "THB"⟩, Status := "paid",
               ReferenceNumber := "REF-1", GatewayResponse := "approved",
               GatewayTransactionID := "GW-1", Order := none, PaymentMethod := none }] },
          some "invalid status transition") ∧
    (∀ (uc : OrderUseCase) (w : World) (orderID : Nat)
        (referenceNumber gatewayResponse gatewayTransactionID : String) (now : Time)
        (ord : Order),
      uc.orderFindByID orderID = (some ord, none) → (∀ t, uc.transactionCreate t = none) →
      (uc.ProcessPayment w orderID referenceNumber gatewayResponse gatewayTransactionID now).2
        = some "invalid status transition") := by
  refine ⟨by decide, by decide, ?_⟩
  intro uc w orderID referenceNumber gatewayResponse gatewayTransactionID now ord hfind hcreate
  rw [OrderUseCase.ProcessPayment_found uc w orderID referenceNumber gatewayResponse
    gatewayTransactionID now ord hfind hcreate]

/-- No branch of `AddItemToOrder` touches the stock records. -/
theorem OrderUseCase.AddItemToOrder_inventories (uc : OrderUseCase) (w : World)
    (orderID productID : Nat) (variantID : Option Nat) (quantity : GoInt) (now : Time) :
    (uc.AddItemToOrder w orderID productID variantID quantity now).1.inventories
      = w.inventories := by
  simp only [OrderUseCase.AddItemToOrder]
  repeat' split
  all_goals rfl

/-- No branch of `CreateShipment` touches the stock records. -/
theorem OrderUseCase.CreateShipment_inventories (uc : OrderUseCase) (w : World)
    (orderID : Nat) (trackingNumber carrier : String) (expectedDeliveryDate : Option Time)
    (now : Time) :
    (uc.CreateShipment w orderID trackingNumber carrier expectedDeliveryDate now).1.inventories
      = w.inventories := by
  simp only [OrderUseCase.CreateShipment]
  repeat' split
  all_goals rfl

/-- No branch of `CancelOrder` touches the stock records. -/
theorem OrderUseCase.CancelOrder_inventories (uc : OrderUseCase) (w : World)
    (orderID : Nat) (reason : String) (staffID : Option Nat) (now : Time) :
    (uc.CancelOrder w orderID reason staffID now).1.inventories = w.inventories := by
  simp only [OrderUseCase.CancelOrder]
  repeat' split
  all_goals rfl

/-- A successful `AddItemToOrder`: the order was found pending, an item for
the product, variant and quantity was added with `Order.AddItem`, at the end
of `Items`, and the order was saved. -/
theorem OrderUseCase.AddItemToOrder_ok (uc : OrderUseCase) (w : World)
    (orderID productID : Nat) (variantID : Option Nat) (quantity : GoInt) (now : Time)
    (h : (uc.AddItemToOrder w orderID productID variantID quantity now).2 = none) :
    0 < quantity.val ∧
    ∃ (ord : Order) (item : OrderItem) (ord1 : Order),
      uc.orderFindByID orderID = (some ord, none) ∧ ord.Status = OrderStatusPending ∧
      item.OrderID = orderID ∧ item.ProductID = productID ∧ item.VariantID = variantID ∧
      item.Quantity = quantity ∧
      ord.AddItem item = (ord1, none) ∧ ord1.Items = ord.Items ++ [item] ∧
      (uc.AddItemToOrder w orderID productID variantID quantity now).1
        = w.record (.orderUpdate ord1) ∧
      uc.orderUpdate ord1 = none := by
  revert h
  simp only [OrderUseCase.AddItemToOrder]
  repeat' split
  all_goals intro h
  all_goals try (simp at h; done)
  rename_i hq _ ord hfind hp _ prod hprod _ sku price hsel _ subtotal hmul _ ord1 hadd
  refine ⟨by omega, ord, _, ord1, hfind, not_not.mp hp, rfl, rfl, rfl, rfl, hadd, ?_, rfl, h⟩
  rcases Order.AddItem_cases ord
    { Entity := ⟨0, 0, 0⟩, OrderItemID := 0, OrderID := orderID, ProductID := productID,
      VariantID := variantID, SKU := sku, Name := prod.Name, Quantity := quantity,
      UnitPrice := price, Subtotal := subtotal, Tax := (vo.NewMoney 0 price.Currency).1,
      Discount := (vo.NewMoney 0 price.Currency).1, Total := subtotal } with hc | hc | ⟨_, _, hc⟩
  · rw [hc] at hadd; simp at hadd
  · rw [hc] at hadd; simp at hadd
  · rw [hc] at hadd
    have hi := Order.recalculateOrderTotals_Items
      { ord with Items := ord.Items ++
          [{ ({ Entity := ⟨0, 0, 0⟩, OrderItemID := 0, OrderID := orderID,
                ProductID := productID, VariantID := variantID, SKU := sku, Name := prod.Name,
                Quantity := quantity, UnitPrice := price, Subtotal := subtotal,
                Tax := (vo.NewMoney 0 price.Currency).1,
                Discount := (vo.NewMoney 0 price.Currency).1, Total := subtotal } : OrderItem)
              with
              Subtotal := (price.Multiply (F64.ofInt quantity.val)).1,
              Total := (price.Multiply (F64.ofInt quantity.val)).1 }] }
    rw [hadd, hmul] at hi
    exact hi

/-- A successful `UpdateStatus` returns the order in the new status. -/
theorem Order.UpdateStatus_ok_status (o : Order) (status : OrderStatus) (comment : String)
    (staffID : Option Nat) (now : Time) (o1 : Order)
    (h : o.UpdateStatus status comment staffID now = (o1, none)) : o1.Status = status := by
  rcases Order.UpdateStatus_cases o status comment staffID now with ⟨_, hu⟩ | ⟨_, hu⟩
  · rw [hu] at h; simp at h
  · rw [hu] at h
    simp only [Prod.mk.injEq, and_true] at h
    rw [← h]

/-- A successful `CreateShipment`: the order was found in processing, the
shipment was added to it (status shipped), the shipment record was created
and updated as shipped, and the order was saved. -/
theorem OrderUseCase.CreateShipment_ok (uc : OrderUseCase) (w : World) (orderID : Nat)
    (trackingNumber carrier : String) (expectedDeliveryDate : Option Time) (now : Time)
    (h : (uc.CreateShipment w orderID trackingNumber carrier expectedDeliveryDate now).2
      = none) :
    ∃ (ord ord1 : Order) (shipment created : Shipment),
      uc.orderFindByID orderID = (some ord, none) ∧ ord.Status = OrderStatusProcessing ∧
      shipment.OrderID = orderID ∧ shipment.TrackingNumber = trackingNumber ∧
      shipment.Carrier = carrier ∧ shipment.Status = ShipmentStatusPending ∧
      ord.AddShipment shipment now = (ord1, none) ∧ ord1.Status = OrderStatusShipped ∧
      uc.shipmentCreate shipment = (created, none) ∧
      uc.shipmentUpdate (created.MarkAsShipped now) = none ∧
      (created.MarkAsShipped now).Status = ShipmentStatusShipped ∧
      (uc.CreateShipment w orderID trackingNumber carrier expectedDeliveryDate now).1
        = ((w.record (.shipmentCreate shipment)).record
            (.shipmentUpdate (created.MarkAsShipped now))).record (.orderUpdate ord1) ∧
      uc.orderUpdate ord1 = none := by
  revert h
  simp only [OrderUseCase.CreateShipment]
  repeat' split
  all_goals intro h
  all_goals try (simp at h; done)
  rename_i _ ord hfind hp _ ord1 hadd _ created hcreate _ hupdate
  refine ⟨ord, ord1, _, created, hfind, not_not.mp hp, rfl, rfl, rfl, rfl, hadd, ?_, hcreate,
    hupdate, rfl, rfl, h⟩
  unfold Order.AddShipment at hadd
  rw [if_neg hp] at hadd
  exact Order.UpdateStatus_ok_status _ _ _ _ _ _ hadd

/-- A successful `CancelOrder`: the order was found, `Order.Cancel` accepted
it (status cancelled), and the order was saved. -/
theorem OrderUseCase.CancelOrder_ok (uc : OrderUseCase) (w : World) (orderID : Nat)
    (reason : String) (staffID : Option Nat) (now : Time)
    (h : (uc.CancelOrder w orderID reason staffID now).2 = none) :
    ∃ (ord ord1 : Order),
      uc.orderFindByID orderID = (some ord, none) ∧
      ord.Cancel reason staffID now = (ord1, none) ∧ ord1.Status = OrderStatusCancelled ∧
      (uc.CancelOrder w orderID reason staffID now).1 = w.record (.orderUpdate ord1) ∧
      uc.orderUpdate ord1 = none := by
  revert h
  simp only [OrderUseCase.CancelOrder]
  repeat' split
  all_goals intro h
  all_goals try (simp at h; done)
  rename_i _ ord hfind _ ord1 hcancel
  refine ⟨ord, ord1, hfind, hcancel, ?_, rfl, h⟩
  unfold Order.Cancel at hcancel
  split_ifs at hcancel
  · simp at hcancel
  · exact Order.UpdateStatus_ok_status _ _ _ _ _ _ hcancel

set_option maxRecDepth 100000 in
/-- C32, as stated, fails. The order `NewOrder` returns is stored under ID 0
and product 1 costs 10 THB; the stock record of product 1 holds one unit,
none reserved, so `ReserveStock(2)` on it fails. `AddItemToOrder(0, 1, nil, 2)`
nevertheless succeeds: the saved order holds the item with quantity 2, and
the stock record is as before, `ReservedQuantity` still 0. -/
theorem C32_AddItemToOrder_without_reservation :
    ((OrderUseCase.holding Order.sample
        (Product.sample 1 "SKU-1" "Pen" (vo.NewMoney 10 "THB").1)).AddItemToOrder
      (World.ofStock 1 1 0) 0 1 none 2 7).2 = none ∧
    (((OrderUseCase.holding Order.sample
        (Product.sample 1 "SKU-1" "Pen" (vo.NewMoney 10 "THB").1)).AddItemToOrder
      (World.ofStock 1 1 0) 0 1 none 2 7).1.calls.map
        (fun c => match c with
          | .orderUpdate ord => ord.Items.map (fun i => (i.ProductID, i.Quantity.val))
          | _ => [])) = [[(1, 2)]] ∧
    (((OrderUseCase.holding Order.sample
        (Product.sample 1 "SKU-1" "Pen" (vo.NewMoney 10 "THB").1)).AddItemToOrder
      (World.ofStock 1 1 0) 0 1 none 2 7).1.inventories.map
        (fun i => (i.ProductID, i.Quantity.val, i.ReservedQuantity.val))) = [(1, 1, 0)] ∧
    ((World.ofStock 1 1 0).inventories.map
      (fun i => (i.ReserveStock 2 7).2)) = [some "insufficient available stock"] := by
  decide

/-- C32, amended: `AddItemToOrder` reserves no stock. No call of it, successful
or failed, changes an `Inventory` record; a successful call has a positive
quantity, found the order pending, added one item for the given product,
variant and quantity at the end of its `Items` with `Order.AddItem`, and saved
the order with `orderRepo.Update`; the item is added whether or not the stock
would allow a reservation. -/
theorem C32_AddItemToOrder_reserves_nothing (uc : OrderUseCase) (w : World)
    (orderID productID : Nat) (variantID : Option Nat) (quantity : GoInt) (now : Time) :
    (uc.AddItemToOrder w orderID productID variantID quantity now).1.inventories
      = w.inventories ∧
    ((uc.AddItemToOrder w orderID productID variantID quantity now).2 = none →
      0 < quantity.val ∧
      ∃ (ord : Order) (item : OrderItem) (ord1 : Order),
        uc.orderFindByID orderID = (some ord, none) ∧ ord.Status = OrderStatusPending ∧
        item.OrderID = orderID ∧ item.ProductID = productID ∧ item.VariantID = variantID ∧
        item.Quantity = quantity ∧
        ord.AddItem item = (ord1, none) ∧ ord1.Items = ord.Items ++ [item] ∧
        (uc.AddItemToOrder w orderID productID variantID quantity now).1
          = w.record (.orderUpdate ord1) ∧
        uc.orderUpdate ord1 = none) :=
  ⟨OrderUseCase.AddItemToOrder_inventories uc w orderID productID variantID quantity now,
   OrderUseCase.AddItemToOrder_ok uc w orderID productID variantID quantity now⟩

set_option maxRecDepth 100000 in
/-- C32, amended, on the stored order `NewOrder` returns, product 1 at 10 THB
and a stock record of 10 units: the call succeeds and the record is as before. -/
theorem C32_AddItemToOrder_reserves_nothing_witness :
    ((OrderUseCase.holding Order.sample
        (Product.sample 1 "SKU-1" "Pen" (vo.NewMoney 10 "THB").1)).AddItemToOrder
      (World.ofStock 1 10 0) 0 1 none 2 7).2 = none ∧
    ((OrderUseCase.holding Order.sample
        (Product.sample 1 "SKU-1" "Pen" (vo.NewMoney 10 "THB").1)).AddItemToOrder
      (World.ofStock 1 10 0) 0 1 none 2 7).1.inventories = (World.ofStock 1 10 0).inventories ∧
    0 < (2 : GoInt).val :=
  ⟨by decide,
   (C32_AddItemToOrder_reserves_nothing
      (OrderUseCase.holding Order.sample
        (Product.sample 1 "SKU-1" "Pen" (vo.NewMoney 10 "THB").1))
      (World.ofStock 1 10 0) 0 1 none 2 7).1,
   ((C32_AddItemToOrder_reserves_nothing
      (OrderUseCase.holding Order.sample
        (Product.sample 1 "SKU-1" "Pen" (vo.NewMoney 10 "THB").1))
      (World.ofStock 1 10 0) 0 1 none 2 7).2 (by decide)).1⟩

set_option maxRecDepth 100000 in
/-- C33, as stated, fails. A processing order with one item, two units of
product 1, is stored under ID 0; the stock record of product 1 holds 10 units,
2 reserved. `CreateShipment` succeeds and saves the order as shipped, but the
stock record is as before, `Quantity` 10 and `ReservedQuantity` 2, where
`CommitReservedStock(2)` would leave 8 and 0. -/
theorem C33_CreateShipment_without_commit :
    Order.sampleProcessing.Status = "processing" ∧
    (Order.sampleProcessing.Items.map (fun i => (i.ProductID, i.Quantity.val))) = [(1, 2)] ∧
    ((OrderUseCase.holding Order.sampleProcessing
        (Product.sample 1 "SKU-1" "Pen" (vo.NewMoney 10 "THB").1)).CreateShipment
      (World.ofStock 1 10 2) 0 "TRK-1" "Post" none 9).2 = none ∧
    (((OrderUseCase.holding Order.sampleProcessing
        (Product.sample 1 "SKU-1" "Pen" (vo.NewMoney 10 "THB").1)).CreateShipment
      (World.ofStock 1 10 2) 0 "TRK-1" "Post" none 9).1.calls.map
        (fun c => match c with
          | .orderUpdate ord => ord.Status
          | .shipmentCreate shipment => shipment.Status
          | .shipmentUpdate shipment => shipment.Status
          | .transactionCreate _ => "")) = ["pending", "shipped", "shipped"] ∧
    (((OrderUseCase.holding Order.sampleProcessing
        (Product.sample 1 "SKU-1" "Pen" (vo.NewMoney 10 "THB").1)).CreateShipment
      (World.ofStock 1 10 2) 0 "TRK-1" "Post" none 9).1.inventories.map
        (fun i => (i.ProductID, i.Quantity.val, i.ReservedQuantity.val))) = [(1, 10, 2)] ∧
    ((World.ofStock 1 10 2).inventories.map
      (fun i => ((i.CommitReservedStock 2 9).1.Quantity.val,
        (i.CommitReservedStock 2 9).1.ReservedQuantity.val))) = [(8, 0)] := by
  decide

/-- C33, amended: `CreateShipment` commits no reserved stock. No call of it,
successful or failed, changes an `Inventory` record; a successful call found
the order in processing, added the shipment to it with `Order.AddShipment`
(which moves the order to shipped), created the shipment record, updated it
as shipped, and saved the order with `orderRepo.Update`. -/
theorem C33_CreateShipment_commits_nothing (uc : OrderUseCase) (w : World) (orderID : Nat)
    (trackingNumber carrier : String) (expectedDeliveryDate : Option Time) (now : Time) :
    (uc.CreateShipment w orderID trackingNumber carrier expectedDeliveryDate now).1.inventories
      = w.inventories ∧
    ((uc.CreateShipment w orderID trackingNumber carrier expectedDeliveryDate now).2 = none →
      ∃ (ord ord1 : Order) (shipment created : Shipment),
        uc.orderFindByID orderID = (some ord, none) ∧ ord.Status = OrderStatusProcessing ∧
        shipment.OrderID = orderID ∧ shipment.TrackingNumber = trackingNumber ∧
        shipment.Carrier = carrier ∧ shipment.Status = ShipmentStatusPending ∧
        ord.AddShipment shipment now = (ord1, none) ∧ ord1.Status = OrderStatusShipped ∧
        uc.shipmentCreate shipment = (created, none) ∧
        uc.shipmentUpdate (created.MarkAsShipped now) = none ∧
        (created.MarkAsShipped now).Status = ShipmentStatusShipped ∧
        (uc.CreateShipment w orderID trackingNumber carrier expectedDeliveryDate now).1
          = ((w.record (.shipmentCreate shipment)).record
              (.shipmentUpdate (created.MarkAsShipped now))).record (.orderUpdate ord1) ∧
        uc.orderUpdate ord1 = none) :=
  ⟨OrderUseCase.CreateShipment_inventories uc w orderID trackingNumber carrier
      expectedDeliveryDate now,
   OrderUseCase.CreateShipment_ok uc w orderID trackingNumber carrier expectedDeliveryDate now⟩

set_option maxRecDepth 100000 in
/-- C33, amended, on the stored processing order with one item and a stock
record of 10 units, 2 reserved: the call succeeds and the record is as before. -/
theorem C33_CreateShipment_commits_nothing_witness :
    ((OrderUseCase.holding Order.sampleProcessing
        (Product.sample 1 "SKU-1" "Pen" (vo.NewMoney 10 "THB").1)).CreateShipment
      (World.ofStock 1 10 2) 0 "TRK-1" "Post" none 9).2 = none ∧
    ((OrderUseCase.holding Order.sampleProcessing
        (Product.sample 1 "SKU-1" "Pen" (vo.NewMoney 10 "THB").1)).CreateShipment
      (World.ofStock 1 10 2) 0 "TRK-1" "Post" none 9).1.inventories
      = (World.ofStock 1 10 2).inventories ∧
    ∃ ord : Order, (OrderUseCase.holding Order.sampleProcessing
        (Product.sample 1 "SKU-1" "Pen" (vo.NewMoney 10 "THB").1)).orderFindByID 0
      = (some ord, none) ∧ ord.Status = OrderStatusProcessing :=
  ⟨by decide,
   (C33_CreateShipment_commits_nothing
      (OrderUseCase.holding Order.sampleProcessing
        (Product.sample 1 "SKU-1" "Pen" (vo.NewMoney 10 "THB").1))
      (World.ofStock 1 10 2) 0 "TRK-1" "Post" none 9).1,
   (((C33_CreateShipment_commits_nothing
      (OrderUseCase.holding Order.sampleProcessing
        (Product.sample 1 "SKU-1" "Pen" (vo.NewMoney 10 "THB").1))
      (World.ofStock 1 10 2) 0 "TRK-1" "Post" none 9).2 (by decide)).elim
        (fun ord h => ⟨ord, h.elim (fun _ h2 => h2.elim (fun _ h3 => h3.elim
          (fun _ h4 => ⟨h4.1, h4.2.1⟩)))⟩))⟩

set_option maxRecDepth 100000 in
/-- C34, as stated, fails. A pending order with one item, two units of
product 1, is stored under ID 0; the stock record of product 1 holds 10 units,
2 reserved. `CancelOrder` succeeds and saves the order as cancelled, but the
stock record is as before, `ReservedQuantity` still 2, where
`ReleaseReservedStock(2)` would leave 0. -/
theorem C34_CancelOrder_without_release :
    (Order.sampleWithItem.Items.map (fun i => (i.ProductID, i.Quantity.val))) = [(1, 2)] ∧
    ((OrderUseCase.holding Order.sampleWithItem
        (Product.sample 1 "SKU-1" "Pen" (vo.NewMoney 10 "THB").1)).CancelOrder
      (World.ofStock 1 10 2) 0 "customer request" none 9).2 = none ∧
    (((OrderUseCase.holding Order.sampleWithItem
        (Product.sample 1 "SKU-1" "Pen" (vo.NewMoney 10 "THB").1)).CancelOrder
      (World.ofStock 1 10 2) 0 "customer request" none 9).1.calls.map
        (fun c => match c with
          | .orderUpdate ord => ord.Status
          | _ => "")) = ["cancelled"] ∧
    (((OrderUseCase.holding Order.sampleWithItem
        (Product.sample 1 "SKU-1" "Pen" (vo.NewMoney 10 "THB").1)).CancelOrder
      (World.ofStock 1 10 2) 0 "customer request" none 9).1.inventories.map
        (fun i => (i.ProductID, i.Quantity.val, i.ReservedQuantity.val))) = [(1, 10, 2)] ∧
    ((World.ofStock 1 10 2).inventories.map
      (fun i => (i.ReleaseReservedStock 2 9).1.ReservedQuantity.val)) = [0] := by
  decide

/-- C34, amended: `CancelOrder` releases no reserved stock. No call of it,
successful or failed, changes an `Inventory` record; a successful call found
the order, cancelled it with `Order.Cancel` (status cancelled), and saved it
with `orderRepo.Update`. -/
theorem C34_CancelOrder_releases_nothing (uc : OrderUseCase) (w : World) (orderID : Nat)
    (reason : String) (staffID : Option Nat) (now : Time) :
    (uc.CancelOrder w orderID reason staffID now).1.inventories = w.inventories ∧
    ((uc.CancelOrder w orderID reason staffID now).2 = none →
      ∃ (ord ord1 : Order),
        uc.orderFindByID orderID = (some ord, none) ∧
        ord.Cancel reason staffID now = (ord1, none) ∧ ord1.Status = OrderStatusCancelled ∧
        (uc.CancelOrder w orderID reason staffID now).1 = w.record (.orderUpdate ord1) ∧
        uc.orderUpdate ord1 = none) :=
  ⟨OrderUseCase.CancelOrder_inventories uc w orderID reason staffID now,
   OrderUseCase.CancelOrder_ok uc w orderID reason staffID now⟩

set_option maxRecDepth 100000 in
/-- C34, amended, on the stored pending order with one item and a stock record
of 10 units, 2 reserved: the call succeeds and the record is as before. -/
theorem C34_CancelOrder_releases_nothing_witness :
    ((OrderUseCase.holding Order.sampleWithItem
        (Product.sample 1 "SKU-1" "Pen" (vo.NewMoney 10 "THB").1)).CancelOrder
      (World.ofStock 1 10 2) 0 "customer request" none 9).2 = none ∧
    ((OrderUseCase.holding Order.sampleWithItem
        (Product.sample 1 "SKU-1" "Pen" (vo.NewMoney 10 "THB").1)).CancelOrder
      (World.ofStock 1 10 2) 0 "customer request" none 9).1.inventories
      = (World.ofStock 1 10 2).inventories ∧
    ∃ ord1 : Order, ord1.Status = OrderStatusCancelled ∧
      ((OrderUseCase.holding Order.sampleWithItem
        (Product.sample 1 "SKU-1" "Pen" (vo.NewMoney 10 "THB").1)).CancelOrder
      (World.ofStock 1 10 2) 0 "customer request" none 9).1
        = (World.ofStock 1 10 2).record (.orderUpdate ord1) :=
  ⟨by decide,
   (C34_CancelOrder_releases_nothing
      (OrderUseCase.holding Order.sampleWithItem
        (Product.sample 1 "SKU-1" "Pen" (vo.NewMoney 10 "THB").1))
      (World.ofStock 1 10 2) 0 "customer request" none 9).1,
   ((C34_CancelOrder_releases_nothing
      (OrderUseCase.holding Order.sampleWithItem
        (Product.sample 1 "SKU-1" "Pen" (vo.NewMoney 10 "THB").1))
      (World.ofStock 1 10 2) 0 "customer request" none 9).2 (by decide)).elim
        (fun _ h => h.elim (fun ord1 h2 => ⟨ord1, h2.2.2.1, h2.2.2.2.1⟩))⟩

/-! ## Item mutations of the order in detail -/

/-- The loop over the items succeeds exactly when every item total is in the
currency of the running sum. -/
theorem Order.sumItemTotals_ok_iff (items : List OrderItem) (subtotal : vo.Money)
    (h : subtotal.Currency ≠ "") :
    (Order.sumItemTotals subtotal items).2 = none ↔
      ∀ i ∈ items, i.Total.Currency = subtotal.Currency := by
  induction items generalizing subtotal with
  | nil => simp [Order.sumItemTotals]
  | cons item rest ih =>
    rcases vo.Money.Add_cases subtotal item.Total h with ⟨hc, hadd⟩ | ⟨hc, hadd⟩
    · simp only [Order.sumItemTotals, hadd]
      have h2 := ih ⟨F64.div (F64.Round (F64.mul (F64.add subtotal.Amount item.Total.Amount) 100))
        100, subtotal.Currency⟩ h
      rw [h2]
      simp [hc]
    · simp only [Order.sumItemTotals, hadd]
      simp only [List.mem_cons, forall_eq_or_imp]
      constructor
      · intro hx
        simp at hx
      · intro hx
        exact absurd hx.1.symm hc

/-- The sum of the item totals, when the loop succeeds, is in the currency it
started with. -/
theorem Order.sumItemTotals_currency (items : List OrderItem) (subtotal : vo.Money)
    (h : subtotal.Currency ≠ "") (hok : (Order.sumItemTotals subtotal items).2 = none) :
    (Order.sumItemTotals subtotal items).1.Currency = subtotal.Currency := by
  rcases Order.sumItemTotals_cases items subtotal h with ⟨_, hc⟩ | he
  · exact hc
  · rw [he] at hok
    simp at hok

/-- A step of `recalculateOrderTotals` that adds a fee: it succeeds exactly
when the fee is zero or in the currency of the total, and keeps that currency. -/
theorem Order.addFee_ok_iff (total fee : vo.Money) (h : total.Currency ≠ "") :
    ((if !fee.IsZero then total.Add fee else (total, none)).2 = none ↔
      (fee.IsZero = true ∨ fee.Currency = total.Currency)) ∧
    ((if !fee.IsZero then total.Add fee else (total, none)).2 = none →
      (if !fee.IsZero then total.Add fee else (total, none)).1.Currency = total.Currency) := by
  cases hz : fee.IsZero
  · simp only [Bool.not_false, if_true, Bool.false_eq_true, false_or]
    rcases vo.Money.Add_cases total fee h with ⟨hc, hadd⟩ | ⟨hc, hadd⟩
    · rw [hadd]; simp [hc]
    · rw [hadd]
      simp only [reduceCtorEq, false_iff, false_imp_iff, and_true]
      exact fun h2 => hc h2.symm
  · simp

/-- A step of `recalculateOrderTotals` that subtracts a fee. -/
theorem Order.subtractFee_ok_iff (total fee : vo.Money) (h : total.Currency ≠ "") :
    ((if !fee.IsZero then total.Subtract fee else (total, none)).2 = none ↔
      (fee.IsZero = true ∨ fee.Currency = total.Currency)) ∧
    ((if !fee.IsZero then total.Subtract fee else (total, none)).2 = none →
      (if !fee.IsZero then total.Subtract fee else (total, none)).1.Currency
        = total.Currency) := by
  cases hz : fee.IsZero
  · simp only [Bool.not_false, if_true, Bool.false_eq_true, false_or]
    rcases vo.Money.Subtract_cases total fee h with ⟨hc, hadd⟩ | ⟨hc, hadd⟩
    · rw [hadd]; simp [hc]
    · rw [hadd]
      simp only [reduceCtorEq, false_iff, false_imp_iff, and_true]
      exact fun h2 => hc h2.symm
  · simp

/-- Applying the fees succeeds exactly when every fee that is not zero is in
the currency of the subtotal. -/
theorem Order.totalWithFees_ok_iff (o : Order) (h : o.Subtotal.Currency ≠ "") :
    o.totalWithFees.2 = none ↔
      (o.ShippingFee.IsZero = true ∨ o.ShippingFee.Currency = o.Subtotal.Currency) ∧
      (o.TaxAmount.IsZero = true ∨ o.TaxAmount.Currency = o.Subtotal.Currency) ∧
      (o.DiscountAmount.IsZero = true ∨ o.DiscountAmount.Currency = o.Subtotal.Currency) := by
  obtain ⟨h1a, h1b⟩ := Order.addFee_ok_iff o.Subtotal o.ShippingFee h
  unfold Order.totalWithFees
  rcases hs1 : (if !o.ShippingFee.IsZero then o.Subtotal.Add o.ShippingFee
      else (o.Subtotal, none)) with ⟨t1, e1⟩
  rw [hs1] at h1a h1b
  cases e1 with
  | some err =>
    simp only [reduceCtorEq, false_iff, not_and]
    intro hx
    exact absurd (h1a.mpr hx) (by simp)
  | none =>
    have hc1 : t1.Currency = o.Subtotal.Currency := h1b rfl
    have hne1 : t1.Currency ≠ "" := by rw [hc1]; exact h
    obtain ⟨h2a, h2b⟩ := Order.addFee_ok_iff t1 o.TaxAmount hne1
    dsimp only
    rcases hs2 : (if !o.TaxAmount.IsZero then t1.Add o.TaxAmount else (t1, none)) with ⟨t2, e2⟩
    rw [hs2] at h2a h2b
    cases e2 with
    | some err =>
      simp only [reduceCtorEq, false_iff, not_and]
      intro _ hx
      rw [← hc1] at hx
      exact absurd (h2a.mpr hx) (by simp)
    | none =>
      have hc2 : t2.Currency = o.Subtotal.Currency := (h2b rfl).trans hc1
      have hne2 : t2.Currency ≠ "" := by rw [hc2]; exact h
      obtain ⟨h3a, h3b⟩ := Order.subtractFee_ok_iff t2 o.DiscountAmount hne2
      dsimp only
      rcases hs3 : (if !o.DiscountAmount.IsZero then t2.Subtract o.DiscountAmount
          else (t2, none)) with ⟨t3, e3⟩
      rw [hs3] at h3a h3b
      cases e3 with
      | some err =>
        simp only [reduceCtorEq, false_iff, not_and]
        intro _ _ hx
        rw [← hc2] at hx
        exact absurd (h3a.mpr hx) (by simp)
      | none =>
        simp only [true_iff]
        refine ⟨h1a.mp rfl, ?_, ?_⟩
        · rw [← hc1]; exact h2a.mp rfl
        · rw [← hc2]; exact h3a.mp rfl

/-- `recalculateOrderTotals` succeeds exactly when every item total and every
fee that is not zero is in THB. -/
theorem Order.recalculateOrderTotals_ok_iff (o : Order) :
    o.recalculateOrderTotals.2 = none ↔ o.AllTHB := by
  have hthb : (vo.NewMoney 0 "THB").1.Currency = "THB" := by decide
  have hne : (vo.NewMoney 0 "THB").1.Currency ≠ "" := by decide
  have hsum := Order.sumItemTotals_ok_iff o.Items (vo.NewMoney 0 "THB").1 hne
  have hcur := Order.sumItemTotals_currency o.Items (vo.NewMoney 0 "THB").1 hne
  rw [hthb] at hsum hcur
  unfold Order.recalculateOrderTotals Order.AllTHB
  rcases hs : Order.sumItemTotals (vo.NewMoney 0 "THB").1 o.Items with ⟨subtotal, e⟩
  rw [hs] at hsum hcur
  cases e with
  | some err =>
    simp only [reduceCtorEq, false_iff, not_and]
    intro hx
    exact absurd (hsum.mpr hx) (by simp)
  | none =>
    have hc : subtotal.Currency = "THB" := hcur rfl
    have hfee := Order.totalWithFees_ok_iff { o with Subtotal := subtotal } (by
      show subtotal.Currency ≠ ""
      rw [hc]; decide)
    dsimp only at hfee ⊢
    rw [hc] at hfee
    rcases ht : Order.totalWithFees { o with Subtotal := subtotal } with ⟨total, e2⟩
    rw [ht] at hfee
    cases e2 with
    | some err =>
      simp only [reduceCtorEq, false_iff, not_and]
      intro _ h1 h2 h3
      exact absurd (hfee.mpr ⟨h1, h2, h3⟩) (by simp)
    | none =>
      simp only [true_iff]
      exact ⟨hsum.mp rfl, hfee.mp rfl⟩

/-- On a pending order, `AddItem` of an item with a currency is the
recalculation of the order with the item appended, its `Subtotal` and `Total`
the rounded product. -/
theorem Order.AddItem_pending (o : Order) (item : OrderItem)
    (hp : o.Status = OrderStatusPending) (hc : item.UnitPrice.Currency ≠ "") :
    o.AddItem item
      = Order.recalculateOrderTotals
          { o with Items := o.Items ++
              [{ item with
                  Subtotal := ⟨F64.div (F64.Round (F64.mul (F64.mul item.UnitPrice.Amount
                    (F64.ofInt item.Quantity.val)) 100)) 100, item.UnitPrice.Currency⟩,
                  Total := ⟨F64.div (F64.Round (F64.mul (F64.mul item.UnitPrice.Amount
                    (F64.ofInt item.Quantity.val)) 100)) 100, item.UnitPrice.Currency⟩ }] } := by
  rcases vo.Money.Multiply_cases item.UnitPrice (F64.ofInt item.Quantity.val) with
    ⟨he, _⟩ | ⟨_, hm⟩
  · exact absurd he hc
  · unfold Order.AddItem
    rw [if_neg (by simp [hp]), hm]

set_option maxRecDepth 100000 in
/-- C35, as stated, fails: the order `NewOrder` returns is pending; a first
`AddItem` of an item priced in USD fails and leaves the item in `Items`
(status still pending); on that order `AddItem` of an item priced
`NewMoney(10, "THB")` returns "cannot add different currencies". -/
theorem C35_AddItem_fails_after_foreign_item :
    (Order.sample.AddItem (OrderItem.ofPrice 1 ⟨10, "USD"⟩ 1)).1.Status = "pending" ∧
    (OrderItem.ofPrice 2 (vo.NewMoney 10 "THB").1 1).UnitPrice.Currency = "THB" ∧
    ((Order.sample.AddItem (OrderItem.ofPrice 1 ⟨10, "USD"⟩ 1)).1.AddItem
      (OrderItem.ofPrice 2 (vo.NewMoney 10 "THB").1 1)).2
      = some "cannot add different currencies" := by
  decide

/-- C35, amended: for every pending order and every item whose `UnitPrice` is
a THB `Money`, `AddItem` appends exactly one item at the end of `Items`,
leaves the existing items unchanged and in order, and stores the new item
with `Subtotal` and `Total` both equal to `UnitPrice*Quantity` rounded to 2
decimals, overriding what the caller supplied, whether it then returns an
error or not; it succeeds exactly when every total of the existing items and
every fee of the order that is not zero is in THB, and otherwise returns a
currency mismatch. -/
theorem C35_AddItem (o : Order) (item : OrderItem) (hp : o.Status = OrderStatusPending)
    (hc : item.UnitPrice.Currency = "THB") :
    (o.AddItem item).1.Items
      = o.Items ++
          [{ item with
              Subtotal := ⟨F64.div (F64.Round (F64.mul (F64.mul item.UnitPrice.Amount
                (F64.ofInt item.Quantity.val)) 100)) 100, "THB"⟩,
              Total := ⟨F64.div (F64.Round (F64.mul (F64.mul item.UnitPrice.Amount
                (F64.ofInt item.Quantity.val)) 100)) 100, "THB"⟩ }] ∧
    (item.UnitPrice.Multiply (F64.ofInt item.Quantity.val)).1
      = ⟨F64.div (F64.Round (F64.mul (F64.mul item.UnitPrice.Amount
          (F64.ofInt item.Quantity.val)) 100)) 100, "THB"⟩ ∧
    ((o.AddItem item).2 = none ↔ o.AllTHB) ∧
    (¬ o.AllTHB →
      (o.AddItem item).2 = some "cannot add different currencies" ∨
      (o.AddItem item).2 = some "cannot subtract different currencies") := by
  have hne : item.UnitPrice.Currency ≠ "" := by rw [hc]; decide
  have hadd := Order.AddItem_pending o item hp hne
  rw [hc] at hadd
  have hiff : (o.AddItem item).2 = none ↔ o.AllTHB := by
    rw [hadd, Order.recalculateOrderTotals_ok_iff]
    unfold Order.AllTHB
    simp only [List.mem_append, List.mem_singleton]
    constructor
    · rintro ⟨h1, h2⟩
      exact ⟨fun i hi => h1 i (Or.inl hi), h2⟩
    · rintro ⟨h1, h2⟩
      refine ⟨fun i hi => ?_, h2⟩
      rcases hi with hi | hi
      · exact h1 i hi
      · rw [hi]
  refine ⟨?_, ?_, hiff, ?_⟩
  · rw [hadd, Order.recalculateOrderTotals_Items]
  · rcases vo.Money.Multiply_cases item.UnitPrice (F64.ofInt item.Quantity.val) with
      ⟨he, _⟩ | ⟨_, hm⟩
    · exact absurd he hne
    · rw [hm, hc]
  · intro hn
    have hfail : (o.AddItem item).2 ≠ none := fun h => hn (hiff.mp h)
    rcases he : (o.AddItem item).2 with _ | e
    · exact absurd he hfail
    · rw [hadd] at he
      rcases Order.recalculateOrderTotals_error_kind _ e he with h | h
      · exact Or.inl (by rw [h])
      · exact Or.inr (by rw [h])

set_option maxRecDepth 100000 in
/-- C35, amended, on the order `NewOrder` returns and an item of quantity 3
priced `NewMoney(19.99, "THB")`: the call succeeds and the item holds the
total `59.97`. -/
theorem C35_AddItem_witness :
    Order.sample.Status = OrderStatusPending ∧
    (OrderItem.ofPrice 7 (vo.NewMoney (F64.lit 1999 100) "THB").1 3).UnitPrice.Currency
      = "THB" ∧
    Order.sample.AllTHB ∧
    (Order.sample.AddItem (OrderItem.ofPrice 7 (vo.NewMoney (F64.lit 1999 100) "THB").1 3)).2
      = none ∧
    ((Order.sample.AddItem
      (OrderItem.ofPrice 7 (vo.NewMoney (F64.lit 1999 100) "THB").1 3)).1.Items.map
        (fun i => i.Total)) = [⟨F64.lit 5997 100, "THB"⟩] :=
  ⟨by decide, by decide, by decide,
   (C35_AddItem Order.sample (OrderItem.ofPrice 7 (vo.NewMoney (F64.lit 1999 100) "THB").1 3)
      (by decide) (by decide)).2.2.1.mpr (by decide),
   by
     rw [(C35_AddItem Order.sample
       (OrderItem.ofPrice 7 (vo.NewMoney (F64.lit 1999 100) "THB").1 3)
       (by decide) (by decide)).1]
     decide⟩

/-- An item list that holds an item with the given ID splits at the first
such item. -/
theorem Order.exists_first_item (itemID : Nat) (items : List OrderItem)
    (h : ∃ x ∈ items, x.OrderItemID = itemID) :
    ∃ l1 it l2, items = l1 ++ it :: l2 ∧ (∀ x ∈ l1, x.OrderItemID ≠ itemID) ∧
      it.OrderItemID = itemID := by
  induction items with
  | nil => simp at h
  | cons item rest ih =>
    by_cases hi : item.OrderItemID = itemID
    · exact ⟨[], item, rest, rfl, by simp, hi⟩
    · obtain ⟨x, hx, hxid⟩ := h
      have hrest : ∃ x ∈ rest, x.OrderItemID = itemID := by
        rcases List.mem_cons.mp hx with h1 | h1
        · rw [h1] at hxid
          exact absurd hxid hi
        · exact ⟨x, h1, hxid⟩
      obtain ⟨l1, it, l2, heq, hl1, hit⟩ := ih hrest
      refine ⟨item :: l1, it, l2, by rw [heq]; rfl, ?_, hit⟩
      intro y hy
      rcases List.mem_cons.mp hy with h1 | h1
      · rw [h1]; exact hi
      · exact hl1 y h1

/-- The loop of `UpdateItem` on a list without the ID changes nothing. -/
theorem Order.updateItemLoop_absent (itemID : Nat) (quantity : GoInt) (items : List OrderItem)
    (h : ∀ x ∈ items, x.OrderItemID ≠ itemID) :
    Order.updateItemLoop itemID quantity items = (items, false, none) := by
  induction items with
  | nil => rfl
  | cons item rest ih =>
    have h1 : item.OrderItemID ≠ itemID := h item (List.mem_cons_self _ _)
    have h2 := ih (fun x hx => h x (List.mem_cons_of_mem _ hx))
    simp only [Order.updateItemLoop, if_neg h1, h2]

/-- The loop of `UpdateItem` stops at the first item with the ID: it returns
the error of `Multiply` with the list as it was, or rewrites that item. -/
theorem Order.updateItemLoop_first (itemID : Nat) (quantity : GoInt)
    (l1 : List OrderItem) (it : OrderItem) (l2 : List OrderItem)
    (hl1 : ∀ x ∈ l1, x.OrderItemID ≠ itemID) (hit : it.OrderItemID = itemID) :
    (it.UnitPrice.Currency = "" →
      Order.updateItemLoop itemID quantity (l1 ++ it :: l2)
        = (l1 ++ it :: l2, false, some "currency cannot be empty")) ∧
    (it.UnitPrice.Currency ≠ "" →
      Order.updateItemLoop itemID quantity (l1 ++ it :: l2)
        = (l1 ++
            { it with
              Quantity := quantity,
              Subtotal := ⟨F64.div (F64.Round (F64.mul (F64.mul it.UnitPrice.Amount
                (F64.ofInt quantity.val)) 100)) 100, it.UnitPrice.Currency⟩,
              Total := ⟨F64.div (F64.Round (F64.mul (F64.mul it.UnitPrice.Amount
                (F64.ofInt quantity.val)) 100)) 100, it.UnitPrice.Currency⟩ } :: l2,
            true, none)) := by
  induction l1 with
  | nil =>
    rcases vo.Money.Multiply_cases it.UnitPrice (F64.ofInt quantity.val) with
      ⟨he, hm⟩ | ⟨he, hm⟩
    · refine ⟨fun _ => ?_, fun h => absurd he h⟩
      simp only [List.nil_append, Order.updateItemLoop, if_pos hit, hm]
    · refine ⟨fun h => absurd h he, fun _ => ?_⟩
      simp only [List.nil_append, Order.updateItemLoop, if_pos hit, hm]
  | cons item rest ih =>
    have h1 : item.OrderItemID ≠ itemID := hl1 item (List.mem_cons_self _ _)
    obtain ⟨ih1, ih2⟩ := ih (fun x hx => hl1 x (List.mem_cons_of_mem _ hx))
    constructor
    · intro he
      rw [List.cons_append, Order.updateItemLoop, if_neg h1, ih1 he]
    · intro he
      rw [List.cons_append, Order.updateItemLoop, if_neg h1, ih2 he]
      rfl

/-- The loop of `RemoveItem` finds nothing on a list without the ID. -/
theorem Order.findItemIndex_absent (itemID : Nat) (items : List OrderItem)
    (h : ∀ x ∈ items, x.OrderItemID ≠ itemID) : Order.findItemIndex itemID items = none := by
  induction items with
  | nil => rfl
  | cons item rest ih =>
    have h1 : item.OrderItemID ≠ itemID := h item (List.mem_cons_self _ _)
    simp only [Order.findItemIndex, if_neg h1, ih (fun x hx => h x (List.mem_cons_of_mem _ hx)),
      Option.map_none']

/-- The loop of `RemoveItem` stops at the first item with the ID. -/
theorem Order.findItemIndex_first (itemID : Nat) (l1 : List OrderItem) (it : OrderItem)
    (l2 : List OrderItem) (hl1 : ∀ x ∈ l1, x.OrderItemID ≠ itemID)
    (hit : it.OrderItemID = itemID) :
    Order.findItemIndex itemID (l1 ++ it :: l2) = some l1.length := by
  induction l1 with
  | nil => simp only [List.nil_append, Order.findItemIndex, if_pos hit, List.length_nil]
  | cons item rest ih =>
    have h1 : item.OrderItemID ≠ itemID := hl1 item (List.mem_cons_self _ _)
    rw [List.cons_append, Order.findItemIndex, if_neg h1,
      ih (fun x hx => hl1 x (List.mem_cons_of_mem _ hx)), Option.map_some', List.length_cons]

set_option maxRecDepth 100000 in
/-- C36, as stated, fails: on a pending order whose only item has ID 1 and a
`UnitPrice` that was never initialised (`Money{}`), `UpdateItem(1, 5)` has a
positive quantity and finds the item, yet it returns "currency cannot be
empty" and leaves the item as it was (`Quantity` still 1). -/
theorem C36_UpdateItem_empty_currency :
    ({ Order.sample with Items := [OrderItem.ofPrice 1 ⟨0, ""⟩ 1] } : Order).Status
      = "pending" ∧
    (({ Order.sample with Items := [OrderItem.ofPrice 1 ⟨0, ""⟩ 1] } : Order).Items.map
      (fun i => i.OrderItemID)) = [1] ∧
    0 < (5 : GoInt).val ∧
    ({ Order.sample with Items := [OrderItem.ofPrice 1 ⟨0, ""⟩ 1] } : Order).UpdateItem 1 5
      = ({ Order.sample with Items := [OrderItem.ofPrice 1 ⟨0, ""⟩ 1] },
          some "currency cannot be empty") ∧
    ((({ Order.sample with Items := [OrderItem.ofPrice 1 ⟨0, ""⟩ 1] } : Order).UpdateItem
      1 5).1.Items.map (fun i => i.Quantity.val)) = [1] := by
  decide

/-- C36, amended: for every pending order, item ID and quantity, `UpdateItem`
fails with "quantity must be greater than zero" when `quantity <= 0`, with
"item not found in order" when no item has that `OrderItemID`, and with
"currency cannot be empty" when the `UnitPrice` of the first item with that
`OrderItemID` has no currency, in all three cases leaving the order
unchanged; otherwise it changes only the first item with that `OrderItemID`,
setting its `Quantity` to `quantity` and its `Subtotal` and `Total` to
`UnitPrice*quantity` rounded to 2 decimals, keeps the number and order of
items, and leaves every other item unchanged. -/
theorem C36_UpdateItem (o : Order) (itemID : Nat) (quantity : GoInt)
    (hp : o.Status = OrderStatusPending) :
    (quantity.val ≤ 0 →
      o.UpdateItem itemID quantity = (o, some "quantity must be greater than zero")) ∧
    (0 < quantity.val → (∀ x ∈ o.Items, x.OrderItemID ≠ itemID) →
      o.UpdateItem itemID quantity = (o, some "item not found in order")) ∧
    (0 < quantity.val → ∀ l1 it l2, o.Items = l1 ++ it :: l2 →
      (∀ x ∈ l1, x.OrderItemID ≠ itemID) → it.OrderItemID = itemID →
      (it.UnitPrice.Currency = "" →
        o.UpdateItem itemID quantity = (o, some "currency cannot be empty")) ∧
      (it.UnitPrice.Currency ≠ "" →
        (o.UpdateItem itemID quantity).1.Items
          = l1 ++
              { it with
                Quantity := quantity,
                Subtotal := ⟨F64.div (F64.Round (F64.mul (F64.mul it.UnitPrice.Amount
                  (F64.ofInt quantity.val)) 100)) 100, it.UnitPrice.Currency⟩,
                Total := ⟨F64.div (F64.Round (F64.mul (F64.mul it.UnitPrice.Amount
                  (F64.ofInt quantity.val)) 100)) 100, it.UnitPrice.Currency⟩ } :: l2 ∧
        (o.UpdateItem itemID quantity).1.Items.length = o.Items.length)) := by
  have hnp : ¬ o.Status ≠ OrderStatusPending := by simp [hp]
  refine ⟨?_, ?_, ?_⟩
  · intro hq
    unfold Order.UpdateItem
    rw [if_neg hnp, if_pos hq]
  · intro hq hno
    unfold Order.UpdateItem
    rw [if_neg hnp, if_neg (by omega), Order.updateItemLoop_absent itemID quantity o.Items hno]
    rfl
  · intro hq l1 it l2 heq hl1 hit
    obtain ⟨h1, h2⟩ := Order.updateItemLoop_first itemID quantity l1 it l2 hl1 hit
    constructor
    · intro he
      unfold Order.UpdateItem
      rw [if_neg hnp, if_neg (by omega), heq, h1 he]
    · intro he
      have hu : o.UpdateItem itemID quantity
          = Order.recalculateOrderTotals
              { o with Items := l1 ++
                { it with
                  Quantity := quantity,
                  Subtotal := ⟨F64.div (F64.Round (F64.mul (F64.mul it.UnitPrice.Amount
                    (F64.ofInt quantity.val)) 100)) 100, it.UnitPrice.Currency⟩,
                  Total := ⟨F64.div (F64.Round (F64.mul (F64.mul it.UnitPrice.Amount
                    (F64.ofInt quantity.val)) 100)) 100, it.UnitPrice.Currency⟩ } :: l2 } := by
        unfold Order.UpdateItem
        rw [if_neg hnp, if_neg (by omega), heq, h2 he]
        rfl
      rw [hu, Order.recalculateOrderTotals_Items, heq]
      exact ⟨rfl, by simp⟩

set_option maxRecDepth 100000 in
/-- C36, amended, on the order `NewOrder` returns after `AddItem` of an item
with ID 1, quantity 1 and price `NewMoney(10, "THB")`: `UpdateItem(1, 3)`
leaves one item, with quantity 3 and total `30`. -/
theorem C36_UpdateItem_witness :
    (Order.sample.AddItem (OrderItem.ofPrice 1 (vo.NewMoney 10 "THB").1 1)).1.Status
      = OrderStatusPending ∧
    0 < (3 : GoInt).val ∧
    ((((Order.sample.AddItem (OrderItem.ofPrice 1 (vo.NewMoney 10 "THB").1 1)).1.UpdateItem
      1 3).1.Items.map (fun i => (i.OrderItemID, i.Quantity.val, i.Total)))
      = [(1, 3, ⟨30, "THB"⟩)]) :=
  ⟨by decide, by decide, by
    rw [((C36_UpdateItem (Order.sample.AddItem (OrderItem.ofPrice 1 (vo.NewMoney 10 "THB").1 1)).1
      1 3 (by decide)).2.2 (by decide) []
        { OrderItem.ofPrice 1 (vo.NewMoney 10 "THB").1 1 with
          Subtotal := ⟨10, "THB"⟩, Total := ⟨10, "THB"⟩ } [] (by decide) (by decide)
        (by decide)).2 (by decide) |>.1]
    decide⟩

/-- C37: for every pending order and item ID, `RemoveItem` fails with "item
not found in order" exactly when no item has that `OrderItemID`, leaving the
order unchanged; otherwise it removes exactly the first item with that
`OrderItemID`, so `Items` becomes one shorter and all remaining items keep
their values and relative order. -/
theorem C37_RemoveItem (o : Order) (itemID : Nat) (hp : o.Status = OrderStatusPending) :
    ((o.RemoveItem itemID).2 = some "item not found in order" ↔
      ∀ x ∈ o.Items, x.OrderItemID ≠ itemID) ∧
    ((∀ x ∈ o.Items, x.OrderItemID ≠ itemID) →
      o.RemoveItem itemID = (o, some "item not found in order")) ∧
    (∀ l1 it l2, o.Items = l1 ++ it :: l2 →
      (∀ x ∈ l1, x.OrderItemID ≠ itemID) → it.OrderItemID = itemID →
      (o.RemoveItem itemID).1.Items = l1 ++ l2 ∧
      (o.RemoveItem itemID).1.Items.length + 1 = o.Items.length) := by
  have hnp : ¬ o.Status ≠ OrderStatusPending := by simp [hp]
  have habsent : (∀ x ∈ o.Items, x.OrderItemID ≠ itemID) →
      o.RemoveItem itemID = (o, some "item not found in order") := by
    intro hno
    unfold Order.RemoveItem
    rw [if_neg hnp, Order.findItemIndex_absent itemID o.Items hno]
  have hfound : ∀ l1 it l2, o.Items = l1 ++ it :: l2 →
      (∀ x ∈ l1, x.OrderItemID ≠ itemID) → it.OrderItemID = itemID →
      o.RemoveItem itemID = Order.recalculateOrderTotals { o with Items := l1 ++ l2 } := by
    intro l1 it l2 heq hl1 hit
    unfold Order.RemoveItem
    rw [if_neg hnp, heq, Order.findItemIndex_first itemID l1 it l2 hl1 hit]
    simp
  refine ⟨⟨?_, fun hno => by rw [habsent hno]⟩, habsent, ?_⟩
  · intro herr x hx hxid
    obtain ⟨l1, it, l2, heq, hl1, hit⟩ := Order.exists_first_item itemID o.Items ⟨x, hx, hxid⟩
    rw [hfound l1 it l2 heq hl1 hit] at herr
    rcases Order.recalculateOrderTotals_error_kind _ _ herr with h | h <;>
      exact absurd h (by decide)
  · intro l1 it l2 heq hl1 hit
    rw [hfound l1 it l2 heq hl1 hit, Order.recalculateOrderTotals_Items, heq]
    exact ⟨rfl, by simp; omega⟩

set_option maxRecDepth 100000 in
/-- C37 on the order `NewOrder` returns after `AddItem` of two items with the
IDs 1 and 2: `RemoveItem(1)` leaves the item 2, and `RemoveItem(3)` fails with
"item not found in order". -/
theorem C37_RemoveItem_witness :
    ((Order.sample.AddItem (OrderItem.ofPrice 1 (vo.NewMoney 10 "THB").1 1)).1.AddItem
      (OrderItem.ofPrice 2 (vo.NewMoney 5 "THB").1 1)).1.Status = OrderStatusPending ∧
    (((((Order.sample.AddItem (OrderItem.ofPrice 1 (vo.NewMoney 10 "THB").1 1)).1.AddItem
      (OrderItem.ofPrice 2 (vo.NewMoney 5 "THB").1 1)).1.RemoveItem 1).1.Items.map
        (fun i => i.OrderItemID)) = [2]) ∧
    (((Order.sample.AddItem (OrderItem.ofPrice 1 (vo.NewMoney 10 "THB").1 1)).1.AddItem
      (OrderItem.ofPrice 2 (vo.NewMoney 5 "THB").1 1)).1.RemoveItem 3).2
      = some "item not found in order" :=
  ⟨by decide, by
    rw [((C37_RemoveItem
      ((Order.sample.AddItem (OrderItem.ofPrice 1 (vo.NewMoney 10 "THB").1 1)).1.AddItem
        (OrderItem.ofPrice 2 (vo.NewMoney 5 "THB").1 1)).1 1 (by decide)).2.2 []
        { OrderItem.ofPrice 1 (vo.NewMoney 10 "THB").1 1 with
          Subtotal := ⟨10, "THB"⟩, Total := ⟨10, "THB"⟩ }
        [{ OrderItem.ofPrice 2 (vo.NewMoney 5 "THB").1 1 with
          Subtotal := ⟨5, "THB"⟩, Total := ⟨5, "THB"⟩ }]
        (by decide) (by decide) (by decide)).1]
    decide,
   (C37_RemoveItem
      ((Order.sample.AddItem (OrderItem.ofPrice 1 (vo.NewMoney 10 "THB").1 1)).1.AddItem
        (OrderItem.ofPrice 2 (vo.NewMoney 5 "THB").1 1)).1 3 (by decide)).1.mpr (by decide)⟩

/-- C38, as stated, fails: the record with `Quantity = maxInt` and
`ReservedQuantity = 5` satisfies `0 <= ReservedQuantity <= Quantity`, and
after `AddStock(1)`, which succeeds, `Quantity` is `minInt`, below
`ReservedQuantity`. -/
theorem C38_AddStock_breaks_invariant :
    (Inventory.ofStock (GoInt.ofInt maxInt) 5).Invariant ∧
    ((Inventory.ofStock (GoInt.ofInt maxInt) 5).AddStock 1 1).2 = none ∧
    ((Inventory.ofStock (GoInt.ofInt maxInt) 5).AddStock 1 1).1.Quantity.val
      = -9223372036854775808 ∧
    ((Inventory.ofStock (GoInt.ofInt maxInt) 5).AddStock 1 1).1.ReservedQuantity.val = 5 ∧
    ¬ ((Inventory.ofStock (GoInt.ofInt maxInt) 5).AddStock 1 1).1.Invariant := by
  decide

/-- C38, amended: each of `ReserveStock`, `ReleaseReservedStock` and
`CommitReservedStock` individually preserves the inventory invariant, for
every record with `0 <= ReservedQuantity <= Quantity` and every integer
argument, whether the call succeeds or fails; `AddStock` preserves it for
every integer argument whose sum with `Quantity` is at most the greatest
`int`. -/
theorem C38_calls_preserve_invariant (i : Inventory) (q : GoInt) (now : Time)
    (h : i.Invariant) :
    (i.ReserveStock q now).1.Invariant ∧
    (i.ReleaseReservedStock q now).1.Invariant ∧
    (i.CommitReservedStock q now).1.Invariant ∧
    (i.Quantity.val + q.val ≤ maxInt → (i.AddStock q now).1.Invariant) :=
  ⟨Inventory.call_invariant i (.ReserveStock q) now h trivial,
   Inventory.call_invariant i (.ReleaseReservedStock q) now h trivial,
   Inventory.call_invariant i (.CommitReservedStock q) now h trivial,
   fun hq => Inventory.call_invariant i (.AddStock q) now h hq⟩

/-- C38, amended, on the record with `Quantity = 10` and
`ReservedQuantity = 5` and the argument 4. -/
theorem C38_calls_preserve_invariant_witness :
    (Inventory.ofStock 10 5).Invariant ∧
    ((Inventory.ofStock 10 5).ReserveStock 4 1).1.Invariant ∧
    ((Inventory.ofStock 10 5).ReleaseReservedStock 4 1).1.Invariant ∧
    ((Inventory.ofStock 10 5).CommitReservedStock 4 1).1.Invariant ∧
    ((Inventory.ofStock 10 5).AddStock 4 1).1.Invariant :=
  ⟨by decide,
   (C38_calls_preserve_invariant (Inventory.ofStock 10 5) 4 1 (by decide)).1,
   (C38_calls_preserve_invariant (Inventory.ofStock 10 5) 4 1 (by decide)).2.1,
   (C38_calls_preserve_invariant (Inventory.ofStock 10 5) 4 1 (by decide)).2.2.1,
   (C38_calls_preserve_invariant (Inventory.ofStock 10 5) 4 1 (by decide)).2.2.2 (by decide)⟩

/-- A recalculation whose loop over the items fails returns the error of the
loop. -/
theorem Order.recalculateOrderTotals_sum_error (o : Order) (e : String)
    (h : (Order.sumItemTotals (vo.NewMoney 0 "THB").1 o.Items).2 = some e) :
    o.recalculateOrderTotals.2 = some e := by
  unfold Order.recalculateOrderTotals
  rcases hs : Order.sumItemTotals (vo.NewMoney 0 "THB").1 o.Items with ⟨subtotal, e2⟩
  rw [hs] at h
  simp only at h
  subst h
  rfl

/-- On a pending order, `AddItem` of an item priced in a currency other than
THB stops in the loop over the items with "cannot add different currencies". -/
theorem Order.AddItem_foreign (o : Order) (item : OrderItem)
    (hp : o.Status = OrderStatusPending) (hne : item.UnitPrice.Currency ≠ "")
    (hthb : item.UnitPrice.Currency ≠ "THB") :
    (o.AddItem item).2 = some "cannot add different currencies" := by
  rw [Order.AddItem_pending o item hp hne]
  apply Order.recalculateOrderTotals_sum_error
  rcases Order.sumItemTotals_cases
    (o.Items ++
      [{ item with
          Subtotal := ⟨F64.div (F64.Round (F64.mul (F64.mul item.UnitPrice.Amount
            (F64.ofInt item.Quantity.val)) 100)) 100, item.UnitPrice.Currency⟩,
          Total := ⟨F64.div (F64.Round (F64.mul (F64.mul item.UnitPrice.Amount
            (F64.ofInt item.Quantity.val)) 100)) 100, item.UnitPrice.Currency⟩ }])
    (vo.NewMoney 0 "THB").1 (by decide) with ⟨hok, _⟩ | herr
  · have h1 := (Order.sumItemTotals_ok_iff _ (vo.NewMoney 0 "THB").1 (by decide)).mp hok _
      (List.mem_append_right _ (List.mem_singleton_self _))
    exact absurd h1 hthb
  · exact herr

/-- C39: order totals are hard-wired to THB. For every pending order and
every item whose `UnitPrice` has a non-empty currency other than "THB"
(whatever its line total), `AddItem` returns the currency-mismatch error
"cannot add different currencies": the subtotal accumulator starts as zero
THB. So an order never successfully holds an item in another currency:
whenever `AddItem` returns no error, on any order, the item is priced in THB,
and after every item or fee mutation that returns no error all item totals of
the order are in THB. -/
theorem C39_AddItem_foreign_currency (o : Order) (item : OrderItem)
    (hp : o.Status = OrderStatusPending) (hne : item.UnitPrice.Currency ≠ "")
    (hthb : item.UnitPrice.Currency ≠ "THB") :
    (o.AddItem item).2 = some "cannot add different currencies" ∧
    (vo.NewMoney 0 "THB").1 = ⟨F64.zero false, "THB"⟩ ∧
    (∀ (o2 : Order) (item2 : OrderItem), (o2.AddItem item2).2 = none →
      item2.UnitPrice.Currency = "THB") ∧
    (∀ (o2 : Order) (c : OrderCall) (now : Time), c.IsItemOrFee → (o2.call c now).2 = none →
      ∀ i ∈ (o2.call c now).1.Items, i.Total.Currency = "THB") := by
  refine ⟨Order.AddItem_foreign o item hp hne hthb, by decide, ?_, ?_⟩
  · intro o2 item2 hok
    by_contra hc
    rcases Order.AddItem_cases o2 item2 with h | h | ⟨hp2, hne2, _⟩
    · rw [h] at hok; simp at hok
    · rw [h] at hok; simp at hok
    · rw [Order.AddItem_foreign o2 item2 hp2 hne2 hc] at hok
      simp at hok
  · intro o2 c now hc hok
    rcases Order.itemFee_cases o2 c now hc with ⟨msg, hm, _, _⟩ | ⟨o1, hm, _⟩
    · rw [hm] at hok; simp at hok
    · rw [hm] at hok ⊢
      rw [Order.recalculateOrderTotals_Items]
      exact ((Order.recalculateOrderTotals_ok_iff o1).mp hok).1

set_option maxRecDepth 100000 in
/-- C39 on the order `NewOrder` returns and an item priced 10 USD. -/
theorem C39_AddItem_foreign_currency_witness :
    Order.sample.Status = OrderStatusPending ∧
    (OrderItem.ofPrice 1 ⟨10, "USD"⟩ 1).UnitPrice.Currency ≠ "" ∧
    (OrderItem.ofPrice 1 ⟨10, "USD"⟩ 1).UnitPrice.Currency ≠ "THB" ∧
    (Order.sample.AddItem (OrderItem.ofPrice 1 ⟨10, "USD"⟩ 1)).2
      = some "cannot add different currencies" :=
  ⟨by decide, by decide, by decide,
   (C39_AddItem_foreign_currency Order.sample (OrderItem.ofPrice 1 ⟨10, "USD"⟩ 1)
      (by decide) (by decide) (by decide)).1⟩

/-- C40: for every `Money` `m`, the zero value `Money{}` included, and every
factor `f`, `m.Multiply(f)` returns an error, "currency cannot be empty",
exactly when `m.Currency` is the empty string; consequently `AddItem` on a
pending order fails, with the order as it was, for any item whose `UnitPrice`
has no currency, as a `UnitPrice` that was never initialised has. -/
theorem C40_Multiply_empty_currency (m : vo.Money) (f : F64) (o : Order) (item : OrderItem) :
    ((m.Multiply f).2 ≠ none ↔ m.Currency = "") ∧
    (m.Currency = "" → m.Multiply f = (⟨0, ""⟩, some "currency cannot be empty")) ∧
    (vo.Money.mk 0 "").Multiply f = (⟨0, ""⟩, some "currency cannot be empty") ∧
    (o.Status = OrderStatusPending → item.UnitPrice.Currency = "" →
      o.AddItem item = (o, some "currency cannot be empty")) ∧
    (o.Status = OrderStatusPending → item.UnitPrice = ⟨0, ""⟩ →
      o.AddItem item = (o, some "currency cannot be empty")) := by
  have hadd : o.Status = OrderStatusPending → item.UnitPrice.Currency = "" →
      o.AddItem item = (o, some "currency cannot be empty") := by
    intro hp he
    rcases vo.Money.Multiply_cases item.UnitPrice (F64.ofInt item.Quantity.val) with
      ⟨_, hm⟩ | ⟨hne, _⟩
    · unfold Order.AddItem
      rw [if_neg (by simp [hp]), hm]
    · exact absurd he hne
  refine ⟨?_, ?_, ?_, hadd, ?_⟩
  · rcases vo.Money.Multiply_cases m f with ⟨he, hm⟩ | ⟨hne, hm⟩
    · rw [hm]; simp [he]
    · rw [hm]; simp [hne]
  · intro he
    rcases vo.Money.Multiply_cases m f with ⟨_, hm⟩ | ⟨hne, _⟩
    · exact hm
    · exact absurd he hne
  · rcases vo.Money.Multiply_cases ⟨0, ""⟩ f with ⟨_, hm⟩ | ⟨hne, _⟩
    · exact hm
    · exact absurd rfl hne
  · intro hp he
    exact hadd hp (by rw [he])

set_option maxRecDepth 100000 in
/-- C40 on `Money{}` times 3, on `19.99 THB` times 3, and on `AddItem` of an
item with the zero `UnitPrice` on the order `NewOrder` returns. -/
theorem C40_Multiply_empty_currency_witness :
    (vo.Money.mk 0 "").Multiply 3 = (⟨0, ""⟩, some "currency cannot be empty") ∧
    ((vo.Money.mk (F64.lit 1999 100) "THB").Multiply 3).2 = none ∧
    Order.sample.Status = OrderStatusPending ∧
    Order.sample.AddItem (OrderItem.ofPrice 1 ⟨0, ""⟩ 2)
      = (Order.sample, some "currency cannot be empty") :=
  ⟨(C40_Multiply_empty_currency ⟨0, ""⟩ 3 Order.sample (OrderItem.ofPrice 1 ⟨0, ""⟩ 2)).2.1
      (by decide),
   by decide, by decide,
   (C40_Multiply_empty_currency ⟨0, ""⟩ 3 Order.sample
      (OrderItem.ofPrice 1 ⟨0, ""⟩ 2)).2.2.2.1 (by decide) (by decide)⟩

/-! ## Exact totals in hundredths -/

/-- Go's `float64(k)` is the `float64` nearest to the integer `k`. -/
theorem F64.ofInt_nearest (k : ℤ) :
    F64.ofInt k = F64.nearest (decide (k < 0)) k.natAbs 1 := by
  simp [F64.ofInt, F64.ofScaled]

/-- The constant `0` is the positive zero. -/
theorem F64.zero_eq : (0 : F64) = F64.zero false := by decide

/-- A zero divided by `100` is the zero of the same sign. -/
theorem F64.div_zero_hundred (s : Bool) : F64.div (F64.zero s) 100 = F64.zero s := by
  cases s <;> decide

/-- The amount of `0` hundredths is the positive zero. -/
theorem vo.centsAmount_zero : vo.centsAmount 0 = F64.zero false := by decide

/-- An amount of `k` hundredths approximates `k / 100`. -/
theorem vo.Money.IsCents.approx (m : vo.Money) (k : ℤ) (h : m.IsCents k)
    (hk : k.natAbs < 9007199254740992) : F64.Approx m.Amount ((k : ℚ) / 100) := by
  rcases h with h | ⟨h0, h⟩
  · rw [h, vo.centsAmount, F64.ofInt_nearest]
    have := F64.cents_approx (decide (k < 0)) k.natAbs hk
    rw [F64.signed_natAbs (decide (k < 0)) k (fun _ => by simp)] at this
    exact this
  · subst h0
    rw [h]
    simpa using F64.Approx_zero true

/-- The amount `NewMoney` computes from rounded hundredths of absolute value
`|k|`, with the sign of `k`, is exactly `k` hundredths. -/
theorem vo.Money.isCents_of_nearest (s : Bool) (k : ℤ) (cur : String)
    (h : k ≠ 0 → (s = true ↔ k < 0)) :
    (vo.Money.mk (F64.div (F64.nearest s k.natAbs 1) 100) cur).IsCents k := by
  rcases eq_or_ne k 0 with h0 | h0
  · subst h0
    have hn : F64.nearest s (0 : ℤ).natAbs 1 = F64.zero s := by simp [F64.nearest]
    unfold vo.Money.IsCents
    simp only [hn, F64.div_zero_hundred, vo.centsAmount_zero]
    cases s <;> simp
  · left
    have hs : s = decide (k < 0) := by
      have := h h0
      cases s <;> simp_all
    show F64.div (F64.nearest s k.natAbs 1) 100 = vo.centsAmount k
    rw [vo.centsAmount, F64.ofInt_nearest, hs]

/-- `Add` of `ka` and `kb` hundredths, when it succeeds, is exactly `ka + kb`
hundredths, as long as `|ka| + |kb|` is at most `2^45`. -/
theorem vo.Money.Add_isCents (a b c : vo.Money) (ka kb : ℤ) (hcur : a.Currency ≠ "")
    (ha : a.IsCents ka) (hb : b.IsCents kb)
    (hB : ka.natAbs + kb.natAbs ≤ 35184372088832) (hadd : a.Add b = (c, none)) :
    c.IsCents (ka + kb) ∧ c.Currency = a.Currency := by
  rcases vo.Money.Add_cases a b hcur with ⟨_, h⟩ | ⟨_, h⟩
  · rw [h] at hadd
    simp only [Prod.mk.injEq, and_true] at hadd
    subst hadd
    refine ⟨?_, rfl⟩
    have hA := vo.Money.IsCents.approx a ka ha (by omega)
    have hB2 := vo.Money.IsCents.approx b kb hb (by omega)
    have hM : |ka| + |kb| ≤ 35184372088832 := by
      have h1 := Int.natCast_natAbs ka
      have h2 := Int.natCast_natAbs kb
      omega
    obtain ⟨s, hs, hsign⟩ := F64.round_sum_cents a.Amount b.Amount ka kb hA hB2 hM
    rw [hs]
    exact vo.Money.isCents_of_nearest s (ka + kb) _ hsign
  · rw [h] at hadd
    simp at hadd

/-- `Subtract` of `kb` from `ka` hundredths, when it succeeds, is exactly
`ka - kb` hundredths, as long as `|ka| + |kb|` is at most `2^45`. -/
theorem vo.Money.Subtract_isCents (a b c : vo.Money) (ka kb : ℤ) (hcur : a.Currency ≠ "")
    (ha : a.IsCents ka) (hb : b.IsCents kb)
    (hB : ka.natAbs + kb.natAbs ≤ 35184372088832) (hsub : a.Subtract b = (c, none)) :
    c.IsCents (ka - kb) ∧ c.Currency = a.Currency := by
  rcases vo.Money.Subtract_cases a b hcur with ⟨_, h⟩ | ⟨_, h⟩
  · rw [h] at hsub
    simp only [Prod.mk.injEq, and_true] at hsub
    subst hsub
    refine ⟨?_, rfl⟩
    have hA := vo.Money.IsCents.approx a ka ha (by omega)
    have hB2 := F64.neg_approx _ _ (vo.Money.IsCents.approx b kb hb (by omega))
    have hcast : -((kb : ℚ) / 100) = (((-kb : ℤ)) : ℚ) / 100 := by push_cast; ring
    rw [hcast] at hB2
    have hM : |ka| + |(-kb)| ≤ 35184372088832 := by
      have h1 := Int.natCast_natAbs ka
      have h2 := Int.natCast_natAbs kb
      rw [abs_neg]
      omega
    obtain ⟨s, hs, hsign⟩ :=
      F64.round_sum_cents a.Amount (F64.neg b.Amount) ka (-kb) hA hB2 hM
    rw [F64.sub, hs, sub_eq_add_neg]
    exact vo.Money.isCents_of_nearest s (ka + -kb) _ hsign
  · rw [h] at hsub
    simp at hsub

/-- An amount of `k` hundredths that `IsZero` accepts has `k = 0`. -/
theorem vo.Money.IsCents.eq_zero (m : vo.Money) (k : ℤ) (h : m.IsCents k)
    (hk : k.natAbs < 9007199254740992) (hz : m.IsZero = true) : k = 0 := by
  by_contra hne
  obtain ⟨s, mm, e, hx, hm, -⟩ := vo.Money.IsCents.approx m k h hk
  have hv : (k : ℚ) / 100 ≠ 0 := by
    have : (k : ℚ) ≠ 0 := by exact_mod_cast hne
    positivity
  rcases hm with ⟨_, _, h0⟩ | ⟨h1, _, _, _⟩
  · exact hv h0
  · unfold vo.Money.IsZero at hz
    rw [hx, F64.zero_eq] at hz
    simp only [F64.zero, F64.eq, F64.commonExp, F64.scaled] at hz
    have hm0 : mm ≠ 0 := by omega
    simp [hm0] at hz
    cases s <;> simp at hz <;> omega

/-- An amount is at most one exact number of hundredths, among those of
absolute value at most `2^45`. -/
theorem vo.Money.IsCents.unique (m : vo.Money) (k j : ℤ) (hk : m.IsCents k)
    (hj : m.IsCents j) (bk : k.natAbs ≤ 35184372088832) (bj : j.natAbs ≤ 35184372088832) :
    k = j := by
  obtain ⟨s, mm, e, hx, -, e1⟩ := vo.Money.IsCents.approx m k hk (by omega)
  obtain ⟨_, _, _, -, -, e2⟩ := vo.Money.IsCents.approx m j hj (by omega)
  have ak : |(k : ℚ)| ≤ 35184372088832 := by
    have h1 := Int.natCast_natAbs k
    have : |k| ≤ 35184372088832 := by omega
    exact_mod_cast this
  have aj : |(j : ℚ)| ≤ 35184372088832 := by
    have h1 := Int.natCast_natAbs j
    have : |j| ≤ 35184372088832 := by omega
    exact_mod_cast this
  have hkk : |(k : ℚ) / 100| = |(k : ℚ)| / 100 := by
    rw [abs_div]; norm_num
  have hjj : |(j : ℚ) / 100| = |(j : ℚ)| / 100 := by
    rw [abs_div]; norm_num
  rw [hkk] at e1
  rw [hjj] at e2
  have tri : |(k : ℚ) / 100 - (j : ℚ) / 100|
      ≤ |F64.toRat m.Amount - (k : ℚ) / 100| + |F64.toRat m.Amount - (j : ℚ) / 100| := by
    have := abs_sub_le ((k : ℚ) / 100) (F64.toRat m.Amount) ((j : ℚ) / 100)
    rw [abs_sub_comm ((k : ℚ) / 100) (F64.toRat m.Amount)] at this
    exact this
  have hd : |(k : ℚ) / 100 - (j : ℚ) / 100| = |(k : ℚ) - j| / 100 := by
    rw [← sub_div, abs_div]; norm_num
  rw [hd] at tri
  have hlt : |(k : ℚ) - j| < 1 := by
    have p1 := abs_nonneg (F64.toRat m.Amount - (k : ℚ) / 100)
    have p2 := abs_nonneg (F64.toRat m.Amount - (j : ℚ) / 100)
    linarith
  have hint : |k - j| < 1 := by exact_mod_cast hlt
  have := abs_lt.mp hint
  omega

/-- A value `NewMoney` returns that lies strictly between `-10^11` and `10^11`
is an exact number of hundredths, of absolute value at most `10^13`. -/
theorem vo.NewMoney_isCents (amount : F64) (currency : String) (m : vo.Money)
    (h : vo.NewMoney amount currency = (m, none))
    (h1 : F64.lt (F64.neg 100000000000) m.Amount = true)
    (h2 : F64.lt m.Amount 100000000000 = true) :
    ∃ k : ℤ, m.IsCents k ∧ k.natAbs ≤ 10000000000000 := by
  have ha := vo.NewMoney_amount amount currency m h
  rw [ha] at h1 h2
  obtain ⟨s, K, hr, hK⟩ :=
    F64.cents_of_bounded _ (F64.Round_mul_hundred_cases amount) h1 h2
  refine ⟨if s = true then -(K : ℤ) else (K : ℤ), ?_, ?_⟩
  · have hn : (if s = true then -(K : ℤ) else (K : ℤ)).natAbs = K := by
      cases s <;> simp
    have := vo.Money.isCents_of_nearest s (if s = true then -(K : ℤ) else (K : ℤ))
      m.Currency (by cases s <;> simp; omega)
    rw [hn, ← hr, ← ha] at this
    exact this
  · cases s <;> simp <;> omega

/-- The absolute value of an integer sum is at most the sum of the absolute
values. -/
theorem Order.natAbs_sum_le (ks : List ℤ) : ks.sum.natAbs ≤ (ks.map Int.natAbs).sum := by
  induction ks with
  | nil => simp
  | cons k rest ih =>
    simp only [List.sum_cons, List.map_cons]
    have := Int.natAbs_add_le k rest.sum
    omega

/-- The loop over the items, from an accumulator of `a` hundredths: when it
succeeds the sum is exactly `a` plus the integer sum of the item totals. -/
theorem Order.sumItemTotals_isCents (items : List OrderItem) (ks : List ℤ)
    (hitems : List.Forall₂ (fun (i : OrderItem) (k : ℤ) => i.Total.IsCents k) items ks)
    (acc : vo.Money) (a : ℤ) (hcur : acc.Currency ≠ "") (hacc : acc.IsCents a)
    (hB : a.natAbs + (ks.map Int.natAbs).sum ≤ 35184372088832)
    (hok : (Order.sumItemTotals acc items).2 = none) :
    (Order.sumItemTotals acc items).1.IsCents (a + ks.sum) := by
  induction hitems generalizing acc a with
  | nil => simpa [Order.sumItemTotals] using hacc
  | @cons item k rest ks1 hk _ ih =>
    simp only [List.map_cons, List.sum_cons] at hB ⊢
    unfold Order.sumItemTotals at hok ⊢
    rcases hadd : acc.Add item.Total with ⟨c, _ | err⟩
    · rw [hadd] at hok
      dsimp only at hok ⊢
      obtain ⟨hc, hcc⟩ :=
        vo.Money.Add_isCents acc item.Total c a k hcur hacc hk (by omega) hadd
      have := ih c (a + k) (by rw [hcc]; exact hcur) hc (by omega) hok
      rw [← add_assoc]
      exact this
    · rw [hadd] at hok
      simp at hok

/-- One fee step that adds `k` hundredths to `a` hundredths. -/
theorem vo.Money.addFee_isCents (total fee r : vo.Money) (a k : ℤ)
    (hcur : total.Currency ≠ "") (ht : total.IsCents a) (hf : fee.IsCents k)
    (hB : a.natAbs + k.natAbs ≤ 35184372088832)
    (h : (if !fee.IsZero then total.Add fee else (total, none)) = (r, none)) :
    r.IsCents (a + k) ∧ r.Currency = total.Currency := by
  by_cases hz : fee.IsZero = true
  · simp only [hz, Bool.not_true, Bool.false_eq_true, if_false, Prod.mk.injEq, and_true] at h
    subst h
    have := vo.Money.IsCents.eq_zero fee k hf (by omega) hz
    subst this
    simpa using ht
  · have hz2 : fee.IsZero = false := by simpa using hz
    simp only [hz2, Bool.not_false, if_true] at h
    exact vo.Money.Add_isCents total fee r a k hcur ht hf hB h

/-- One fee step that subtracts `k` hundredths from `a` hundredths. -/
theorem vo.Money.subtractFee_isCents (total fee r : vo.Money) (a k : ℤ)
    (hcur : total.Currency ≠ "") (ht : total.IsCents a) (hf : fee.IsCents k)
    (hB : a.natAbs + k.natAbs ≤ 35184372088832)
    (h : (if !fee.IsZero then total.Subtract fee else (total, none)) = (r, none)) :
    r.IsCents (a - k) ∧ r.Currency = total.Currency := by
  by_cases hz : fee.IsZero = true
  · simp only [hz, Bool.not_true, Bool.false_eq_true, if_false, Prod.mk.injEq, and_true] at h
    subst h
    have := vo.Money.IsCents.eq_zero fee k hf (by omega) hz
    subst this
    simpa using ht
  · have hz2 : fee.IsZero = false := by simpa using hz
    simp only [hz2, Bool.not_false, if_true] at h
    exact vo.Money.Subtract_isCents total fee r a k hcur ht hf hB h

/-- Applying the fees to a subtotal of `S` hundredths: when it succeeds, the
total is exactly `S + ship + tax - disc` hundredths, in the currency of the
subtotal. -/
theorem Order.totalWithFees_isCents (o : Order) (S ship tax disc : ℤ)
    (hcur : o.Subtotal.Currency ≠ "") (hS : o.Subtotal.IsCents S)
    (hs : o.ShippingFee.IsCents ship) (ht : o.TaxAmount.IsCents tax)
    (hd : o.DiscountAmount.IsCents disc)
    (hB : S.natAbs + ship.natAbs + tax.natAbs + disc.natAbs ≤ 35184372088832)
    (hok : o.totalWithFees.2 = none) :
    o.totalWithFees.1.IsCents (S + ship + tax - disc) ∧
    o.totalWithFees.1.Currency = o.Subtotal.Currency := by
  unfold Order.totalWithFees at hok ⊢
  rcases h1 : (if !o.ShippingFee.IsZero then o.Subtotal.Add o.ShippingFee
      else (o.Subtotal, none)) with ⟨total1, _ | err1⟩
  · rw [h1] at hok
    dsimp only at hok ⊢
    obtain ⟨c1, u1⟩ :=
      vo.Money.addFee_isCents o.Subtotal o.ShippingFee total1 S ship hcur hS hs (by omega) h1
    have hcur1 : total1.Currency ≠ "" := by rw [u1]; exact hcur
    have b1 := Int.natAbs_add_le S ship
    rcases h2 : (if !o.TaxAmount.IsZero then total1.Add o.TaxAmount
        else (total1, none)) with ⟨total2, _ | err2⟩
    · rw [h2] at hok
      dsimp only at hok ⊢
      obtain ⟨c2, u2⟩ :=
        vo.Money.addFee_isCents total1 o.TaxAmount total2 (S + ship) tax hcur1 c1 ht
          (by omega) h2
      have hcur2 : total2.Currency ≠ "" := by rw [u2]; exact hcur1
      have b2 := Int.natAbs_add_le (S + ship) tax
      rcases h3 : (if !o.DiscountAmount.IsZero then total2.Subtract o.DiscountAmount
          else (total2, none)) with ⟨total3, _ | err3⟩
      · obtain ⟨c3, u3⟩ :=
          vo.Money.subtractFee_isCents total2 o.DiscountAmount total3 (S + ship + tax)
            disc hcur2 c2 hd (by omega) h3
        exact ⟨c3, by rw [u3, u2, u1]⟩
      · rw [h3] at hok
        simp at hok
    · rw [h2] at hok
      simp at hok
  · rw [h1] at hok
    simp at hok

/-- A successful recalculation on items and fees in hundredths, of absolute
values summing to at most `2^45`, writes the exact totals. -/
theorem Order.recalculateOrderTotals_exact (o : Order) (ks : List ℤ) (ship tax disc : ℤ)
    (hk : o.HasCents ks ship tax disc)
    (hB : (ks.map Int.natAbs).sum + ship.natAbs + tax.natAbs + disc.natAbs
      ≤ 35184372088832)
    (hok : o.recalculateOrderTotals.2 = none) :
    o.recalculateOrderTotals.1.ExactTotals ks ship tax disc := by
  obtain ⟨hitems, hs, ht, hd⟩ := hk
  have hz : (vo.NewMoney 0 "THB").1 = ⟨F64.zero false, "THB"⟩ := by
    rw [vo.NewMoney_zero_THB]
  have hz0 : (vo.Money.mk (F64.zero false) "THB").IsCents 0 :=
    Or.inl vo.centsAmount_zero.symm
  have hsum := Order.sumItemTotals_isCents o.Items ks hitems ⟨F64.zero false, "THB"⟩ 0
    (by decide) hz0 (by simp only [Int.natAbs_zero]; omega)
  have hcurS := Order.sumItemTotals_cases o.Items ⟨F64.zero false, "THB"⟩ (by decide)
  have hle := Order.natAbs_sum_le ks
  unfold Order.recalculateOrderTotals at hok ⊢
  rw [hz] at hok ⊢
  rcases h1 : Order.sumItemTotals ⟨F64.zero false, "THB"⟩ o.Items with ⟨subtotal, _ | e1⟩
  · rw [h1] at hok hsum hcurS
    dsimp only at hok hsum hcurS ⊢
    have hS : subtotal.IsCents ks.sum := by simpa using hsum rfl
    have hTHB : subtotal.Currency = "THB" := by
      rcases hcurS with ⟨_, hc⟩ | hc
      · exact hc
      · simp at hc
    have hcur : subtotal.Currency ≠ "" := by rw [hTHB]; decide
    have htot := Order.totalWithFees_isCents { o with Subtotal := subtotal } ks.sum ship tax
      disc hcur hS hs ht hd (by omega)
    rcases h2 : Order.totalWithFees { o with Subtotal := subtotal } with ⟨total, _ | e2⟩
    · rw [h2] at htot
      obtain ⟨t1, t2⟩ := htot rfl
      exact ⟨hS, hTHB, t1, by rw [t2]; exact hTHB⟩
    · rw [h2] at hok
      simp at hok
  · rw [h1] at hok
    simp at hok

/-- C16, amended: for every order, so for one created by `NewOrder`, and
every call to `AddItem`, `UpdateItem`, `RemoveItem`, `SetShippingFee`,
`SetDiscount` or `SetTaxAmount` that succeeds: if afterwards every
`Items[i].Total` is an exact number `ks[i]` of hundredths and `ShippingFee`,
`TaxAmount` and `DiscountAmount` are exact numbers `ship`, `tax` and `disc` of
hundredths (the `float64` nearest to `k / 100`, which is what `NewMoney`
returns), and the absolute values of all these numbers sum to at most
`2^45 = 35184372088832` hundredths, then `Subtotal` is exactly the sum of the
`ks[i]` hundredths and `TotalAmount` is exactly that sum plus `ship` plus
`tax` minus `disc` hundredths, both in THB: the integer sums, with no
rounding drift. -/
theorem C16_totals_exact (o : Order) (c : OrderCall) (now : Time) (ks : List ℤ)
    (ship tax disc : ℤ) (hc : c.IsItemOrFee) (hs : (o.call c now).2 = none)
    (hk : (o.call c now).1.HasCents ks ship tax disc)
    (hB : (ks.map Int.natAbs).sum + ship.natAbs + tax.natAbs + disc.natAbs
      ≤ 35184372088832) :
    (o.call c now).1.ExactTotals ks ship tax disc := by
  rcases Order.itemFee_cases o c now hc with ⟨msg, hm, _, _⟩ | ⟨o1, h1, _⟩
  · rw [hm] at hs; simp at hs
  · rw [h1] at hs hk ⊢
    refine Order.recalculateOrderTotals_exact o1 ks ship tax disc ?_ hB hs
    unfold Order.HasCents at hk ⊢
    rw [Order.recalculateOrderTotals_Items, Order.recalculateOrderTotals_ShippingFee,
      Order.recalculateOrderTotals_TaxAmount, Order.recalculateOrderTotals_DiscountAmount]
      at hk
    exact hk

set_option maxRecDepth 1000000 in
/-- C16, amended, on an order with items of `10.00` and `5.05` THB, a shipping
fee of `40.00`, a tax of `1.54` and a discount of `2.00` THB, and `AddItem` of
one unit at `7.00` THB: the three item totals are `1000`, `505` and `700`
hundredths, `Subtotal` is `22.05` and `TotalAmount` is `61.59` THB. -/
theorem C16_totals_exact_witness :
    (OrderCall.AddItem
      (OrderItem.ofPrice 3 (vo.NewMoney (F64.lit 7 1) "THB").1 1)).IsItemOrFee ∧
    (Order.sampleWithFees.call (OrderCall.AddItem
      (OrderItem.ofPrice 3 (vo.NewMoney (F64.lit 7 1) "THB").1 1)) 6).2 = none ∧
    (Order.sampleWithFees.call (OrderCall.AddItem
      (OrderItem.ofPrice 3 (vo.NewMoney (F64.lit 7 1) "THB").1 1)) 6).1.HasCents
        [1000, 505, 700] 4000 154 200 ∧
    ([1000, 505, 700].map Int.natAbs).sum + (4000 : ℤ).natAbs + (154 : ℤ).natAbs
      + (200 : ℤ).natAbs ≤ 35184372088832 ∧
    (Order.sampleWithFees.call (OrderCall.AddItem
      (OrderItem.ofPrice 3 (vo.NewMoney (F64.lit 7 1) "THB").1 1)) 6).1.ExactTotals
        [1000, 505, 700] 4000 154 200 ∧
    (Order.sampleWithFees.call (OrderCall.AddItem
      (OrderItem.ofPrice 3 (vo.NewMoney (F64.lit 7 1) "THB").1 1)) 6).1.Subtotal
      = ⟨F64.lit 2205 100, "THB"⟩ ∧
    (Order.sampleWithFees.call (OrderCall.AddItem
      (OrderItem.ofPrice 3 (vo.NewMoney (F64.lit 7 1) "THB").1 1)) 6).1.TotalAmount
      = ⟨F64.lit 6159 100, "THB"⟩ :=
  ⟨trivial, by decide,
   ⟨.cons (by decide) (.cons (by decide) (.cons (by decide) .nil)),
    by decide, by decide, by decide⟩,
   by decide,
   C16_totals_exact Order.sampleWithFees (OrderCall.AddItem
      (OrderItem.ofPrice 3 (vo.NewMoney (F64.lit 7 1) "THB").1 1)) 6 [1000, 505, 700]
      4000 154 200 trivial (by decide)
      ⟨.cons (by decide) (.cons (by decide) (.cons (by decide) .nil)),
       by decide, by decide, by decide⟩
      (by decide),
   by decide, by decide⟩

end EcomMid
